import Mathlib

/-!
# Static scan client (Go package `static`): a shallow embedding

The package is a thin HTTP client: six operations build one authenticated
request each, hand it to `(*http.Client).Do`, test the status code and either
return the raw body or decode it with `encoding/json`.

Conventions of the embedding
* A Go `string` and a Go `[]byte` are both a list of bytes, `Bytes`; a byte is a
  natural number (below 256 for every value a Go program can hold).
* A Go `error` is its message (`Error()`), again `Bytes`.
* A Go result `(v, err)` is a pair of options: `none` is Go's `nil`.
* The outside world (file system, random source, transport) is an `Env`; every
  effect an operation performs is appended to a trace of `Event`s, and the
  answers of the world may depend on the trace so far.
* `client.Do` is a function of the world; `clientDo` is the zero `http.Client`
  over a network, redirects included, for the runs in which what the server
  answers first and what the operation is handed differ.
-/

namespace Static

/-- A Go `string` or `[]byte`. -/
abbrev Bytes := List Nat

/-- A Go `error`, represented by its message. -/
abbrev error := Bytes

/-- The bytes of an ASCII literal of the source. -/
def ascii (s : String) : Bytes := s.data.map Char.toNat

/-! ## `models.go` -/

/-- The Go struct `UploadResult`; JSON keys `analyzer`, `status`, `hash`, `scan_type`, `file_name`. -/
structure UploadResult where
  Analyzer : Bytes
  Status : Bytes
  Hash : Bytes
  ScanType : Bytes
  FileName : Bytes
deriving DecidableEq, Repr

/-- The Go struct `ScanLog`; `Exception` is a `*string`, `none` being the nil pointer. -/
structure ScanLog where
  Timestamp : Bytes
  Status : Bytes
  Exception : Option Bytes
deriving DecidableEq, Repr

/-- The Go struct `ScanContent` (upper-case JSON keys). -/
structure ScanContent where
  Analyzer : Bytes
  ScanType : Bytes
  FileName : Bytes
  AppName : Bytes
  PackageName : Bytes
  VersionName : Bytes
  MD5 : Bytes
  Timestamp : Bytes
  ScanLogs : List ScanLog
deriving DecidableEq, Repr

/-- The Go struct `ScanLogsResult`; `Logs` is a `[]*ScanLog`, an element `none` a nil pointer. -/
structure ScanLogsResult where
  Logs : List (Option ScanLog)
deriving DecidableEq, Repr

/-- The Go struct `ScansResult`. -/
structure ScansResult where
  Content : List ScanContent
  Count : Int
  NumPages : Int
deriving DecidableEq, Repr

/-- The Go struct `DeleteResult`; JSON key `deleted`. -/
structure DeleteResult where
  Deleted : Bytes
deriving DecidableEq, Repr

/-! ## The outside world -/

/-- What reading an open file to its end yields: the bytes `data`, then `readErr`
(`none` for a clean end of file). -/
structure FileData where
  data : Bytes
  readErr : Option error
deriving DecidableEq, Repr

/-- An `*os.File` as `os.Open` returns it. `Name` is `File.Name()`: the name as
presented to `Open`. -/
structure File where
  Name : Bytes
  data : Bytes
  readErr : Option error
deriving DecidableEq, Repr

/-- The body of a response as `io.ReadAll` sees it: the bytes it delivers and the
error, if any, that ends the stream. -/
structure Body where
  data : Bytes
  err : Option error
deriving DecidableEq, Repr

/-- The fields of `http.Response` the package reads. -/
structure Response where
  Status : Bytes
  StatusCode : Int
  Body : Body
deriving DecidableEq, Repr

/-- The `http.Header` of a request: canonical key, value. -/
abbrev Header := List (Bytes × Bytes)

/-- `Header.Set`: the key's values are replaced by the single value given. -/
def Header.Set (h : Header) (key value : Bytes) : Header :=
  h.filter (fun kv => kv.1 ≠ key) ++ [(key, value)]

/-- `Header.Get`: the first value of the key, or the empty string. -/
def Header.Get (h : Header) (key : Bytes) : Bytes :=
  match h.find? (fun kv => kv.1 = key) with
  | some kv => kv.2
  | none => []

/-- The fields of `http.Request` the package sets. `URL` is the string handed to
`http.NewRequest`, `Body` the bytes of the reader handed to it. -/
structure Request where
  Method : Bytes
  URL : Bytes
  Header : Header
  Body : Bytes
deriving DecidableEq, Repr

/-- What an operation does to the outside world, in order. `send req` is the call
`client.Do(req)`: the request is handed to the client, which may write it, write
others after it (redirects), or write nothing (no connection). -/
inductive Event where
  | randRead
  | fileOpen (name : Bytes)
  | fileClose (name : Bytes)
  | send (req : Request)
  | bodyRead
  | bodyClose
deriving DecidableEq, Repr

/-- The outside world. Every answer may depend on the events so far.
* `Open` is the file system as `os.Open` finds it: the error of the call, or what
  the file at the path holds;
* `Rand` is the 30 bytes `multipart.NewWriter` draws from `crypto/rand`;
* `ParseURL` stands for the checks of `url.Parse` that come after its first one
  (the control-byte check of the part before the fragment, which `NewRequest`
  below performs itself): `some err` when they reject the string;
* `Do` is `(*http.Client).Do` on a fresh client: the response the call returns
  (after any redirect the client follows by itself), or its error; `clientDo`
  below is that call over a network;
* `PercentCRLF` is the release of `mime/multipart` the program is built with:
  whether `escapeQuotes` writes CR and LF as `%0D` and `%0A`, as recent releases
  do, or leaves them as they are, as earlier ones did. -/
structure Env where
  Open : List Event → Bytes → Except error FileData
  Rand : List Event → Bytes
  ParseURL : Bytes → Option error
  Do : List Event → Request → Except error Response
  PercentCRLF : Bool

/-- `os.Open`: the file opened keeps the name it was opened under. -/
def Open (env : Env) (t : List Event) (name : Bytes) : Except error File :=
  match env.Open t name with
  | .error err => .error err
  | .ok d => .ok { Name := name, data := d.data, readErr := d.readErr }

/-- The world `env` with a transport that answers every request with `resp`. -/
def Env.answer (env : Env) (resp : Response) : Env :=
  { env with Do := fun _ _ => .ok resp }

/-- The requests a list of events hands to `client.Do`, in order. -/
def sent : List Event → List Request
  | [] => []
  | .send req :: evs => req :: sent evs
  | _ :: evs => sent evs

/-! ## `net/url` -/

/-- `url.shouldEscape(c, encodeQueryComponent)`: letters, digits and `-_.~` pass. -/
def shouldEscape (c : Nat) : Bool :=
  if 97 ≤ c ∧ c ≤ 122 ∨ 65 ≤ c ∧ c ≤ 90 ∨ 48 ≤ c ∧ c ≤ 57 then false
  else if c = 45 ∨ c = 95 ∨ c = 46 ∨ c = 126 then false
  else true

/-- The digit of `"0123456789ABCDEF"` at index `n`. -/
def upperhex (n : Nat) : Nat := if n < 10 then 48 + n else 55 + n

/-- One byte of `url.escape(s, encodeQueryComponent)`. -/
def escapeByte (c : Nat) : Bytes :=
  if c = 32 then [43]
  else if shouldEscape c then [37, upperhex (c / 16 % 16), upperhex (c % 16)]
  else [c]

/-- `url.QueryEscape`. -/
def QueryEscape (s : Bytes) : Bytes := s.flatMap escapeByte

/-- `url.Values`, a `map[string][]string`, as an association list. -/
abbrev Values := List (Bytes × List Bytes)

/-- `Values.Set`: the key's values are replaced by the single value given. -/
def Values.Set (v : Values) (key value : Bytes) : Values :=
  v.filter (fun kv => kv.1 ≠ key) ++ [(key, [value])]

/-- The `key=value` pairs of one key of `Values.Encode`. -/
def encodeKey (key : Bytes) (vs : List Bytes) : List Bytes :=
  vs.map (fun v => QueryEscape key ++ 61 :: QueryEscape v)

/-- `Values.Encode`: keys in sorted order, pairs joined by `&`. -/
def Values.Encode (v : Values) : Bytes :=
  List.intercalate [38]
    (((v.insertionSort (fun a b => a.1 ≤ b.1)).map (fun kv => encodeKey kv.1 kv.2)).flatten)

/-- `stringContainsCTLByte` of `net/url`: a byte below 0x20 or 0x7f. -/
def stringContainsCTLByte (s : Bytes) : Bool := s.any (fun b => b < 32 ∨ b = 127)

/-- What `url.Parse` cuts off before the first `#`, the part it checks for
control bytes. -/
def beforeFragment (rawURL : Bytes) : Bytes := rawURL.takeWhile (fun b => b ≠ 35)

/-! ## `unicode/utf8` and `unicode/utf16` -/

/-- `utf8.RuneError`, also `unicode.ReplacementChar`: U+FFFD. -/
def RuneError : Nat := 65533

/-- `utf8.DecodeRune`: the first rune of the bytes and its width. An empty input
gives `(RuneError, 0)`, an ill-formed or truncated sequence `(RuneError, 1)`.
The masks and shifts of the library are written with `%` and `*`. -/
def DecodeRune (p : Bytes) : Nat × Nat :=
  match p with
  | [] => (RuneError, 0)
  | b0 :: rest =>
    if b0 < 128 then (b0, 1)
    else if b0 < 194 then (RuneError, 1)
    else if b0 < 224 then
      match rest with
      | b1 :: _ =>
        if 128 ≤ b1 ∧ b1 ≤ 191 then (b0 % 32 * 64 + b1 % 64, 2) else (RuneError, 1)
      | _ => (RuneError, 1)
    else if b0 < 240 then
      match rest with
      | b1 :: b2 :: _ =>
        if (if b0 = 224 then 160 else 128) ≤ b1 ∧ b1 ≤ (if b0 = 237 then 159 else 191)
            ∧ 128 ≤ b2 ∧ b2 ≤ 191 then
          (b0 % 16 * 4096 + b1 % 64 * 64 + b2 % 64, 3)
        else (RuneError, 1)
      | _ => (RuneError, 1)
    else if b0 < 245 then
      match rest with
      | b1 :: b2 :: b3 :: _ =>
        if (if b0 = 240 then 144 else 128) ≤ b1 ∧ b1 ≤ (if b0 = 244 then 143 else 191)
            ∧ 128 ≤ b2 ∧ b2 ≤ 191 ∧ 128 ≤ b3 ∧ b3 ≤ 191 then
          (b0 % 8 * 262144 + b1 % 64 * 4096 + b2 % 64 * 64 + b3 % 64, 4)
        else (RuneError, 1)
      | _ => (RuneError, 1)
    else (RuneError, 1)

/-- `utf8.EncodeRune` (`utf8.AppendRune`): the UTF-8 bytes of a rune; a surrogate
or a value above U+10FFFF is written as U+FFFD. -/
def EncodeRune (r : Nat) : Bytes :=
  if r ≤ 127 then [r]
  else if r ≤ 2047 then [192 + r / 64, 128 + r % 64]
  else if 1114111 < r ∨ (55296 ≤ r ∧ r ≤ 57343) then [239, 191, 189]
  else if r ≤ 65535 then [224 + r / 4096, 128 + r / 64 % 64, 128 + r % 64]
  else [240 + r / 262144, 128 + r / 4096 % 64, 128 + r / 64 % 64, 128 + r % 64]

/-- Go's `utf8.Valid`, by runes; the first argument bounds the number of runes. -/
def ValidAux : Nat → Bytes → Bool
  | 0, p => p.isEmpty
  | _ + 1, [] => true
  | n + 1, b :: rest =>
    let rs := DecodeRune (b :: rest)
    if rs.1 = RuneError ∧ rs.2 = 1 then false else ValidAux n (rest.drop (rs.2 - 1))

/-- `utf8.Valid`: the bytes are well-formed UTF-8. -/
def Valid (p : Bytes) : Bool := ValidAux p.length p

/-- `utf16.IsSurrogate`. -/
def IsSurrogate (r : Nat) : Bool := 55296 ≤ r ∧ r < 57344

/-- `utf16.DecodeRune` on a high half `r1` and what follows it (`none`: nothing
that `getu4` reads): the rune of a valid pair, else U+FFFD. -/
def utf16DecodeRune (r1 : Nat) (r2 : Option Nat) : Nat :=
  match r2 with
  | some r2 =>
    if 55296 ≤ r1 ∧ r1 < 56320 ∧ 56320 ≤ r2 ∧ r2 < 57344 then
      (r1 - 55296) * 1024 + (r2 - 56320) + 65536
    else RuneError
  | none => RuneError

/-! ## `encoding/json`: reading

`json.Unmarshal` first checks that the whole input is one JSON value
(`checkValid`), then stores it into the target. The embedding parses the input
into a `JSON` value, with strings already unquoted, and stores that value.
Error messages are shortened forms of the library's. -/

/-- A JSON value; a number keeps its literal, a string its unquoted bytes. -/
inductive JSON where
  | null
  | bool (b : Bool)
  | number (raw : Bytes)
  | string (s : Bytes)
  | array (elems : List JSON)
  | object (members : List (Bytes × JSON))

/-- The scanner's `isSpace`: space, tab, carriage return, line feed. -/
def isSpace (c : Nat) : Bool := c = 32 ∨ c = 9 ∨ c = 13 ∨ c = 10

/-- Skip white space. -/
def skipSpace : Bytes → Bytes
  | [] => []
  | c :: rest => if isSpace c then skipSpace rest else c :: rest

/-- The value of a hexadecimal digit. -/
def hexVal (c : Nat) : Option Nat :=
  if 48 ≤ c ∧ c ≤ 57 then some (c - 48)
  else if 97 ≤ c ∧ c ≤ 102 then some (c - 97 + 10)
  else if 65 ≤ c ∧ c ≤ 70 then some (c - 65 + 10)
  else none

/-- `getu4`: the number a leading `\uXXXX` denotes, `none` (Go: -1) without one. -/
def getu4 (s : Bytes) : Option Nat :=
  match s with
  | e0 :: e1 :: a :: b :: c :: d :: _ =>
    if e0 = 92 ∧ e1 = 117 then
      match hexVal a, hexVal b, hexVal c, hexVal d with
      | some a, some b, some c, some d => some (a * 4096 + b * 256 + c * 16 + d)
      | _, _, _, _ => none
    else none
  | _ => none

/-- The syntax error of an input that ends too early. -/
def errEOF : error := ascii "unexpected end of JSON input"

/-- The syntax error of a byte the grammar does not allow where it stands. -/
def errChar : error := ascii "invalid character"

/-- Reported when the step bound of a reader is used up; with the bounds that
`parseString` and `parse` give, it never is (`parseString_steps`, `parse_total`). -/
def errSteps : error := ascii "step bound reached"

/-- The string literal after its opening quote: the scanner's string states and
`unquoteBytes` in one pass. Yields the unquoted bytes and what follows the
closing quote. Bytes above 0x7f are coerced to well-formed UTF-8. -/
def parseStringAux : Nat → Bytes → Bytes → Except error (Bytes × Bytes)
  | 0, _, _ => .error errSteps
  | _ + 1, [], _ => .error errEOF
  | n + 1, c :: rest, acc =>
    if c = 34 then .ok (acc, rest)
    else if c = 92 then
      match rest with
      | [] => .error errEOF
      | e :: rest1 =>
        if e = 34 ∨ e = 92 ∨ e = 47 then parseStringAux n rest1 (acc ++ [e])
        else if e = 98 then parseStringAux n rest1 (acc ++ [8])
        else if e = 102 then parseStringAux n rest1 (acc ++ [12])
        else if e = 110 then parseStringAux n rest1 (acc ++ [10])
        else if e = 114 then parseStringAux n rest1 (acc ++ [13])
        else if e = 116 then parseStringAux n rest1 (acc ++ [9])
        else if e = 117 then
          match getu4 (c :: rest) with
          | none => .error errChar
          | some rr =>
            if IsSurrogate rr then
              if utf16DecodeRune rr (getu4 (rest1.drop 4)) ≠ RuneError then
                parseStringAux n (rest1.drop 10)
                  (acc ++ EncodeRune (utf16DecodeRune rr (getu4 (rest1.drop 4))))
              else parseStringAux n (rest1.drop 4) (acc ++ EncodeRune RuneError)
            else parseStringAux n (rest1.drop 4) (acc ++ EncodeRune rr)
        else .error errChar
    else if c < 32 then .error errChar
    else if c < 128 then parseStringAux n rest (acc ++ [c])
    else
      parseStringAux n (rest.drop ((DecodeRune (c :: rest)).2 - 1))
        (acc ++ EncodeRune (DecodeRune (c :: rest)).1)

/-- A string literal after its opening quote. -/
def parseString (s : Bytes) : Except error (Bytes × Bytes) :=
  parseStringAux (s.length + 1) s []

/-- A decimal digit. -/
def isDigit (c : Nat) : Bool := 48 ≤ c ∧ c ≤ 57

/-- The leading digits and what follows them. -/
def takeDigits : Bytes → Bytes × Bytes
  | [] => ([], [])
  | c :: rest =>
    if isDigit c then ((c :: (takeDigits rest).1), (takeDigits rest).2) else ([], c :: rest)

/-- The exponent of a number, if one follows. -/
def parseExp (lit s : Bytes) : Except error (Bytes × Bytes) :=
  match s with
  | c :: rest =>
    if c = 101 ∨ c = 69 then
      match rest with
      | sg :: rest1 =>
        if sg = 43 ∨ sg = 45 then
          (if (takeDigits rest1).1 = [] then .error errChar
           else .ok (lit ++ c :: sg :: (takeDigits rest1).1, (takeDigits rest1).2))
        else
          (if (takeDigits rest).1 = [] then .error errChar
           else .ok (lit ++ c :: (takeDigits rest).1, (takeDigits rest).2))
      | [] => .error errEOF
    else .ok (lit, s)
  | [] => .ok (lit, s)

/-- The fraction and exponent of a number, if they follow. -/
def parseFrac (lit s : Bytes) : Except error (Bytes × Bytes) :=
  match s with
  | c :: rest =>
    if c = 46 then
      (if (takeDigits rest).1 = [] then .error errChar
       else parseExp (lit ++ c :: (takeDigits rest).1) (takeDigits rest).2)
    else parseExp lit s
  | [] => .ok (lit, s)

/-- A number literal: its bytes and what follows. -/
def parseNumber (s : Bytes) : Except error (Bytes × Bytes) :=
  match s with
  | [] => .error errEOF
  | c :: rest =>
    if c = 45 then
      match rest with
      | [] => .error errEOF
      | d :: rest1 =>
        if d = 48 then parseFrac [45, 48] rest1
        else if 49 ≤ d ∧ d ≤ 57 then
          parseFrac (45 :: d :: (takeDigits rest1).1) (takeDigits rest1).2
        else .error errChar
    else if c = 48 then parseFrac [48] rest
    else if 49 ≤ c ∧ c ≤ 57 then parseFrac (c :: (takeDigits rest).1) (takeDigits rest).2
    else .error errChar

/-- The input after the literal `lit`, if it starts with it. -/
def expect : Bytes → Bytes → Option Bytes
  | [], s => some s
  | _ :: _, [] => none
  | l :: lit, c :: s => if l = c then expect lit s else none

/-- The scanner's `maxNestingDepth`. -/
def maxNestingDepth : Nat := 10000

mutual
/-- One JSON value and what follows it. The first argument bounds the steps,
the second counts the arrays and objects that are open. -/
def parseValue : Nat → Nat → Bytes → Except error (JSON × Bytes)
  | 0, _, _ => .error errSteps
  | n + 1, depth, s =>
    match skipSpace s with
    | [] => .error errEOF
    | c :: rest =>
      if c = 123 then
        if depth ≥ maxNestingDepth then .error (ascii "exceeded max depth")
        else
          match skipSpace rest with
          | [] => .error errEOF
          | c1 :: rest1 =>
            if c1 = 125 then .ok (.object [], rest1)
            else parseMembers n (depth + 1) (c1 :: rest1) []
      else if c = 91 then
        if depth ≥ maxNestingDepth then .error (ascii "exceeded max depth")
        else
          match skipSpace rest with
          | [] => .error errEOF
          | c1 :: rest1 =>
            if c1 = 93 then .ok (.array [], rest1)
            else parseElements n (depth + 1) (c1 :: rest1) []
      else if c = 34 then
        match parseString rest with
        | .ok r => .ok (.string r.1, r.2)
        | .error e => .error e
      else if c = 116 then
        match expect [114, 117, 101] rest with
        | some r => .ok (.bool true, r)
        | none => .error errChar
      else if c = 102 then
        match expect [97, 108, 115, 101] rest with
        | some r => .ok (.bool false, r)
        | none => .error errChar
      else if c = 110 then
        match expect [117, 108, 108] rest with
        | some r => .ok (.null, r)
        | none => .error errChar
      else if c = 45 ∨ isDigit c then
        match parseNumber (c :: rest) with
        | .ok r => .ok (.number r.1, r.2)
        | .error e => .error e
      else .error errChar
/-- The elements of an array after `[`, up to and including `]`. -/
def parseElements : Nat → Nat → Bytes → List JSON → Except error (JSON × Bytes)
  | 0, _, _, _ => .error errSteps
  | n + 1, depth, s, acc =>
    match parseValue n depth s with
    | .error e => .error e
    | .ok r =>
      match skipSpace r.2 with
      | [] => .error errEOF
      | c :: rest =>
        if c = 44 then parseElements n depth rest (acc ++ [r.1])
        else if c = 93 then .ok (.array (acc ++ [r.1]), rest)
        else .error errChar
/-- The members of an object after `{`, up to and including `}`. -/
def parseMembers : Nat → Nat → Bytes → List (Bytes × JSON) → Except error (JSON × Bytes)
  | 0, _, _, _ => .error errSteps
  | n + 1, depth, s, acc =>
    match skipSpace s with
    | [] => .error errEOF
    | c :: rest =>
      if c ≠ 34 then .error errChar
      else
        match parseString rest with
        | .error e => .error e
        | .ok k =>
          match skipSpace k.2 with
          | [] => .error errEOF
          | c1 :: rest1 =>
            if c1 ≠ 58 then .error errChar
            else
              match parseValue n depth rest1 with
              | .error e => .error e
              | .ok r =>
                match skipSpace r.2 with
                | [] => .error errEOF
                | c2 :: rest2 =>
                  if c2 = 44 then parseMembers n depth rest2 (acc ++ [(k.1, r.1)])
                  else if c2 = 125 then .ok (.object (acc ++ [(k.1, r.1)]), rest2)
                  else .error errChar
end

/-- The whole input as one JSON value (`checkValid` and the scan of the decoder).
A value, an element or a member takes one step and at least one byte, and a
value is entered from an array or object one byte further on, so twice the
length bounds the steps. -/
def parse (data : Bytes) : Except error JSON :=
  match parseValue (2 * data.length + 1) 0 data with
  | .error e => .error e
  | .ok r => if skipSpace r.2 = [] then .ok r.1 else .error errChar

/-! ### Storing a JSON value into a Go value

Each `store…` is the decoder at one target type: it takes the value the target
holds and returns the value it holds afterwards, with the error the decoder
saved, if any. A value of the wrong JSON type leaves an `UnmarshalTypeError`;
decoding goes on and the first error is the one returned. -/

/-- The name `UnmarshalTypeError.Value` gives a JSON value. -/
def JSON.kind : JSON → Bytes
  | .null => ascii "null"
  | .bool _ => ascii "bool"
  | .number _ => ascii "number"
  | .string _ => ascii "string"
  | .array _ => ascii "array"
  | .object _ => ascii "object"

/-- The message of an `UnmarshalTypeError`. -/
def UnmarshalTypeError (value goType : Bytes) : error :=
  ascii "json: cannot unmarshal " ++ value ++ ascii " into Go value of type " ++ goType

/-- `decodeState.saveError`: the first error is kept. -/
def saveError (saved new : Option error) : Option error :=
  match saved with
  | some e => some e
  | none => new

/-- `unicode.SimpleFold` iterated to the smallest rune of the orbit, on the two
orbits that reach ASCII (U+017F with `S`, U+212A with `K`); no other rune above
0x7f folds to an ASCII one, so no other rune can make a key equal an ASCII name. -/
def foldRune (r : Nat) : Nat := if r = 383 then 83 else if r = 8490 then 75 else r

/-- The loop of `foldName`. -/
def foldNameAux : Nat → Bytes → Bytes
  | 0, _ => []
  | _ + 1, [] => []
  | n + 1, c :: rest =>
    if c < 128 then (if 97 ≤ c ∧ c ≤ 122 then c - 32 else c) :: foldNameAux n rest
    else
      EncodeRune (foldRune (DecodeRune (c :: rest)).1)
        ++ foldNameAux n (rest.drop ((DecodeRune (c :: rest)).2 - 1))

/-- `foldName`: two keys are equal under case folding when their images are equal. -/
def foldName (s : Bytes) : Bytes := foldNameAux s.length s

/-- The struct field a key selects: an exact match of the JSON name first, else
the first field whose name equals the key under case folding. -/
def findField {φ : Type} (fields : List (Bytes × φ)) (key : Bytes) : Option φ :=
  match fields.find? (fun f => f.1 = key) with
  | some f => some f.2
  | none =>
    match fields.find? (fun f => foldName f.1 = foldName key) with
    | some f => some f.2
    | none => none

/-- One member of a JSON object stored into a struct: a key that selects no
field is skipped. The state is the struct and the error saved so far. -/
def storeStep {α φ : Type} (fields : List (Bytes × φ))
    (set : α → φ → JSON → α × Option error)
    (st : α × Option error) (kv : Bytes × JSON) : α × Option error :=
  match findField fields kv.1 with
  | none => st
  | some f => ((set st.1 f kv.2).1, saveError st.2 (set st.1 f kv.2).2)

/-- The members of a JSON object stored into a struct, in the order they are
written. -/
def storeMembers {α φ : Type} (fields : List (Bytes × φ))
    (set : α → φ → JSON → α × Option error)
    (members : List (Bytes × JSON)) (v : α) : α × Option error :=
  members.foldl (storeStep fields set) (v, none)

/-- Into a Go `string`: a JSON string is stored, `null` changes nothing, anything
else is a type error. -/
def storeString (j : JSON) (cur : Bytes) : Bytes × Option error :=
  match j with
  | .string s => (s, none)
  | .null => (cur, none)
  | other => (cur, some (UnmarshalTypeError other.kind (ascii "string")))

/-- Into a Go `*string`: `null` sets the pointer to nil; otherwise a nil pointer
is allocated first and the value stored into what it points to. -/
def storeStringPtr (j : JSON) (cur : Option Bytes) : Option Bytes × Option error :=
  match j with
  | .null => (none, none)
  | other => (some (storeString other (cur.getD [])).1, (storeString other (cur.getD [])).2)

/-- The fields of `ScanLog`. -/
inductive ScanLogField where
  | Timestamp
  | Status
  | Exception
deriving DecidableEq, Repr

/-- The JSON names of the fields of `ScanLog`, from its struct tags. -/
def scanLogFields : List (Bytes × ScanLogField) :=
  [(ascii "timestamp", .Timestamp), (ascii "status", .Status), (ascii "exception", .Exception)]

/-- One field of a `ScanLog` set from a JSON value. -/
def setScanLogField (v : ScanLog) (f : ScanLogField) (j : JSON) : ScanLog × Option error :=
  match f with
  | .Timestamp => ({ v with Timestamp := (storeString j v.Timestamp).1 }, (storeString j v.Timestamp).2)
  | .Status => ({ v with Status := (storeString j v.Status).1 }, (storeString j v.Status).2)
  | .Exception =>
    ({ v with Exception := (storeStringPtr j v.Exception).1 }, (storeStringPtr j v.Exception).2)

/-- Into a `ScanLog`. -/
def storeScanLog (j : JSON) (cur : ScanLog) : ScanLog × Option error :=
  match j with
  | .object members => storeMembers scanLogFields setScanLogField members cur
  | .null => (cur, none)
  | other => (cur, some (UnmarshalTypeError other.kind (ascii "static.ScanLog")))

/-- Into a `*ScanLog`. -/
def storeScanLogPtr (j : JSON) (cur : Option ScanLog) : Option ScanLog × Option error :=
  match j with
  | .null => (none, none)
  | other =>
    (some (storeScanLog other (cur.getD ⟨[], [], none⟩)).1,
      (storeScanLog other (cur.getD ⟨[], [], none⟩)).2)

/-- A Go slice `[]*ScanLog`: its elements, and what its backing array still
holds beyond its length (elements an earlier, longer decoding left there). -/
structure LogSlice where
  elems : List (Option ScanLog)
  spare : List (Option ScanLog)
deriving DecidableEq, Repr

/-- The loop of the decoder's `array`: element `i` of the JSON array is decoded
into `v.Index(i)`, that is into what the backing array holds at `i` (a nil
pointer where it holds nothing yet). Yields, per element, the pointer stored
and the error saved. -/
def storeElems : List JSON → List (Option ScanLog) → List (Option ScanLog × Option error)
  | [], _ => []
  | e :: es, backing => storeScanLogPtr e backing.head?.join :: storeElems es backing.tail

/-- Into a `[]*ScanLog`. `null` gives the nil slice and an empty array a new
empty one. Any other array is decoded element by element into the slice as it
is, elements it already holds being reused; the length is then set to the
number of elements read, and what the backing array holds further on stays. -/
def storeLogs (j : JSON) (cur : LogSlice) : LogSlice × Option error :=
  match j with
  | .null => (⟨[], []⟩, none)
  | .array [] => (⟨[], []⟩, none)
  | .array elems =>
    (⟨(storeElems elems (cur.elems ++ cur.spare)).map Prod.fst,
        (cur.elems ++ cur.spare).drop elems.length⟩,
      ((storeElems elems (cur.elems ++ cur.spare)).map Prod.snd).foldl saveError none)
  | other => (cur, some (UnmarshalTypeError other.kind (ascii "[]*static.ScanLog")))

/-- The fields of `UploadResult`. -/
inductive UploadResultField where
  | Analyzer
  | Status
  | Hash
  | ScanType
  | FileName
deriving DecidableEq, Repr

/-- The JSON names of the fields of `UploadResult`, from its struct tags. -/
def uploadResultFields : List (Bytes × UploadResultField) :=
  [(ascii "analyzer", .Analyzer), (ascii "status", .Status), (ascii "hash", .Hash),
   (ascii "scan_type", .ScanType), (ascii "file_name", .FileName)]

/-- One field of an `UploadResult` set from a JSON value. -/
def setUploadResultField (v : UploadResult) (f : UploadResultField) (j : JSON) :
    UploadResult × Option error :=
  match f with
  | .Analyzer => ({ v with Analyzer := (storeString j v.Analyzer).1 }, (storeString j v.Analyzer).2)
  | .Status => ({ v with Status := (storeString j v.Status).1 }, (storeString j v.Status).2)
  | .Hash => ({ v with Hash := (storeString j v.Hash).1 }, (storeString j v.Hash).2)
  | .ScanType => ({ v with ScanType := (storeString j v.ScanType).1 }, (storeString j v.ScanType).2)
  | .FileName => ({ v with FileName := (storeString j v.FileName).1 }, (storeString j v.FileName).2)

/-- Into an `UploadResult`. -/
def storeUploadResult (j : JSON) (cur : UploadResult) : UploadResult × Option error :=
  match j with
  | .object members => storeMembers uploadResultFields setUploadResultField members cur
  | .null => (cur, none)
  | other => (cur, some (UnmarshalTypeError other.kind (ascii "static.UploadResult")))

/-- The JSON name of the field of `ScanLogsResult`, from its struct tag. -/
def scanLogsResultFields : List (Bytes × Unit) := [(ascii "logs", ())]

/-- Into a `ScanLogsResult` whose slice holds nothing beyond its elements, as
that of a fresh target does. The slice is carried with its backing array from
member to member: the key may be written more than once. -/
def storeScanLogsResult (j : JSON) (cur : ScanLogsResult) : ScanLogsResult × Option error :=
  match j with
  | .object members =>
    (⟨(storeMembers scanLogsResultFields (fun v _ x => storeLogs x v) members
        ⟨cur.Logs, []⟩).1.elems⟩,
      (storeMembers scanLogsResultFields (fun v _ x => storeLogs x v) members
        ⟨cur.Logs, []⟩).2)
  | .null => (cur, none)
  | other => (cur, some (UnmarshalTypeError other.kind (ascii "static.ScanLogsResult")))

/-- The JSON name of the field of `DeleteResult`, from its struct tag. -/
def deleteResultFields : List (Bytes × Unit) := [(ascii "deleted", ())]

/-- Into a `DeleteResult`. -/
def storeDeleteResult (j : JSON) (cur : DeleteResult) : DeleteResult × Option error :=
  match j with
  | .object members =>
    storeMembers deleteResultFields
      (fun v _ x => (⟨(storeString x v.Deleted).1⟩, (storeString x v.Deleted).2)) members cur
  | .null => (cur, none)
  | other => (cur, some (UnmarshalTypeError other.kind (ascii "static.DeleteResult")))

/-- `json.Unmarshal(data, v)` for a target whose decoder is `store`: the target
as the call leaves it, and the error returned. A syntax error leaves the target
untouched. -/
def Unmarshal {α : Type} (store : JSON → α → α × Option error) (data : Bytes) (v : α) :
    α × Option error :=
  match parse data with
  | .error e => (v, some e)
  | .ok j => store j v

/-! ## `encoding/json`: writing strings -/

/-- The digit of `"0123456789abcdef"` at index `n`. -/
def hexLower (n : Nat) : Nat := if n < 10 then 48 + n else 87 + n

/-- `htmlSafeSet`: the ASCII bytes `json.Marshal` writes as they are. -/
def htmlSafe (b : Nat) : Bool :=
  32 ≤ b ∧ b < 128 ∧ b ≠ 34 ∧ b ≠ 92 ∧ b ≠ 60 ∧ b ≠ 62 ∧ b ≠ 38

/-- The loop of `appendString` with `escapeHTML` set, as `json.Marshal` runs it.
Backspace and form feed are written `\b` and `\f`, as since Go 1.22 (before:
`\u0008` and `\u000c`, which read back as the same bytes). A byte that is not
UTF-8 is written as the escape of U+FFFD; whatever a release writes for it, it
reads back as U+FFFD. -/
def appendStringAux : Nat → Bytes → Bytes
  | 0, _ => []
  | _ + 1, [] => []
  | n + 1, b :: rest =>
    if b < 128 then
      (if htmlSafe b then [b]
       else if b = 92 ∨ b = 34 then [92, b]
       else if b = 8 then [92, 98]
       else if b = 12 then [92, 102]
       else if b = 10 then [92, 110]
       else if b = 13 then [92, 114]
       else if b = 9 then [92, 116]
       else [92, 117, 48, 48, hexLower (b / 16), hexLower (b % 16)]) ++ appendStringAux n rest
    else if (DecodeRune (b :: rest)).1 = RuneError ∧ (DecodeRune (b :: rest)).2 = 1 then
      [92, 117, 102, 102, 102, 100] ++ appendStringAux n rest
    else if (DecodeRune (b :: rest)).1 = 8232 ∨ (DecodeRune (b :: rest)).1 = 8233 then
      [92, 117, 50, 48, 50, hexLower ((DecodeRune (b :: rest)).1 % 16)]
        ++ appendStringAux n (rest.drop ((DecodeRune (b :: rest)).2 - 1))
    else
      (b :: rest).take (DecodeRune (b :: rest)).2
        ++ appendStringAux n (rest.drop ((DecodeRune (b :: rest)).2 - 1))

/-- The JSON string literal `json.Marshal` writes for a Go string. -/
def appendString (src : Bytes) : Bytes := 34 :: appendStringAux src.length src ++ [34]

/-- `json.Marshal` of an `UploadResult`: the fields in declaration order under
their JSON names. -/
def MarshalUploadResult (v : UploadResult) : Bytes :=
  ascii "\x7b\"analyzer\":" ++ appendString v.Analyzer
    ++ ascii ",\"status\":" ++ appendString v.Status
    ++ ascii ",\"hash\":" ++ appendString v.Hash
    ++ ascii ",\"scan_type\":" ++ appendString v.ScanType
    ++ ascii ",\"file_name\":" ++ appendString v.FileName ++ ascii "\x7d"

/-! ## `mime/multipart` -/

/-- `randomBoundary`: the bytes drawn, printed with `%x`. -/
def randomBoundary (buf : Bytes) : Bytes :=
  buf.flatMap (fun b => [hexLower (b / 16 % 16), hexLower (b % 16)])

/-- A `multipart.Writer` on a `bytes.Buffer`: the buffer `w`, the boundary, and
whether a part has been created. -/
structure Writer where
  w : Bytes
  boundary : Bytes
  lastpart : Bool
deriving DecidableEq, Repr

/-- `multipart.NewWriter` on an empty buffer, given the bytes it draws. -/
def NewWriter (rand : Bytes) : Writer := ⟨[], randomBoundary rand, false⟩

/-- `escapeQuotes`: a backslash before every backslash and double quote; with
`percent` (recent releases) CR is written `%0D` and LF `%0A`, without it
(earlier releases) both are left as they are. On a string without CR and LF
the releases agree. -/
def escapeQuotes (percent : Bool) (s : Bytes) : Bytes :=
  s.flatMap (fun c =>
    if c = 92 then [92, 92]
    else if c = 34 then [92, 34]
    else if percent = true ∧ c = 13 then [37, 48, 68]
    else if percent = true ∧ c = 10 then [37, 48, 65]
    else [c])

/-- A `textproto.MIMEHeader`. -/
abbrev MIMEHeader := List (Bytes × List Bytes)

/-- CR LF. -/
def crlf : Bytes := [13, 10]

/-- The two hyphens that open a delimiter. -/
def dashes : Bytes := [45, 45]

/-- `Writer.CreatePart`: the delimiter line, the header lines in key order, an
empty line. Writing to a `bytes.Buffer` does not fail. -/
def Writer.CreatePart (mw : Writer) (header : MIMEHeader) : Except error Writer :=
  .ok { mw with
    w := mw.w ++ (if mw.lastpart then crlf else []) ++ dashes ++ mw.boundary ++ crlf
      ++ ((header.insertionSort (fun a b => a.1 ≤ b.1)).flatMap
            (fun kv => kv.2.flatMap (fun v => kv.1 ++ [58, 32] ++ v ++ crlf)))
      ++ crlf
    lastpart := true }

/-- `Writer.CreateFormFile`; `percent` is the release, as for `escapeQuotes`. -/
def Writer.CreateFormFile (mw : Writer) (percent : Bool) (fieldname filename : Bytes) :
    Except error Writer :=
  mw.CreatePart
    [(ascii "Content-Disposition",
        [ascii "form-data; name=\"" ++ escapeQuotes percent fieldname ++ ascii "\"; filename=\""
          ++ escapeQuotes percent filename ++ ascii "\""]),
     (ascii "Content-Type", [ascii "application/octet-stream"])]

/-- `io.Copy` from a file into the part just created: the bytes the file
delivers are written, and the read error, if any, is returned. -/
def Copy (mw : Writer) (src : File) : Writer × Option error :=
  ({ mw with w := mw.w ++ src.data }, src.readErr)

/-- `Writer.Close`: the closing delimiter. -/
def Writer.Close (mw : Writer) : Writer × Option error :=
  ({ mw with w := mw.w ++ crlf ++ dashes ++ mw.boundary ++ dashes ++ crlf, lastpart := false }, none)

/-- `Writer.FormDataContentType`: the boundary is quoted when it holds one of
`()<>@,;:\"/[]?= `. -/
def Writer.FormDataContentType (mw : Writer) : Bytes :=
  ascii "multipart/form-data; boundary=" ++
    (if mw.boundary.any (fun c => c ∈ ascii "()<>@,;:\\\"/[]?= ") then
      34 :: mw.boundary ++ [34]
    else mw.boundary)

/-! ## `net/http` and `io` -/

/-- `http.MethodPost`. -/
def MethodPost : Bytes := ascii "POST"

/-- `http.StatusOK`. -/
def StatusOK : Int := 200

/-- `http.NewRequest`: the URL is parsed, and a request with no header fields is
returned when it parses. The method is not checked here: every call passes
`MethodPost`. The error is the cause alone; `url.Error` puts `parse`, the quoted
URL and a colon before it. -/
def NewRequest (env : Env) (method url body : Bytes) : Except error Request :=
  if stringContainsCTLByte (beforeFragment url) then
    .error (ascii "net/url: invalid control character in URL")
  else
    match env.ParseURL url with
    | some err => .error err
    | none => .ok { Method := method, URL := url, Header := [], Body := body }

/-- `strconv.Atoi` on three bytes: three digits, or a sign and two digits. -/
def atoi3 (a b c : Nat) : Option Int :=
  if isDigit a ∧ isDigit b ∧ isDigit c then
    some (((a - 48) * 100 + (b - 48) * 10 + (c - 48) : Nat) : Int)
  else if a = 43 ∧ isDigit b ∧ isDigit c then some (((b - 48) * 10 + (c - 48) : Nat) : Int)
  else if a = 45 ∧ isDigit b ∧ isDigit c then some (-(((b - 48) * 10 + (c - 48) : Nat) : Int))
  else none

/-- The status code `http.ReadResponse` takes from the status line it stores in
`Response.Status`: what stands before the first space must be three bytes that
`strconv.Atoi` reads as a number that is not negative. -/
def readStatusCode (status : Bytes) : Option Int :=
  match status.takeWhile (fun b => b ≠ 32) with
  | [a, b, c] =>
    match atoi3 a b c with
    | some n => if n < 0 then none else some n
    | none => none
  | _ => none

/-! ### `(*http.Client).Do` on a fresh client

The zero `http.Client` of the package follows redirects by itself (it has no
`CheckRedirect`, so at most ten requests are made). Errors are the cause alone;
`Do` wraps them in a `url.Error`. -/

/-- A request as the client writes it: method, URL and body. The header fields
are left out: those of the first request are the operation's, and which of them
the client copies onto a redirect depends on the hosts and on the release. -/
structure Wire where
  Method : Bytes
  URL : Bytes
  Body : Bytes
deriving DecidableEq, Repr

/-- A request an operation built, as the client writes it first. -/
def Request.wire (req : Request) : Wire := ⟨req.Method, req.URL, req.Body⟩

/-- What becomes of a request the client is to write.
* `refused`: the round trip fails before anything is written (no connection);
* `dropped`: the request is written and the round trip fails;
* `answered`: the response, with its `Location` header field resolved against
  the URL of the request (`req.URL.Parse`): `none` without the field or with an
  empty one, an error when the field does not parse. -/
inductive RoundTrip where
  | refused (err : error)
  | dropped (err : error)
  | answered (resp : Response) (location : Option (Except error Bytes))

/-- The network: what becomes of each request. -/
abbrev Net := Wire → RoundTrip

/-- `redirectBehavior` for a first request that has `GetBody` (`http.NewRequest`
sets it for the `*bytes.Buffer` and `*strings.Reader` the package passes): the
method of the next request and whether it carries the body again, `none` when
the response is not a redirect. -/
def redirectBehavior (reqMethod : Bytes) (statusCode : Int) : Option (Bytes × Bool) :=
  if statusCode = 301 ∨ statusCode = 302 ∨ statusCode = 303 then
    some (if reqMethod ≠ ascii "GET" ∧ reqMethod ≠ ascii "HEAD" then ascii "GET" else reqMethod,
      false)
  else if statusCode = 307 ∨ statusCode = 308 then some (reqMethod, true)
  else none

/-- The loop of `(*Client).do` for the first request `ireq`: the result of the
call, and the requests written. The first argument is the number of requests
`defaultCheckRedirect` still allows. -/
def doLoop (net : Net) (ireq : Wire) : Nat → Wire → Except error Response × List Wire
  | 0, _ => (.error (ascii "stopped after 10 redirects"), [])
  | n + 1, req =>
    match net req with
    | .refused err => (.error err, [])
    | .dropped err => (.error err, [req])
    | .answered resp location =>
      match redirectBehavior req.Method resp.StatusCode with
      | none => (.ok resp, [req])
      | some next =>
        match location with
        | none => (.ok resp, [req])
        | some (.error err) =>
          (.error (ascii "failed to parse Location header: " ++ err), [req])
        | some (.ok u) =>
          ((doLoop net ireq n ⟨next.1, u, if next.2 then ireq.Body else []⟩).1,
            req :: (doLoop net ireq n ⟨next.1, u, if next.2 then ireq.Body else []⟩).2)

/-- `(*http.Client).Do` on the zero client: the result, and the requests written
on the network, in order. -/
def clientDo (net : Net) (req : Request) : Except error Response × List Wire :=
  doLoop net req.wire 10 req.wire

/-- The world `env` with the network `net` under its `client.Do`. -/
def Env.over (env : Env) (net : Net) : Env :=
  { env with Do := fun _ req => (clientDo net req).1 }

/-- `io.ReadAll`: the bytes read, and the error that ended the stream early, if any. -/
def ReadAll (b : Body) : Bytes × Option error := (b.data, b.err)

/-! ## `client.go` -/

/-- The Go struct `apiClient`. -/
structure apiClient where
  baseURL : Bytes
  apiToken : Bytes
deriving DecidableEq, Repr

/-- `NewClient`. -/
def NewClient (baseURL apiToken : Bytes) : apiClient :=
  { baseURL := baseURL, apiToken := apiToken }

/-- What an operation returns: the Go pair `(result, error)`, and the events of
the call in order. The operation is given the trace `t` of what happened before. -/
abbrev Outcome (α : Type) := (Option α × Option error) × List Event

/-- `(*apiClient).UploadApp`. The deferred `resp.Body.Close()` and `file.Close()`
run, in that order, when the function returns. -/
def UploadApp (env : Env) (c : apiClient) (filePath : Bytes) (t : List Event) :
    Outcome UploadResult :=
  let mpw := NewWriter (env.Rand t)
  match Open env (t ++ [.randRead]) filePath with
  | .error err =>
    ((none, some (ascii "failed to open file: " ++ err)), [.randRead, .fileOpen filePath])
  | .ok file =>
    match mpw.CreateFormFile env.PercentCRLF (ascii "file") file.Name with
    | .error err =>
      ((none, some (ascii "failed to create form file: " ++ err)),
        [.randRead, .fileOpen filePath, .fileClose file.Name])
    | .ok fWriter =>
      match (Copy fWriter file).2 with
      | some err =>
        ((none, some (ascii "failed to copy file data: " ++ err)),
          [.randRead, .fileOpen filePath, .fileClose file.Name])
      | none =>
        match (Copy fWriter file).1.Close.2 with
        | some err =>
          ((none, some (ascii "failed to close multipart writer: " ++ err)),
            [.randRead, .fileOpen filePath, .fileClose file.Name])
        | none =>
          match NewRequest env MethodPost (c.baseURL ++ ascii "/api/v1/upload")
              (Copy fWriter file).1.Close.1.w with
          | .error err =>
            ((none, some (ascii "failed to create HTTP request: " ++ err)),
              [.randRead, .fileOpen filePath, .fileClose file.Name])
          | .ok req0 =>
            let req : Request :=
              { req0 with
                Header := (req0.Header.Set (ascii "Authorization") c.apiToken).Set
                  (ascii "Content-Type") (Copy fWriter file).1.Close.1.FormDataContentType }
            match env.Do (t ++ [.randRead, .fileOpen filePath]) req with
            | .error err =>
              ((none, some (ascii "HTTP request failed: " ++ err)),
                [.randRead, .fileOpen filePath, .send req, .fileClose file.Name])
            | .ok resp =>
              if resp.StatusCode ≠ StatusOK then
                ((none, some (ascii "upload failed: " ++ resp.Status)),
                  [.randRead, .fileOpen filePath, .send req, .bodyClose,
                    .fileClose file.Name])
              else
                match (ReadAll resp.Body).2 with
                | some err =>
                  ((none, some (ascii "failed to read response body: " ++ err)),
                    [.randRead, .fileOpen filePath, .send req, .bodyRead, .bodyClose,
                      .fileClose file.Name])
                | none =>
                  match (Unmarshal storeUploadResult (ReadAll resp.Body).1 ⟨[], [], [], [], []⟩).2 with
                  | some err =>
                    ((none, some (ascii "failed to parse response JSON: " ++ err)),
                      [.randRead, .fileOpen filePath, .send req, .bodyRead, .bodyClose,
                        .fileClose file.Name])
                  | none =>
                    ((some (Unmarshal storeUploadResult (ReadAll resp.Body).1
                        ⟨[], [], [], [], []⟩).1, none),
                      [.randRead, .fileOpen filePath, .send req, .bodyRead, .bodyClose,
                        .fileClose file.Name])

/-- `(*apiClient).TriggerScan`. -/
def TriggerScan (env : Env) (c : apiClient) (hash : Bytes) (t : List Event) : Outcome Bytes :=
  let data := Values.Set [] (ascii "hash") hash
  match NewRequest env MethodPost (c.baseURL ++ ascii "/api/v1/scan") (Values.Encode data) with
  | .error err => ((none, some (ascii "failed to create HTTP request: " ++ err)), [])
  | .ok req0 =>
    let req : Request :=
      { req0 with
        Header := (req0.Header.Set (ascii "Authorization") c.apiToken).Set
          (ascii "Content-Type") (ascii "application/x-www-form-urlencoded") }
    match env.Do t req with
    | .error err => ((none, some (ascii "HTTP request failed: " ++ err)), [.send req])
    | .ok resp =>
      if resp.StatusCode ≠ StatusOK then
        ((none, some (ascii "scan trigger failed: " ++ resp.Status)),
          [.send req, .bodyClose])
      else
        ((some (ReadAll resp.Body).1, (ReadAll resp.Body).2),
          [.send req, .bodyRead, .bodyClose])

/-- `(*apiClient).GetScanLogs`. -/
def GetScanLogs (env : Env) (c : apiClient) (hash : Bytes) (t : List Event) :
    Outcome ScanLogsResult :=
  let data := Values.Set [] (ascii "hash") hash
  match NewRequest env MethodPost (c.baseURL ++ ascii "/api/v1/scan_logs")
      (Values.Encode data) with
  | .error err => ((none, some (ascii "failed to create HTTP request: " ++ err)), [])
  | .ok req0 =>
    let req : Request :=
      { req0 with
        Header := (req0.Header.Set (ascii "Authorization") c.apiToken).Set
          (ascii "Content-Type") (ascii "application/x-www-form-urlencoded") }
    match env.Do t req with
    | .error err => ((none, some (ascii "HTTP request failed: " ++ err)), [.send req])
    | .ok resp =>
      if resp.StatusCode ≠ StatusOK then
        ((none, some (ascii "failed to get scan logs: " ++ resp.Status)),
          [.send req, .bodyClose])
      else
        match (ReadAll resp.Body).2 with
        | some err =>
          ((none, some (ascii "failed to read response body: " ++ err)),
            [.send req, .bodyRead, .bodyClose])
        | none =>
          match (Unmarshal storeScanLogsResult (ReadAll resp.Body).1 ⟨[]⟩).2 with
          | some err =>
            ((none, some (ascii "failed to parse response JSON: " ++ err)),
              [.send req, .bodyRead, .bodyClose])
          | none =>
            ((some (Unmarshal storeScanLogsResult (ReadAll resp.Body).1 ⟨[]⟩).1, none),
              [.send req, .bodyRead, .bodyClose])

/-- `(*apiClient).getReport`. -/
def getReport (env : Env) (c : apiClient) (hash endpoint : Bytes) (t : List Event) :
    Outcome Bytes :=
  let data := Values.Set [] (ascii "hash") hash
  match NewRequest env MethodPost (c.baseURL ++ endpoint) (Values.Encode data) with
  | .error err => ((none, some (ascii "failed to create HTTP request: " ++ err)), [])
  | .ok req0 =>
    let req : Request :=
      { req0 with
        Header := (req0.Header.Set (ascii "Authorization") c.apiToken).Set
          (ascii "Content-Type") (ascii "application/x-www-form-urlencoded") }
    match env.Do t req with
    | .error err => ((none, some (ascii "HTTP request failed: " ++ err)), [.send req])
    | .ok resp =>
      if resp.StatusCode ≠ StatusOK then
        ((none, some (ascii "failed to fetch report: " ++ resp.Status)),
          [.send req, .bodyClose])
      else
        ((some (ReadAll resp.Body).1, (ReadAll resp.Body).2),
          [.send req, .bodyRead, .bodyClose])

/-- `(*apiClient).GetJsonReport`. -/
def GetJsonReport (env : Env) (c : apiClient) (hash : Bytes) (t : List Event) : Outcome Bytes :=
  getReport env c hash (ascii "/api/v1/report_json") t

/-- `(*apiClient).GetPdfReport`. -/
def GetPdfReport (env : Env) (c : apiClient) (hash : Bytes) (t : List Event) : Outcome Bytes :=
  getReport env c hash (ascii "/api/v1/download_pdf") t

/-- `(*apiClient).DeleteScan`. -/
def DeleteScan (env : Env) (c : apiClient) (hash : Bytes) (t : List Event) :
    Outcome DeleteResult :=
  let data := Values.Set [] (ascii "hash") hash
  match NewRequest env MethodPost (c.baseURL ++ ascii "/api/v1/delete_scan")
      (Values.Encode data) with
  | .error err => ((none, some (ascii "failed to create HTTP request: " ++ err)), [])
  | .ok req0 =>
    let req : Request :=
      { req0 with
        Header := (req0.Header.Set (ascii "Authorization") c.apiToken).Set
          (ascii "Content-Type") (ascii "application/x-www-form-urlencoded") }
    match env.Do t req with
    | .error err => ((none, some (ascii "HTTP request failed: " ++ err)), [.send req])
    | .ok resp =>
      if resp.StatusCode ≠ StatusOK then
        ((none, some (ascii "failed to delete scan: " ++ resp.Status)),
          [.send req, .bodyClose])
      else
        match (ReadAll resp.Body).2 with
        | some err =>
          ((none, some (ascii "failed to read response body: " ++ err)),
            [.send req, .bodyRead, .bodyClose])
        | none =>
          match (Unmarshal storeDeleteResult (ReadAll resp.Body).1 ⟨[]⟩).2 with
          | some err =>
            ((none, some (ascii "failed to parse response JSON: " ++ err)),
              [.send req, .bodyRead, .bodyClose])
          | none =>
            ((some (Unmarshal storeDeleteResult (ReadAll resp.Body).1 ⟨[]⟩).1, none),
              [.send req, .bodyRead, .bodyClose])

/-! ## Vocabulary of the statements -/

/-- A world for worked examples: one readable file, a fixed draw of random
bytes, every URL without control bytes before its fragment accepted, every
request answered with `resp`, and a release of `mime/multipart` that writes CR
and LF in a file name as `%0D` and `%0A`. -/
def exampleEnv (resp : Response) : Env :=
  { Open := fun _ name =>
      if name = ascii "/tmp/build/app.apk" then .ok ⟨[80, 75, 3, 4], none⟩
      else .error (ascii "no such file or directory")
    Rand := fun _ => List.replicate 30 171
    ParseURL := fun _ => none
    Do := fun _ _ => .ok resp
    PercentCRLF := true }

/-- The client of the worked examples. -/
def exampleClient : apiClient := NewClient (ascii "http://scanner.local") (ascii "secret")

/-- A 403 answer whose body is a well-formed scan-logs result. -/
def forbidden : Response := ⟨ascii "403 Forbidden", 403, ⟨ascii "\x7b\"logs\":[]\x7d", none⟩⟩

/-- `http.NewRequest` accepts the URL. -/
def Accepts (env : Env) (url : Bytes) : Prop :=
  stringContainsCTLByte (beforeFragment url) = false ∧ env.ParseURL url = none

instance (env : Env) (url : Bytes) : Decidable (Accepts env url) := by
  unfold Accepts
  infer_instance

/-- The paths of the five operations that post a form. -/
def formEndpoints : List Bytes :=
  [ascii "/api/v1/scan", ascii "/api/v1/scan_logs", ascii "/api/v1/report_json",
   ascii "/api/v1/download_pdf", ascii "/api/v1/delete_scan"]

/-- The six paths of the service. -/
def endpoints : List Bytes := ascii "/api/v1/upload" :: formEndpoints

/-- The call failed on the status of `resp`: it returns no result and the error
`msg` followed by the status line, it handed one request to `client.Do`, and it
did not read the body. -/
def StatusFailure {α : Type} (out : Outcome α) (msg : Bytes) (resp : Response) : Prop :=
  out.1 = (none, some (msg ++ resp.Status)) ∧ (sent out.2).length = 1 ∧
    Event.bodyRead ∉ out.2

/-- The call stopped at `http.NewRequest`: no result, the error
`failed to create HTTP request: ` followed by the cause, and no effect at all. -/
def Rejected {α : Type} (out : Outcome α) : Prop :=
  ∃ e, out.1 = (none, some (ascii "failed to create HTTP request: " ++ e)) ∧ out.2 = []

/-- The network that answers every request with `resp`, whose `Location` is
`location`. -/
def Net.always (resp : Response) (location : Option (Except error Bytes)) : Net :=
  fun _ => .answered resp location

/-- A network for worked examples. The server has moved: `/api/v1/scan` is
answered 302 and `/api/v1/delete_scan` 307, both with `Location: /moved`, and
`/moved` is answered 200 with a delete result as its body; the host
`down.local` cannot be reached; everything else is answered 404. -/
def exampleNet : Net := fun w =>
  if w.URL = ascii "http://scanner.local/api/v1/scan" then
    .answered ⟨ascii "302 Found", 302, ⟨[], none⟩⟩
      (some (.ok (ascii "http://scanner.local/moved")))
  else if w.URL = ascii "http://scanner.local/api/v1/delete_scan" then
    .answered ⟨ascii "307 Temporary Redirect", 307, ⟨[], none⟩⟩
      (some (.ok (ascii "http://scanner.local/moved")))
  else if w.URL = ascii "http://scanner.local/moved" then
    .answered ⟨ascii "200 OK", 200, ⟨ascii "\x7b\"deleted\":\"deadbeef\"\x7d", none⟩⟩ none
  else if w.URL = ascii "http://down.local/api/v1/scan" then
    .refused (ascii "dial tcp: connection refused")
  else .answered ⟨ascii "404 Not Found", 404, ⟨[], none⟩⟩ none

/-- The call sent exactly one request: a POST to `baseURL` followed by `path`,
form-encoded, whose body is `hash=` followed by the escaped hash. -/
def IssuesForm {α : Type} (out : Outcome α) (c : apiClient) (path hash : Bytes) : Prop :=
  ∃ req, sent out.2 = [req] ∧ req.Method = ascii "POST" ∧ req.URL = c.baseURL ++ path ∧
    req.Header.Get (ascii "Content-Type") = ascii "application/x-www-form-urlencoded" ∧
    req.Body = ascii "hash=" ++ QueryEscape hash ∧
    ((∀ b ∈ hash, shouldEscape b = false) → req.Body = ascii "hash=" ++ hash)

/-- The request the five form operations build for a path and a hash. -/
def formRequest (c : apiClient) (path hash : Bytes) : Request :=
  ⟨MethodPost, c.baseURL ++ path,
    Header.Set (Header.Set [] (ascii "Authorization") c.apiToken) (ascii "Content-Type")
      (ascii "application/x-www-form-urlencoded"),
    ascii "hash=" ++ QueryEscape hash⟩

/-- Every request among the events carries `token` as its `Authorization`. -/
def Authorized (evs : List Event) (token : Bytes) : Prop :=
  ∀ req ∈ sent evs, req.Header.Get (ascii "Authorization") = token

/-- A printable ASCII byte other than the double quote and the backslash: in a
JSON string literal it stands for itself. -/
def Plain (s : Bytes) : Prop := ∀ b ∈ s, 32 ≤ b ∧ b < 128 ∧ b ≠ 34 ∧ b ≠ 92

instance (s : Bytes) : Decidable (Plain s) := by
  unfold Plain
  infer_instance

/-- The bytes `lit` are a JSON string literal, quotes included, that the reader
unquotes to `s`, whatever follows the literal. -/
def Denotes (lit s : Bytes) : Prop :=
  ∃ l, lit = 34 :: l ∧ ∀ rest, parseString (l ++ rest) = .ok (s, rest)

/-- A response with status code 200 whose body reads, without error, as `body`. -/
def okResponse (status body : Bytes) : Response := ⟨status, 200, ⟨body, none⟩⟩

/-- The JSON object whose one member `deleted` is the string literal `lit`. -/
def deletedBody (lit : Bytes) : Bytes := ascii "\x7b\"deleted\":" ++ lit ++ ascii "\x7d"

/-- An error never comes with a result. -/
def NoPartialResult {α : Type} (out : Outcome α) : Prop := out.1.2 ≠ none → out.1.1 = none

/-- The JSON object of an upload result, its five members written as the string
literals given. -/
def uploadBody (al sl hl tl fl : Bytes) : Bytes :=
  ascii "\x7b\"analyzer\":" ++ al ++ ascii ",\"status\":" ++ sl ++ ascii ",\"hash\":" ++ hl
    ++ ascii ",\"scan_type\":" ++ tl ++ ascii ",\"file_name\":" ++ fl ++ ascii "\x7d"

/-- The upload result of the specification's round-trip example. -/
def canonicalUpload : UploadResult :=
  ⟨ascii "a", ascii "PENDING", ascii "deadbeef", ascii "apk", ascii "app.apk"⟩

/-- The body of the specification's round-trip example. -/
def canonicalUploadBody : Bytes :=
  ascii ("\x7b\"analyzer\":\"a\",\"status\":\"PENDING\",\"hash\":\"deadbeef\","
    ++ "\"scan_type\":\"apk\",\"file_name\":\"app.apk\"\x7d")

/-- The `exception` member of a scan-log entry as a response writes it: no such
member, the member `null`, or a string literal. -/
inductive ExceptionText where
  | absent
  | null
  | string (lit : Bytes)

/-- A scan-log entry as a response writes it: the string literals of `timestamp`
and `status`, and the `exception` member. -/
structure EntryText where
  timestamp : Bytes
  status : Bytes
  exception : ExceptionText

/-- The text of the `exception` member, with the comma before it. -/
def ExceptionText.render : ExceptionText → Bytes
  | .absent => []
  | .null => ascii ",\"exception\":null"
  | .string lit => ascii ",\"exception\":" ++ lit

/-- The text of a scan-log entry. -/
def EntryText.render (e : EntryText) : Bytes :=
  ascii "\x7b\"timestamp\":" ++ e.timestamp ++ ascii ",\"status\":" ++ e.status
    ++ e.exception.render ++ ascii "\x7d"

/-- The text of a scan-logs response: the entries, in order, in the array `logs`. -/
def logsBody (es : List EntryText) : Bytes :=
  ascii "\x7b\"logs\":[" ++ List.intercalate [44] (es.map EntryText.render) ++ ascii "]\x7d"

/-- What the `exception` member stands for: nothing when it is missing or `null`,
the string its literal denotes otherwise. -/
def ExceptionText.Reads : ExceptionText → Option Bytes → Prop
  | .absent, x => x = none
  | .null, x => x = none
  | .string lit, x => ∃ e, x = some e ∧ Denotes lit e

/-- The scan log an entry stands for. -/
def EntryText.Reads (e : EntryText) (l : ScanLog) : Prop :=
  Denotes e.timestamp l.Timestamp ∧ Denotes e.status l.Status ∧ e.exception.Reads l.Exception

/-- The JSON value of an entry that stands for `l`. -/
def entryJSON (e : EntryText) (l : ScanLog) : JSON :=
  .object ([(ascii "timestamp", .string l.Timestamp), (ascii "status", .string l.Status)]
    ++ (match e.exception with
        | .absent => []
        | .null => [(ascii "exception", .null)]
        | .string _ => [(ascii "exception", .string (l.Exception.getD []))]))

/-- Four entries for a worked example: `null`, the empty string, no `exception`
member, a string. -/
def exampleEntries : List EntryText :=
  [⟨ascii "\"t1\"", ascii "\"queued\"", .null⟩,
   ⟨ascii "\"t2\"", ascii "\"running\"", .string (ascii "\"\"")⟩,
   ⟨ascii "\"t3\"", ascii "\"running\"", .absent⟩,
   ⟨ascii "\"t4\"", ascii "\"failed\"", .string (ascii "\"boom\"")⟩]

/-- The scan logs the example entries stand for. -/
def exampleLogs : List ScanLog :=
  [⟨ascii "t1", ascii "queued", none⟩, ⟨ascii "t2", ascii "running", some []⟩,
   ⟨ascii "t3", ascii "running", none⟩, ⟨ascii "t4", ascii "failed", some (ascii "boom")⟩]

/-- The key stands for the field of JSON name `name`: the two are equal up to
the case of letters, which is how `encoding/json` finds the field of a member. -/
def IsKey (name key : Bytes) : Prop := foldName key = foldName name

instance (name key : Bytes) : Decidable (IsKey name key) := by
  unfold IsKey
  infer_instance

/-- A value the decoder stores into a `string` or a `*string` without a type
error: a string or `null`. -/
def JSON.isStringOrNull : JSON → Bool
  | .string _ => true
  | .null => true
  | _ => false

/-- An entry of `logs` the decoder stores without a type error: `null`, or an
object in which every member whose key stands for `timestamp`, `status` or
`exception` has a string or `null` as its value. -/
def WellTypedEntry : JSON → Prop
  | .null => True
  | .object ms =>
    ∀ kv ∈ ms,
      IsKey (ascii "timestamp") kv.1 ∨ IsKey (ascii "status") kv.1
          ∨ IsKey (ascii "exception") kv.1 →
        kv.2.isStringOrNull = true
  | _ => False

instance (j : JSON) : Decidable (WellTypedEntry j) := by
  cases j <;> unfold WellTypedEntry <;> infer_instance

/-- A scan-logs response for a worked example, written with white space, the
key `Logs`, members in several orders, keys in upper case, members the result
has no field for, an entry without `status`, and the entry `null`. -/
def exampleLogsBody : Bytes :=
  ascii ("\x7b \"Logs\" : [\n"
    ++ " \x7b\"status\":\"queued\", \"timestamp\":\"t1\", \"exception\":null\x7d,\n"
    ++ " \x7b\"timestamp\":\"t2\", \"status\":\"running\", \"EXCEPTION\":\"\"\x7d,\n"
    ++ " \x7b\"extra\":[1,2], \"timestamp\":\"t3\"\x7d, null,\n"
    ++ " \x7b\"exception\":\"boom\", \"timestamp\":\"t4\", \"status\":\"failed\"\x7d ],\n"
    ++ " \"count\": 5 \x7d")

/-- The entries of the example response, as JSON values. -/
def exampleLogsEntries : List JSON :=
  [.object [(ascii "status", .string (ascii "queued")), (ascii "timestamp", .string (ascii "t1")),
      (ascii "exception", .null)],
   .object [(ascii "timestamp", .string (ascii "t2")), (ascii "status", .string (ascii "running")),
      (ascii "EXCEPTION", .string [])],
   .object [(ascii "extra", .array [.number [49], .number [50]]),
      (ascii "timestamp", .string (ascii "t3"))],
   .null,
   .object [(ascii "exception", .string (ascii "boom")), (ascii "timestamp", .string (ascii "t4")),
      (ascii "status", .string (ascii "failed"))]]

/-! ### Reading a multipart message

A reader of `multipart/form-data` after the grammar of RFC 2046, section 5.1.1,
without preamble and transport padding: the message opens with the boundary
line; a part is its header lines and then either nothing or an empty line and
the content; the delimiter (CR LF, two hyphens, the boundary) ends the part,
wherever it first occurs from the end of the header lines on; two hyphens after
the delimiter close the message, and what follows their line is ignored. So a
content that begins with the two hyphens and the boundary is not content: the
CR LF of the empty line and these bytes are the delimiter, as they are for
`multipart.Reader`. -/

/-- The input cut at the first occurrence of `d`: what precedes it, what follows it. -/
def splitAtFirst (d : Bytes) : Bytes → Option (Bytes × Bytes)
  | [] =>
    match expect d [] with
    | some rest => some ([], rest)
    | none => none
  | c :: s =>
    match expect d (c :: s) with
    | some rest => some ([], rest)
    | none =>
      match splitAtFirst d s with
      | some r => some (c :: r.1, r.2)
      | none => none

/-- A part of a multipart message: its header lines and its content. -/
structure Part where
  header : List Bytes
  content : Bytes
deriving DecidableEq, Repr

/-- The header lines up to the empty line, and what follows the empty line. A
header line holds no CR and no LF of its own. -/
def readHeaderLines : Nat → Bytes → Option (List Bytes × Bytes)
  | 0, _ => none
  | n + 1, s =>
    match splitAtFirst crlf s with
    | none => none
    | some r =>
      if r.1 = [] then some ([], r.2)
      else if 13 ∈ r.1 ∨ 10 ∈ r.1 then none
      else
        match readHeaderLines n r.2 with
        | some q => some (r.1 :: q.1, q.2)
        | none => none

/-- The parts that follow a boundary line, up to the close delimiter. The
delimiter that ends a part is looked for from the CR LF of the empty line on;
the content is what stands between that CR LF and the delimiter. -/
def readParts : Nat → Bytes → Bytes → Option (List Part)
  | 0, _, _ => none
  | n + 1, boundary, s =>
    match readHeaderLines (s.length + 1) s with
    | none => none
    | some h =>
      match splitAtFirst (crlf ++ dashes ++ boundary) (crlf ++ h.2) with
      | none => none
      | some r =>
        match expect dashes r.2 with
        | some tail =>
          if tail = [] ∨ (expect crlf tail).isSome then some [⟨h.1, r.1.drop 2⟩] else none
        | none =>
          match expect crlf r.2 with
          | some next =>
            match readParts n boundary next with
            | some ps => some (⟨h.1, r.1.drop 2⟩ :: ps)
            | none => none
          | none => none

/-- The parts of a multipart message with the given boundary, `none` when the
bytes are not such a message. -/
def readMultipart (boundary body : Bytes) : Option (List Part) :=
  match expect (dashes ++ boundary ++ crlf) body with
  | none => none
  | some s => readParts (body.length + 1) boundary s

/-- A quoted string after its opening quote: a backslash quotes the byte after
it. Yields the string and what follows the closing quote. -/
def readQuoted : Bytes → Bytes → Option (Bytes × Bytes)
  | [], _ => none
  | c :: rest, acc =>
    if c = 34 then some (acc, rest)
    else if c = 92 then
      match rest with
      | e :: rest1 => readQuoted rest1 (acc ++ [e])
      | [] => none
    else readQuoted rest (acc ++ [c])

/-- The field name and the file name of a `Content-Disposition: form-data` line. -/
def readDisposition (line : Bytes) : Option (Bytes × Bytes) :=
  match expect (ascii "Content-Disposition: form-data; name=\"") line with
  | none => none
  | some s =>
    match readQuoted s [] with
    | none => none
    | some n =>
      match expect (ascii "; filename=\"") n.2 with
      | none => none
      | some s2 =>
        match readQuoted s2 [] with
        | none => none
        | some f => if f.2 = [] then some (n.1, f.1) else none

/-- The `Content-Disposition` line `CreateFormFile` writes for the field `file`,
by release. -/
def formFileLine (percent : Bool) (filename : Bytes) : Bytes :=
  ascii "Content-Disposition: form-data; name=\"file\"; filename=\""
    ++ escapeQuotes percent filename ++ [34]

/-- The `Content-Disposition` line `CreateFormFile` writes for the field `file`
and a file name without CR and LF, where the releases agree. -/
def dispositionLine (filename : Bytes) : Bytes :=
  ascii "Content-Disposition: form-data; name=\"file\"; filename=\""
    ++ escapeQuotes false filename ++ [34]

/-- A file name as a reader takes it from the line `CreateFormFile` wrote: with
`percent`, `%0D` stands where the name has CR and `%0A` where it has LF. -/
def writtenName (percent : Bool) (filename : Bytes) : Bytes :=
  filename.flatMap (fun c =>
    if percent = true ∧ c = 13 then [37, 48, 68]
    else if percent = true ∧ c = 10 then [37, 48, 65]
    else [c])

/-- The `Content-Type` line `CreateFormFile` writes. -/
def contentTypeLine : Bytes := ascii "Content-Type: application/octet-stream"

/-- The delimiter of a boundary inside a message: CR LF, two hyphens, the boundary. -/
def delimiter (boundary : Bytes) : Bytes := crlf ++ dashes ++ boundary

/-- Go's `filepath.Base` on a Unix path: the last element, trailing slashes
removed first. -/
def Base (path : Bytes) : Bytes :=
  if path = [] then [46]
  else
    let p := (path.reverse.dropWhile (fun c => c = 47)).reverse
    let last := (p.reverse.takeWhile (fun c => c ≠ 47)).reverse
    if last = [] then [47] else last

/-- A world with one readable file: `data` at `path`; otherwise like `exampleEnv`. -/
def fileEnv (path data : Bytes) (resp : Response) : Env :=
  { exampleEnv resp with
    Open := fun _ name =>
      if name = path then .ok ⟨data, none⟩ else .error (ascii "no such file or directory") }

/-- The world `env` with a release of `mime/multipart` that leaves CR and LF in
a file name as they are. -/
def Env.earlier (env : Env) : Env := { env with PercentCRLF := false }

/-- The boundary `multipart.NewWriter` draws in the example worlds. -/
def exampleBoundary : Bytes := randomBoundary (List.replicate 30 171)

/-- The message `UploadApp` builds in its buffer for a file name and a content:
the delimiter line, the two header lines of `CreateFormFile`, an empty line, the
content, the close delimiter and its line end. -/
def formFileBody (boundary filename content : Bytes) : Bytes :=
  dashes ++ boundary ++ crlf ++ (dispositionLine filename ++ (crlf ++ (contentTypeLine
    ++ (crlf ++ (crlf ++ (content ++ (delimiter boundary ++ (dashes ++ crlf))))))))

/-- The request `UploadApp` builds for a client, a boundary, a file name and a
content. -/
def uploadRequest (c : apiClient) (boundary filename content : Bytes) : Request :=
  ⟨MethodPost, c.baseURL ++ ascii "/api/v1/upload",
    Header.Set (Header.Set [] (ascii "Authorization") c.apiToken) (ascii "Content-Type")
      (ascii "multipart/form-data; boundary=" ++ boundary),
    formFileBody boundary filename content⟩

/-- The message of `formFileBody` with any first header line. -/
def formFileMessage (boundary line content : Bytes) : Bytes :=
  dashes ++ boundary ++ crlf ++ (line ++ (crlf ++ (contentTypeLine
    ++ (crlf ++ (crlf ++ (content ++ (delimiter boundary ++ (dashes ++ crlf))))))))

/-- The request of `uploadRequest` with any first header line. -/
def uploadRequestWith (c : apiClient) (boundary line content : Bytes) : Request :=
  ⟨MethodPost, c.baseURL ++ ascii "/api/v1/upload",
    Header.Set (Header.Set [] (ascii "Authorization") c.apiToken) (ascii "Content-Type")
      (ascii "multipart/form-data; boundary=" ++ boundary),
    formFileMessage boundary line content⟩

/-! ## Requests and status handling -/

theorem NewRequest_answer (env : Env) (resp : Response) (m u b : Bytes) :
    NewRequest (env.answer resp) m u b = NewRequest env m u b := rfl

theorem Open_answer (env : Env) (resp : Response) (t : List Event) (name : Bytes) :
    Open (env.answer resp) t name = Open env t name := rfl

theorem Rand_answer (env : Env) (resp : Response) (t : List Event) :
    (env.answer resp).Rand t = env.Rand t := rfl

theorem PercentCRLF_answer (env : Env) (resp : Response) :
    (env.answer resp).PercentCRLF = env.PercentCRLF := rfl

theorem NewRequest_of_accepts {env : Env} {url : Bytes} (h : Accepts env url) (m b : Bytes) :
    NewRequest env m url b = .ok { Method := m, URL := url, Header := [], Body := b } := by
  unfold NewRequest
  simp [h.1, h.2]

theorem QueryEscape_unreserved (s : Bytes) (h : ∀ b ∈ s, shouldEscape b = false) :
    QueryEscape s = s := by
  induction s with
  | nil => rfl
  | cons b s ih =>
    have hb : shouldEscape b = false := h b (List.mem_cons_self _ _)
    have hs : QueryEscape s = s := ih (fun x hx => h x (List.mem_cons_of_mem _ hx))
    have h32 : b ≠ 32 := by
      intro h32
      rw [h32] at hb
      exact absurd hb (by decide)
    unfold QueryEscape at hs ⊢
    simp [List.flatMap_cons, escapeByte, hb, h32, hs]

theorem Encode_hash (hash : Bytes) :
    Values.Encode (Values.Set [] (ascii "hash") hash) = ascii "hash=" ++ QueryEscape hash := by
  have h1 : QueryEscape (ascii "hash") = ascii "hash" := by decide
  have h2 : ascii "hash=" = ascii "hash" ++ [61] := by decide
  simp [Values.Encode, Values.Set, encodeKey, h1, h2, List.intercalate, List.intersperse]

theorem Get_Authorization (tok v : Bytes) :
    Header.Get (Header.Set (Header.Set [] (ascii "Authorization") tok) (ascii "Content-Type") v)
      (ascii "Authorization") = tok := by
  have h : ascii "Authorization" ≠ ascii "Content-Type" := by decide
  simp [Header.Get, Header.Set, h]

theorem Get_ContentType (tok v : Bytes) :
    Header.Get (Header.Set (Header.Set [] (ascii "Authorization") tok) (ascii "Content-Type") v)
      (ascii "Content-Type") = v := by
  have h : ascii "Authorization" ≠ ascii "Content-Type" := by decide
  simp [Header.Get, Header.Set, h]

/-! ## The operations after `http.NewRequest` -/

theorem NewRequest_rejects {env : Env} {url : Bytes} (h : ¬ Accepts env url) (m b : Bytes) :
    ∃ e, NewRequest env m url b = .error e := by
  unfold NewRequest
  by_cases h1 : stringContainsCTLByte (beforeFragment url) = true
  · exact ⟨_, by rw [if_pos h1]⟩
  · rw [if_neg h1]
    cases h2 : env.ParseURL url with
    | some err => exact ⟨err, rfl⟩
    | none =>
      exact absurd ⟨by simpa using h1, h2⟩ h

theorem TriggerScan_accepted (env : Env) (c : apiClient) (hash : Bytes) (t : List Event)
    (h : Accepts env (c.baseURL ++ ascii "/api/v1/scan")) :
    TriggerScan env c hash t
      = match env.Do t (formRequest c (ascii "/api/v1/scan") hash) with
        | .error err =>
          ((none, some (ascii "HTTP request failed: " ++ err)),
            [.send (formRequest c (ascii "/api/v1/scan") hash)])
        | .ok resp =>
          if resp.StatusCode ≠ StatusOK then
            ((none, some (ascii "scan trigger failed: " ++ resp.Status)),
              [.send (formRequest c (ascii "/api/v1/scan") hash), .bodyClose])
          else
            ((some (ReadAll resp.Body).1, (ReadAll resp.Body).2),
              [.send (formRequest c (ascii "/api/v1/scan") hash), .bodyRead, .bodyClose]) := by
  unfold TriggerScan
  simp only [NewRequest_of_accepts h, Encode_hash]
  rfl

theorem getReport_accepted (env : Env) (c : apiClient) (hash endpoint : Bytes) (t : List Event)
    (h : Accepts env (c.baseURL ++ endpoint)) :
    getReport env c hash endpoint t
      = match env.Do t (formRequest c endpoint hash) with
        | .error err =>
          ((none, some (ascii "HTTP request failed: " ++ err)),
            [.send (formRequest c endpoint hash)])
        | .ok resp =>
          if resp.StatusCode ≠ StatusOK then
            ((none, some (ascii "failed to fetch report: " ++ resp.Status)),
              [.send (formRequest c endpoint hash), .bodyClose])
          else
            ((some (ReadAll resp.Body).1, (ReadAll resp.Body).2),
              [.send (formRequest c endpoint hash), .bodyRead, .bodyClose]) := by
  unfold getReport
  simp only [NewRequest_of_accepts h, Encode_hash]
  rfl

theorem GetScanLogs_accepted (env : Env) (c : apiClient) (hash : Bytes) (t : List Event)
    (h : Accepts env (c.baseURL ++ ascii "/api/v1/scan_logs")) :
    GetScanLogs env c hash t
      = match env.Do t (formRequest c (ascii "/api/v1/scan_logs") hash) with
        | .error err =>
          ((none, some (ascii "HTTP request failed: " ++ err)),
            [.send (formRequest c (ascii "/api/v1/scan_logs") hash)])
        | .ok resp =>
          if resp.StatusCode ≠ StatusOK then
            ((none, some (ascii "failed to get scan logs: " ++ resp.Status)),
              [.send (formRequest c (ascii "/api/v1/scan_logs") hash), .bodyClose])
          else
            match (ReadAll resp.Body).2 with
            | some err =>
              ((none, some (ascii "failed to read response body: " ++ err)),
                [.send (formRequest c (ascii "/api/v1/scan_logs") hash), .bodyRead, .bodyClose])
            | none =>
              match (Unmarshal storeScanLogsResult (ReadAll resp.Body).1 ⟨[]⟩).2 with
              | some err =>
                ((none, some (ascii "failed to parse response JSON: " ++ err)),
                  [.send (formRequest c (ascii "/api/v1/scan_logs") hash), .bodyRead,
                    .bodyClose])
              | none =>
                ((some (Unmarshal storeScanLogsResult (ReadAll resp.Body).1 ⟨[]⟩).1, none),
                  [.send (formRequest c (ascii "/api/v1/scan_logs") hash), .bodyRead,
                    .bodyClose]) := by
  unfold GetScanLogs
  simp only [NewRequest_of_accepts h, Encode_hash]
  rfl

theorem DeleteScan_accepted (env : Env) (c : apiClient) (hash : Bytes) (t : List Event)
    (h : Accepts env (c.baseURL ++ ascii "/api/v1/delete_scan")) :
    DeleteScan env c hash t
      = match env.Do t (formRequest c (ascii "/api/v1/delete_scan") hash) with
        | .error err =>
          ((none, some (ascii "HTTP request failed: " ++ err)),
            [.send (formRequest c (ascii "/api/v1/delete_scan") hash)])
        | .ok resp =>
          if resp.StatusCode ≠ StatusOK then
            ((none, some (ascii "failed to delete scan: " ++ resp.Status)),
              [.send (formRequest c (ascii "/api/v1/delete_scan") hash), .bodyClose])
          else
            match (ReadAll resp.Body).2 with
            | some err =>
              ((none, some (ascii "failed to read response body: " ++ err)),
                [.send (formRequest c (ascii "/api/v1/delete_scan") hash), .bodyRead,
                  .bodyClose])
            | none =>
              match (Unmarshal storeDeleteResult (ReadAll resp.Body).1 ⟨[]⟩).2 with
              | some err =>
                ((none, some (ascii "failed to parse response JSON: " ++ err)),
                  [.send (formRequest c (ascii "/api/v1/delete_scan") hash), .bodyRead,
                    .bodyClose])
              | none =>
                ((some (Unmarshal storeDeleteResult (ReadAll resp.Body).1 ⟨[]⟩).1, none),
                  [.send (formRequest c (ascii "/api/v1/delete_scan") hash), .bodyRead,
                    .bodyClose]) := by
  unfold DeleteScan
  simp only [NewRequest_of_accepts h, Encode_hash]
  rfl

theorem TriggerScan_rejected (env : Env) (c : apiClient) (hash : Bytes) (t : List Event)
    (h : ¬ Accepts env (c.baseURL ++ ascii "/api/v1/scan")) :
    Rejected (TriggerScan env c hash t) := by
  obtain ⟨e, he⟩ := NewRequest_rejects h MethodPost
    (Values.Encode (Values.Set [] (ascii "hash") hash))
  exact ⟨e, by simp [TriggerScan, he], by simp [TriggerScan, he]⟩

theorem GetScanLogs_rejected (env : Env) (c : apiClient) (hash : Bytes) (t : List Event)
    (h : ¬ Accepts env (c.baseURL ++ ascii "/api/v1/scan_logs")) :
    Rejected (GetScanLogs env c hash t) := by
  obtain ⟨e, he⟩ := NewRequest_rejects h MethodPost
    (Values.Encode (Values.Set [] (ascii "hash") hash))
  exact ⟨e, by simp [GetScanLogs, he], by simp [GetScanLogs, he]⟩

theorem getReport_rejected (env : Env) (c : apiClient) (hash endpoint : Bytes) (t : List Event)
    (h : ¬ Accepts env (c.baseURL ++ endpoint)) :
    Rejected (getReport env c hash endpoint t) := by
  obtain ⟨e, he⟩ := NewRequest_rejects h MethodPost
    (Values.Encode (Values.Set [] (ascii "hash") hash))
  exact ⟨e, by simp [getReport, he], by simp [getReport, he]⟩

theorem DeleteScan_rejected (env : Env) (c : apiClient) (hash : Bytes) (t : List Event)
    (h : ¬ Accepts env (c.baseURL ++ ascii "/api/v1/delete_scan")) :
    Rejected (DeleteScan env c hash t) := by
  obtain ⟨e, he⟩ := NewRequest_rejects h MethodPost
    (Values.Encode (Values.Set [] (ascii "hash") hash))
  exact ⟨e, by simp [DeleteScan, he], by simp [DeleteScan, he]⟩

/-! ## `client.Do` over a network -/

theorem clientDo_final (net : Net) (req : Request) (resp : Response)
    (location : Option (Except error Bytes)) (h : net req.wire = .answered resp location)
    (hfinal : redirectBehavior req.Method resp.StatusCode = none ∨ location = none) :
    clientDo net req = (.ok resp, [req.wire]) := by
  have hm : req.wire.Method = req.Method := rfl
  unfold clientDo doLoop
  rw [h]
  simp only [hm]
  cases hr : redirectBehavior req.Method resp.StatusCode with
  | none => rfl
  | some next =>
    rcases hfinal with h1 | h1
    · rw [hr] at h1; cases h1
    · subst h1; rfl

theorem clientDo_refused (net : Net) (req : Request) (err : error)
    (h : net req.wire = .refused err) : clientDo net req = (.error err, []) := by
  unfold clientDo doLoop
  rw [h]

theorem over_always (env : Env) (resp : Response) (location : Option (Except error Bytes))
    (hfinal : redirectBehavior MethodPost resp.StatusCode = none ∨ location = none) :
    env.over (Net.always resp location) = env.answer resp := by
  have hf : ∀ m, redirectBehavior m resp.StatusCode = none ∨ location = none := by
    intro m
    rcases hfinal with h | h
    · left
      unfold redirectBehavior at h ⊢
      split at h
      · cases h
      · rename_i h1
        rw [if_neg h1]
        split at h
        · cases h
        · rename_i h2
          rw [if_neg h2]
    · exact Or.inr h
  unfold Env.over Env.answer
  congr 1
  funext t req
  rw [clientDo_final (Net.always resp location) req resp location rfl (hf _)]

/-! ## The upload request -/

theorem hexLower_range (k : Nat) (h : k < 16) :
    (48 ≤ hexLower k ∧ hexLower k ≤ 57) ∨ (97 ≤ hexLower k ∧ hexLower k ≤ 102) := by
  unfold hexLower
  split <;> omega

theorem randomBoundary_hex (r : Bytes) :
    ∀ c ∈ randomBoundary r, (48 ≤ c ∧ c ≤ 57) ∨ (97 ≤ c ∧ c ≤ 102) := by
  intro c hc
  simp only [randomBoundary, List.mem_flatMap, List.mem_cons, List.mem_singleton,
    List.not_mem_nil, or_false] at hc
  obtain ⟨b, _, rfl | rfl⟩ := hc
  · exact hexLower_range _ (Nat.mod_lt _ (by decide))
  · exact hexLower_range _ (Nat.mod_lt _ (by decide))

theorem FormDataContentType_hex (w r : Bytes) (lp : Bool) :
    (Writer.mk w (randomBoundary r) lp).FormDataContentType
      = ascii "multipart/form-data; boundary=" ++ randomBoundary r := by
  unfold Writer.FormDataContentType
  have : (randomBoundary r).any (fun c => decide (c ∈ ascii "()<>@,;:\\\"/[]?= ")) = false := by
    rw [List.any_eq_false]
    intro c hc
    have hr := randomBoundary_hex r c hc
    have hs : ascii "()<>@,;:\\\"/[]?= "
        = [40, 41, 60, 62, 64, 44, 59, 58, 92, 34, 47, 91, 93, 63, 61, 32] := by decide
    rw [hs]
    simp only [List.mem_cons, List.mem_singleton, List.not_mem_nil, or_false, decide_eq_true_eq]
    omega
  simp [this]

theorem escapeQuotes_file (percent : Bool) : escapeQuotes percent (ascii "file") = ascii "file" := by
  cases percent <;> decide

theorem CreateFormFile_file (r filename : Bytes) (percent : Bool) :
    (NewWriter r).CreateFormFile percent (ascii "file") filename
      = .ok ⟨dashes ++ randomBoundary r ++ crlf ++ (formFileLine percent filename ++ (crlf
          ++ (contentTypeLine ++ (crlf ++ crlf)))), randomBoundary r, true⟩ := by
  have hle : ascii "Content-Disposition" ≤ ascii "Content-Type" := by decide
  have c1 : ascii "form-data; name=\"" ++ escapeQuotes percent (ascii "file")
      ++ ascii "\"; filename=\"" ++ escapeQuotes percent filename ++ ascii "\""
      = ascii "form-data; name=\"file\"; filename=\"" ++ escapeQuotes percent filename ++ [34] := by
    have : ascii "form-data; name=\"" ++ ascii "file" ++ ascii "\"; filename=\""
        = ascii "form-data; name=\"file\"; filename=\"" := by decide
    rw [escapeQuotes_file, this]
    rfl
  have c2 : ascii "Content-Disposition: form-data; name=\"file\"; filename=\""
      = ascii "Content-Disposition" ++ [58, 32] ++ ascii "form-data; name=\"file\"; filename=\"" := by
    decide
  have c3 : contentTypeLine
      = ascii "Content-Type" ++ [58, 32] ++ ascii "application/octet-stream" := by decide
  simp only [NewWriter, Writer.CreateFormFile, Writer.CreatePart,
    c1, List.insertionSort, List.orderedInsert, hle, if_true, formFileLine, c2, c3]
  simp

theorem formFileMessage_eq (b line content : Bytes) :
    (dashes ++ b ++ crlf ++ (line ++ (crlf
        ++ (contentTypeLine ++ (crlf ++ crlf))))) ++ content ++ crlf ++ dashes ++ b ++ dashes
        ++ crlf
      = formFileMessage b line content := by
  simp [formFileMessage, delimiter]

theorem UploadApp_accepted (env : Env) (c : apiClient) (P B : Bytes) (t : List Event)
    (req : Request)
    (hreq : req = uploadRequestWith c (randomBoundary (env.Rand t))
      (formFileLine env.PercentCRLF P) B)
    (hopen : env.Open (t ++ [.randRead]) P = .ok ⟨B, none⟩)
    (hurl : Accepts env (c.baseURL ++ ascii "/api/v1/upload")) :
    UploadApp env c P t
      = match env.Do (t ++ [.randRead, .fileOpen P]) req with
        | .error err =>
          ((none, some (ascii "HTTP request failed: " ++ err)),
            [.randRead, .fileOpen P, .send req, .fileClose P])
        | .ok resp =>
          if resp.StatusCode ≠ StatusOK then
            ((none, some (ascii "upload failed: " ++ resp.Status)),
              [.randRead, .fileOpen P, .send req, .bodyClose, .fileClose P])
          else
            match (ReadAll resp.Body).2 with
            | some err =>
              ((none, some (ascii "failed to read response body: " ++ err)),
                [.randRead, .fileOpen P, .send req, .bodyRead, .bodyClose, .fileClose P])
            | none =>
              match (Unmarshal storeUploadResult (ReadAll resp.Body).1 ⟨[], [], [], [], []⟩).2 with
              | some err =>
                ((none, some (ascii "failed to parse response JSON: " ++ err)),
                  [.randRead, .fileOpen P, .send req, .bodyRead, .bodyClose, .fileClose P])
              | none =>
                ((some (Unmarshal storeUploadResult (ReadAll resp.Body).1
                    ⟨[], [], [], [], []⟩).1, none),
                  [.randRead, .fileOpen P, .send req, .bodyRead, .bodyClose, .fileClose P]) := by
  subst hreq
  unfold UploadApp Open
  simp only [hopen, CreateFormFile_file, Copy, Writer.Close, formFileMessage_eq,
    FormDataContentType_hex, NewRequest_of_accepts hurl]
  rfl

/-! ## A status other than 200 -/

theorem Accepts_answer {env : Env} {resp : Response} {url : Bytes} (h : Accepts env url) :
    Accepts (env.answer resp) url := h

theorem UploadApp_non200 (env : Env) (c : apiClient) (P B : Bytes) (t : List Event)
    (resp : Response) (h : resp.StatusCode ≠ 200)
    (hopen : env.Open (t ++ [.randRead]) P = .ok ⟨B, none⟩)
    (hurl : Accepts env (c.baseURL ++ ascii "/api/v1/upload")) :
    StatusFailure (UploadApp (env.answer resp) c P t) (ascii "upload failed: ") resp := by
  rw [UploadApp_accepted (env.answer resp) c P B t _ rfl hopen (Accepts_answer hurl)]
  simp [StatusFailure, Env.answer, StatusOK, h, sent]

theorem TriggerScan_non200 (env : Env) (c : apiClient) (hash : Bytes) (t : List Event)
    (resp : Response) (h : resp.StatusCode ≠ 200)
    (hurl : Accepts env (c.baseURL ++ ascii "/api/v1/scan")) :
    StatusFailure (TriggerScan (env.answer resp) c hash t) (ascii "scan trigger failed: ")
      resp := by
  rw [TriggerScan_accepted (env.answer resp) c hash t (Accepts_answer hurl)]
  simp [StatusFailure, Env.answer, StatusOK, h, sent]

theorem GetScanLogs_non200 (env : Env) (c : apiClient) (hash : Bytes) (t : List Event)
    (resp : Response) (h : resp.StatusCode ≠ 200)
    (hurl : Accepts env (c.baseURL ++ ascii "/api/v1/scan_logs")) :
    StatusFailure (GetScanLogs (env.answer resp) c hash t) (ascii "failed to get scan logs: ")
      resp := by
  rw [GetScanLogs_accepted (env.answer resp) c hash t (Accepts_answer hurl)]
  simp [StatusFailure, Env.answer, StatusOK, h, sent]

theorem getReport_non200 (env : Env) (c : apiClient) (hash endpoint : Bytes) (t : List Event)
    (resp : Response) (h : resp.StatusCode ≠ 200)
    (hurl : Accepts env (c.baseURL ++ endpoint)) :
    StatusFailure (getReport (env.answer resp) c hash endpoint t)
      (ascii "failed to fetch report: ") resp := by
  rw [getReport_accepted (env.answer resp) c hash endpoint t (Accepts_answer hurl)]
  simp [StatusFailure, Env.answer, StatusOK, h, sent]

theorem DeleteScan_non200 (env : Env) (c : apiClient) (hash : Bytes) (t : List Event)
    (resp : Response) (h : resp.StatusCode ≠ 200)
    (hurl : Accepts env (c.baseURL ++ ascii "/api/v1/delete_scan")) :
    StatusFailure (DeleteScan (env.answer resp) c hash t) (ascii "failed to delete scan: ")
      resp := by
  rw [DeleteScan_accepted (env.answer resp) c hash t (Accepts_answer hurl)]
  simp [StatusFailure, Env.answer, StatusOK, h, sent]

theorem UploadApp_body_unread (env : Env) (c : apiClient) (filePath : Bytes) (t : List Event)
    (resp : Response) (h : resp.StatusCode ≠ 200) (body : Body) :
    UploadApp (env.answer { resp with Body := body }) c filePath t
      = UploadApp (env.answer resp) c filePath t := by
  unfold UploadApp
  simp only [NewRequest_answer, Open_answer, Rand_answer, PercentCRLF_answer]
  cases Open env (t ++ [.randRead]) filePath with
  | error e => rfl
  | ok file =>
    simp only [Writer.CreateFormFile, Writer.CreatePart, Copy, Writer.Close]
    cases file.readErr with
    | some e => rfl
    | none =>
      simp only []
      split
      · rfl
      · simp [Env.answer, StatusOK, h]

theorem TriggerScan_body_unread (env : Env) (c : apiClient) (hash : Bytes) (t : List Event)
    (resp : Response) (h : resp.StatusCode ≠ 200) (body : Body) :
    TriggerScan (env.answer { resp with Body := body }) c hash t
      = TriggerScan (env.answer resp) c hash t := by
  unfold TriggerScan
  simp only [NewRequest_answer]
  split
  · rfl
  · simp [Env.answer, StatusOK, h]

theorem GetScanLogs_body_unread (env : Env) (c : apiClient) (hash : Bytes) (t : List Event)
    (resp : Response) (h : resp.StatusCode ≠ 200) (body : Body) :
    GetScanLogs (env.answer { resp with Body := body }) c hash t
      = GetScanLogs (env.answer resp) c hash t := by
  unfold GetScanLogs
  simp only [NewRequest_answer]
  split
  · rfl
  · simp [Env.answer, StatusOK, h]

theorem getReport_body_unread (env : Env) (c : apiClient) (hash endpoint : Bytes)
    (t : List Event) (resp : Response) (h : resp.StatusCode ≠ 200) (body : Body) :
    getReport (env.answer { resp with Body := body }) c hash endpoint t
      = getReport (env.answer resp) c hash endpoint t := by
  unfold getReport
  simp only [NewRequest_answer]
  split
  · rfl
  · simp [Env.answer, StatusOK, h]

theorem DeleteScan_body_unread (env : Env) (c : apiClient) (hash : Bytes) (t : List Event)
    (resp : Response) (h : resp.StatusCode ≠ 200) (body : Body) :
    DeleteScan (env.answer { resp with Body := body }) c hash t
      = DeleteScan (env.answer resp) c hash t := by
  unfold DeleteScan
  simp only [NewRequest_answer]
  split
  · rfl
  · simp [Env.answer, StatusOK, h]

theorem atoi3_not_space {a b c : Nat} {n : Int} (h : atoi3 a b c = some n) :
    a ≠ 32 ∧ b ≠ 32 ∧ c ≠ 32 := by
  unfold atoi3 at h
  simp only [isDigit, decide_eq_true_eq, Bool.decide_and] at h
  split at h
  · rename_i hd
    simp only [Bool.and_eq_true, decide_eq_true_eq] at hd
    omega
  · split at h
    · rename_i hd
      simp only [Bool.and_eq_true, decide_eq_true_eq] at hd
      omega
    · split at h
      · rename_i hd
        simp only [Bool.and_eq_true, decide_eq_true_eq] at hd
        omega
      · cases h

theorem readStatusCode_take (status : Bytes) (n : Int) (h : readStatusCode status = some n) :
    readStatusCode (status.take 3) = some n ∧ ∀ msg : Bytes, status.take 3 <:+: msg ++ status := by
  unfold readStatusCode at h
  split at h
  · rename_i a b c htw
    have hp : [a, b, c] <+: status := htw ▸ List.takeWhile_prefix _
    obtain ⟨rest, rfl⟩ := hp
    have htake : ([a, b, c] ++ rest).take 3 = [a, b, c] := by simp
    cases ha : atoi3 a b c with
    | none => simp [ha] at h
    | some m =>
      obtain ⟨h1, h2, h3⟩ := atoi3_not_space ha
      refine ⟨?_, fun msg => ?_⟩
      · rw [htake]
        have : List.takeWhile (fun b => decide (b ≠ 32)) [a, b, c] = [a, b, c] := by
          simp [List.takeWhile, h1, h2, h3]
        unfold readStatusCode
        rw [this]
        exact h
      · rw [htake]
        exact ⟨msg, rest, by simp⟩
  · cases h

theorem TriggerScan_issues (env : Env) (c : apiClient) (hash : Bytes) (t : List Event)
    (h : Accepts env (c.baseURL ++ ascii "/api/v1/scan")) :
    IssuesForm (TriggerScan env c hash t) c (ascii "/api/v1/scan") hash := by
  unfold IssuesForm TriggerScan
  simp only [NewRequest_of_accepts h, Encode_hash]
  refine ⟨⟨MethodPost, c.baseURL ++ ascii "/api/v1/scan",
      Header.Set (Header.Set [] (ascii "Authorization") c.apiToken)
        (ascii "Content-Type") (ascii "application/x-www-form-urlencoded"),
      ascii "hash=" ++ QueryEscape hash⟩, ?_, rfl, rfl, Get_ContentType _ _, rfl,
    fun hu => by rw [QueryEscape_unreserved hash hu]⟩
  cases env.Do t _ with
  | error e => simp [sent]
  | ok resp => simp only []; split <;> simp [sent]

theorem GetScanLogs_issues (env : Env) (c : apiClient) (hash : Bytes) (t : List Event)
    (h : Accepts env (c.baseURL ++ ascii "/api/v1/scan_logs")) :
    IssuesForm (GetScanLogs env c hash t) c (ascii "/api/v1/scan_logs") hash := by
  unfold IssuesForm GetScanLogs
  simp only [NewRequest_of_accepts h, Encode_hash]
  refine ⟨⟨MethodPost, c.baseURL ++ ascii "/api/v1/scan_logs",
      Header.Set (Header.Set [] (ascii "Authorization") c.apiToken)
        (ascii "Content-Type") (ascii "application/x-www-form-urlencoded"),
      ascii "hash=" ++ QueryEscape hash⟩, ?_, rfl, rfl, Get_ContentType _ _, rfl,
    fun hu => by rw [QueryEscape_unreserved hash hu]⟩
  cases env.Do t _ with
  | error e => simp [sent]
  | ok resp =>
    simp only []
    split
    · simp [sent]
    · split
      · simp [sent]
      · split <;> simp [sent]

theorem getReport_issues (env : Env) (c : apiClient) (hash endpoint : Bytes) (t : List Event)
    (h : Accepts env (c.baseURL ++ endpoint)) :
    IssuesForm (getReport env c hash endpoint t) c endpoint hash := by
  unfold IssuesForm getReport
  simp only [NewRequest_of_accepts h, Encode_hash]
  refine ⟨⟨MethodPost, c.baseURL ++ endpoint,
      Header.Set (Header.Set [] (ascii "Authorization") c.apiToken)
        (ascii "Content-Type") (ascii "application/x-www-form-urlencoded"),
      ascii "hash=" ++ QueryEscape hash⟩, ?_, rfl, rfl, Get_ContentType _ _, rfl,
    fun hu => by rw [QueryEscape_unreserved hash hu]⟩
  cases env.Do t _ with
  | error e => simp [sent]
  | ok resp => simp only []; split <;> simp [sent]

theorem DeleteScan_issues (env : Env) (c : apiClient) (hash : Bytes) (t : List Event)
    (h : Accepts env (c.baseURL ++ ascii "/api/v1/delete_scan")) :
    IssuesForm (DeleteScan env c hash t) c (ascii "/api/v1/delete_scan") hash := by
  unfold IssuesForm DeleteScan
  simp only [NewRequest_of_accepts h, Encode_hash]
  refine ⟨⟨MethodPost, c.baseURL ++ ascii "/api/v1/delete_scan",
      Header.Set (Header.Set [] (ascii "Authorization") c.apiToken)
        (ascii "Content-Type") (ascii "application/x-www-form-urlencoded"),
      ascii "hash=" ++ QueryEscape hash⟩, ?_, rfl, rfl, Get_ContentType _ _, rfl,
    fun hu => by rw [QueryEscape_unreserved hash hu]⟩
  cases env.Do t _ with
  | error e => simp [sent]
  | ok resp =>
    simp only []
    split
    · simp [sent]
    · split
      · simp [sent]
      · split <;> simp [sent]

theorem sent_authorized_nil (token : Bytes) : Authorized [] token := by
  intro req hreq
  simp [sent] at hreq

theorem NewRequest_header {env : Env} {m u b : Bytes} {req : Request}
    (h : NewRequest env m u b = .ok req) : req.Header = [] := by
  unfold NewRequest at h
  split at h
  · cases h
  · split at h
    · cases h
    · cases h; rfl

theorem UploadApp_authorized (env : Env) (c : apiClient) (filePath : Bytes) (t : List Event) :
    Authorized (UploadApp env c filePath t).2 c.apiToken := by
  unfold Authorized UploadApp
  intro req
  cases Open env (t ++ [.randRead]) filePath with
  | error e => simp [sent]
  | ok file =>
    simp only [Writer.CreateFormFile, Writer.CreatePart, Copy, Writer.Close]
    cases file.readErr with
    | some e => simp [sent]
    | none =>
      simp only []
      split
      · simp [sent]
      · rename_i req0 hreq
        simp only [NewRequest_header hreq]
        split
        · simp only [sent, List.mem_singleton]; rintro rfl; exact Get_Authorization _ _
        · split
          · simp only [sent, List.mem_singleton]; rintro rfl; exact Get_Authorization _ _
          · split
            · simp only [sent, List.mem_singleton]; rintro rfl; exact Get_Authorization _ _
            · split <;>
              · simp only [sent, List.mem_singleton]; rintro rfl; exact Get_Authorization _ _

theorem TriggerScan_authorized (env : Env) (c : apiClient) (hash : Bytes) (t : List Event) :
    Authorized (TriggerScan env c hash t).2 c.apiToken := by
  unfold Authorized TriggerScan
  intro req
  dsimp only
  split
  · simp [sent]
  · rename_i req0 hreq
    simp only [NewRequest_header hreq]
    split
    · simp only [sent, List.mem_singleton]; rintro rfl; exact Get_Authorization _ _
    · split <;>
      · simp only [sent, List.mem_singleton]; rintro rfl; exact Get_Authorization _ _

theorem GetScanLogs_authorized (env : Env) (c : apiClient) (hash : Bytes) (t : List Event) :
    Authorized (GetScanLogs env c hash t).2 c.apiToken := by
  unfold Authorized GetScanLogs
  intro req
  dsimp only
  split
  · simp [sent]
  · rename_i req0 hreq
    simp only [NewRequest_header hreq]
    split
    · simp only [sent, List.mem_singleton]; rintro rfl; exact Get_Authorization _ _
    · split
      · simp only [sent, List.mem_singleton]; rintro rfl; exact Get_Authorization _ _
      · split
        · simp only [sent, List.mem_singleton]; rintro rfl; exact Get_Authorization _ _
        · split <;>
          · simp only [sent, List.mem_singleton]; rintro rfl; exact Get_Authorization _ _

theorem getReport_authorized (env : Env) (c : apiClient) (hash endpoint : Bytes)
    (t : List Event) : Authorized (getReport env c hash endpoint t).2 c.apiToken := by
  unfold Authorized getReport
  intro req
  dsimp only
  split
  · simp [sent]
  · rename_i req0 hreq
    simp only [NewRequest_header hreq]
    split
    · simp only [sent, List.mem_singleton]; rintro rfl; exact Get_Authorization _ _
    · split <;>
      · simp only [sent, List.mem_singleton]; rintro rfl; exact Get_Authorization _ _

theorem DeleteScan_authorized (env : Env) (c : apiClient) (hash : Bytes) (t : List Event) :
    Authorized (DeleteScan env c hash t).2 c.apiToken := by
  unfold Authorized DeleteScan
  intro req
  dsimp only
  split
  · simp [sent]
  · rename_i req0 hreq
    simp only [NewRequest_header hreq]
    split
    · simp only [sent, List.mem_singleton]; rintro rfl; exact Get_Authorization _ _
    · split
      · simp only [sent, List.mem_singleton]; rintro rfl; exact Get_Authorization _ _
      · split
        · simp only [sent, List.mem_singleton]; rintro rfl; exact Get_Authorization _ _
        · split <;>
          · simp only [sent, List.mem_singleton]; rintro rfl; exact Get_Authorization _ _

/-- C3. Every request any of the six operations sends for a client built by
`NewClient(baseURL, token)` carries the token, byte for byte, as the value of its
`Authorization` header. -/
theorem C3_authorization_is_token (env : Env) (baseURL token arg : Bytes) (t : List Event) :
    Authorized (UploadApp env (NewClient baseURL token) arg t).2 token
    ∧ Authorized (TriggerScan env (NewClient baseURL token) arg t).2 token
    ∧ Authorized (GetScanLogs env (NewClient baseURL token) arg t).2 token
    ∧ Authorized (GetJsonReport env (NewClient baseURL token) arg t).2 token
    ∧ Authorized (GetPdfReport env (NewClient baseURL token) arg t).2 token
    ∧ Authorized (DeleteScan env (NewClient baseURL token) arg t).2 token :=
  ⟨UploadApp_authorized env _ arg t, TriggerScan_authorized env _ arg t,
    GetScanLogs_authorized env _ arg t, getReport_authorized env _ arg _ t,
    getReport_authorized env _ arg _ t, DeleteScan_authorized env _ arg t⟩

theorem TriggerScan_ok (env : Env) (c : apiClient) (hash : Bytes) (t : List Event)
    (resp : Response) (R : Bytes) (h200 : resp.StatusCode = 200) (hR : resp.Body = ⟨R, none⟩)
    (hurl : Accepts env (c.baseURL ++ ascii "/api/v1/scan")) :
    (TriggerScan (env.answer resp) c hash t).1 = (some R, none) := by
  rw [TriggerScan_accepted (env.answer resp) c hash t hurl]
  simp [Env.answer, StatusOK, h200, ReadAll, hR]

theorem getReport_ok (env : Env) (c : apiClient) (hash endpoint : Bytes) (t : List Event)
    (resp : Response) (R : Bytes) (h200 : resp.StatusCode = 200) (hR : resp.Body = ⟨R, none⟩)
    (hurl : Accepts env (c.baseURL ++ endpoint)) :
    (getReport (env.answer resp) c hash endpoint t).1 = (some R, none) := by
  rw [getReport_accepted (env.answer resp) c hash endpoint t hurl]
  simp [Env.answer, StatusOK, h200, ReadAll, hR]

/-- C9. On a response with status code 200 whose body reads as the bytes `R`,
`TriggerScan`, `GetJsonReport` and `GetPdfReport`, their URLs accepted, return
`R` itself and no error; and the two report operations are one helper,
`getReport`, called with the two endpoint paths. -/
theorem C9_raw_body_returned (env : Env) (c : apiClient) (hash : Bytes) (t : List Event)
    (resp : Response) (R : Bytes) (h200 : resp.StatusCode = 200) (hR : resp.Body = ⟨R, none⟩)
    (hurl : ∀ path ∈ formEndpoints, Accepts env (c.baseURL ++ path)) :
    (TriggerScan (env.answer resp) c hash t).1 = (some R, none)
    ∧ (GetJsonReport (env.answer resp) c hash t).1 = (some R, none)
    ∧ (GetPdfReport (env.answer resp) c hash t).1 = (some R, none)
    ∧ (∀ world : Env,
        GetJsonReport world c hash t = getReport world c hash (ascii "/api/v1/report_json") t
        ∧ GetPdfReport world c hash t = getReport world c hash (ascii "/api/v1/download_pdf") t) :=
  ⟨TriggerScan_ok env c hash t resp R h200 hR (hurl _ (by simp [formEndpoints])),
    getReport_ok env c hash _ t resp R h200 hR (hurl _ (by simp [formEndpoints])),
    getReport_ok env c hash _ t resp R h200 hR (hurl _ (by simp [formEndpoints])),
    fun _ => ⟨rfl, rfl⟩⟩

/-- C9 at a body that is not JSON and not text, and at the empty body: the bytes
come back as they are from each of the three operations. -/
theorem C9_witness :
    ((200 : Int) = 200
      ∧ (∀ path ∈ formEndpoints,
          Accepts (exampleEnv ⟨[], 0, ⟨[], none⟩⟩) (exampleClient.baseURL ++ path)))
    ∧ ((TriggerScan ((exampleEnv ⟨[], 0, ⟨[], none⟩⟩).answer
            ⟨ascii "200 OK", 200, ⟨[37, 80, 68, 70, 0, 255, 34, 123], none⟩⟩)
          exampleClient (ascii "deadbeef") []).1
        = (some [37, 80, 68, 70, 0, 255, 34, 123], none)
      ∧ (GetJsonReport ((exampleEnv ⟨[], 0, ⟨[], none⟩⟩).answer
            ⟨ascii "200 OK", 200, ⟨[37, 80, 68, 70, 0, 255, 34, 123], none⟩⟩)
          exampleClient (ascii "deadbeef") []).1
        = (some [37, 80, 68, 70, 0, 255, 34, 123], none)
      ∧ (GetPdfReport ((exampleEnv ⟨[], 0, ⟨[], none⟩⟩).answer
            ⟨ascii "200 OK", 200, ⟨[37, 80, 68, 70, 0, 255, 34, 123], none⟩⟩)
          exampleClient (ascii "deadbeef") []).1
        = (some [37, 80, 68, 70, 0, 255, 34, 123], none))
    ∧ (TriggerScan (exampleEnv ⟨ascii "200 OK", 200, ⟨[], none⟩⟩) exampleClient
          (ascii "deadbeef") []).1 = (some [], none) :=
  ⟨⟨rfl, by decide⟩,
    ⟨(C9_raw_body_returned (exampleEnv ⟨[], 0, ⟨[], none⟩⟩) exampleClient (ascii "deadbeef") []
        ⟨ascii "200 OK", 200, ⟨[37, 80, 68, 70, 0, 255, 34, 123], none⟩⟩
        [37, 80, 68, 70, 0, 255, 34, 123] rfl rfl (by decide)).1,
      (C9_raw_body_returned (exampleEnv ⟨[], 0, ⟨[], none⟩⟩) exampleClient (ascii "deadbeef") []
        ⟨ascii "200 OK", 200, ⟨[37, 80, 68, 70, 0, 255, 34, 123], none⟩⟩
        [37, 80, 68, 70, 0, 255, 34, 123] rfl rfl (by decide)).2.1,
      (C9_raw_body_returned (exampleEnv ⟨[], 0, ⟨[], none⟩⟩) exampleClient (ascii "deadbeef") []
        ⟨ascii "200 OK", 200, ⟨[37, 80, 68, 70, 0, 255, 34, 123], none⟩⟩
        [37, 80, 68, 70, 0, 255, 34, 123] rfl rfl (by decide)).2.2.1⟩,
    by decide⟩

/-! ## Reading JSON -/

theorem skipSpace_cons {c : Nat} (h : isSpace c = false) (s : Bytes) :
    skipSpace (c :: s) = c :: s := by
  simp [skipSpace, h]

theorem parseStringAux_plain (key : Bytes) (hkey : Plain key) :
    ∀ (n : Nat) (acc rest : Bytes), key.length < n →
      parseStringAux n (key ++ 34 :: rest) acc = .ok (acc ++ key, rest) := by
  induction key with
  | nil =>
    intro n acc rest hn
    obtain ⟨m, rfl⟩ : ∃ m, n = m + 1 := ⟨n - 1, by simp at hn; omega⟩
    simp [parseStringAux]
  | cons b key ih =>
    intro n acc rest hn
    obtain ⟨m, rfl⟩ : ∃ m, n = m + 1 := ⟨n - 1, by simp at hn; omega⟩
    have hb := hkey b (List.mem_cons_self _ _)
    have hk : Plain key := fun x hx => hkey x (List.mem_cons_of_mem _ hx)
    have h1 : b ≠ 34 := hb.2.2.1
    have h2 : b ≠ 92 := hb.2.2.2
    have h3 : ¬ b < 32 := by omega
    have h4 : b < 128 := hb.2.1
    have hm : key.length < m := by simp at hn; omega
    simp [parseStringAux, h1, h2, h3, h4, ih hk m (acc ++ [b]) rest hm]

theorem Denotes_plain (key : Bytes) (hkey : Plain key) : Denotes (34 :: (key ++ [34])) key := by
  refine ⟨key ++ [34], rfl, fun rest => ?_⟩
  unfold parseString
  have := parseStringAux_plain key hkey ((key ++ [34] ++ rest).length + 1) [] rest
    (by simp; omega)
  simpa using this

theorem parseValue_string {lit s : Bytes} (h : Denotes lit s) (n d : Nat) (rest : Bytes) :
    parseValue (n + 1) d (lit ++ rest) = .ok (.string s, rest) := by
  obtain ⟨l, rfl, hl⟩ := h
  simp [parseValue, skipSpace, isSpace, hl rest]

theorem parseValue_null (n d : Nat) (rest : Bytes) :
    parseValue (n + 1) d (110 :: 117 :: 108 :: 108 :: rest) = .ok (.null, rest) := by
  simp [parseValue, skipSpace, isSpace, expect]

theorem parseMembers_step {n d : Nat} {klit key vtext : Bytes} {v : JSON} (hk : Denotes klit key)
    {c : Nat} {more : Bytes} (acc : List (Bytes × JSON))
    (hv : parseValue n d (vtext ++ c :: more) = .ok (v, c :: more)) (hc : c = 44 ∨ c = 125) :
    parseMembers (n + 1) d (klit ++ 58 :: (vtext ++ c :: more)) acc =
      if c = 44 then parseMembers n d more (acc ++ [(key, v)])
      else .ok (.object (acc ++ [(key, v)]), more) := by
  obtain ⟨l, rfl, hl⟩ := hk
  have hsp : isSpace c = false := by rcases hc with rfl | rfl <;> decide
  rcases hc with rfl | rfl
  · simp [parseMembers, skipSpace, isSpace, hl, hv]
  · simp [parseMembers, skipSpace, isSpace, hl, hv]

theorem parseMembers_comma {n d : Nat} {klit key vtext : Bytes} {v : JSON} (hk : Denotes klit key)
    {more : Bytes} (acc : List (Bytes × JSON))
    (hv : parseValue n d (vtext ++ 44 :: more) = .ok (v, 44 :: more)) :
    parseMembers (n + 1) d (klit ++ 58 :: (vtext ++ 44 :: more)) acc
      = parseMembers n d more (acc ++ [(key, v)]) := by
  rw [parseMembers_step hk acc hv (Or.inl rfl)]
  simp

theorem parseMembers_close {n d : Nat} {klit key vtext : Bytes} {v : JSON} (hk : Denotes klit key)
    {more : Bytes} (acc : List (Bytes × JSON))
    (hv : parseValue n d (vtext ++ 125 :: more) = .ok (v, 125 :: more)) :
    parseMembers (n + 1) d (klit ++ 58 :: (vtext ++ 125 :: more)) acc
      = .ok (.object (acc ++ [(key, v)]), more) := by
  rw [parseMembers_step hk acc hv (Or.inr rfl)]
  simp

theorem parseValue_object {n d : Nat} (hd : d < maxNestingDepth) {c : Nat} (s : Bytes)
    (h34 : c = 34) :
    parseValue (n + 1) d (123 :: c :: s) = parseMembers n (d + 1) (c :: s) [] := by
  subst h34
  have : ¬ d ≥ maxNestingDepth := by omega
  simp [parseValue, skipSpace, isSpace, this]

theorem findField_exact {φ : Type} (fields : List (Bytes × φ)) (key : Bytes) (f : Bytes × φ)
    (h : fields.find? (fun x => x.1 = key) = some f) : findField fields key = some f.2 := by
  simp [findField, h]

theorem Unmarshal_delete {lit s : Bytes} (h : Denotes lit s) (cur : DeleteResult) :
    Unmarshal storeDeleteResult (deletedBody lit) cur = (⟨s⟩, none) := by
  unfold deletedBody
  have hk : Denotes (34 :: (ascii "deleted" ++ [34])) (ascii "deleted") :=
    Denotes_plain _ (by decide)
  have e1 : ascii "\x7b\"deleted\":" ++ lit ++ ascii "\x7d"
      = 123 :: ((34 :: (ascii "deleted" ++ [34])) ++ 58 :: (lit ++ 125 :: [])) := by
    have : ascii "\x7b\"deleted\":" = 123 :: ((34 :: (ascii "deleted" ++ [34])) ++ [58]) := by
      decide
    rw [this]
    have : ascii "\x7d" = [125] := by decide
    rw [this]
    simp
  obtain ⟨k, hk3⟩ : ∃ k, 2 * (ascii "\x7b\"deleted\":" ++ lit ++ ascii "\x7d").length + 1 = k + 3 :=
    ⟨2 * (ascii "\x7b\"deleted\":" ++ lit ++ ascii "\x7d").length - 2, by
      have : (ascii "\x7b\"deleted\":").length = 11 := by decide
      simp [this]
      omega⟩
  have hp : parse (ascii "\x7b\"deleted\":" ++ lit ++ ascii "\x7d")
      = .ok (.object [(ascii "deleted", .string s)]) := by
    unfold parse
    rw [hk3, e1]
    rw [List.cons_append (34 : Nat)]
    rw [parseValue_object (by decide) _ rfl]
    rw [← List.cons_append (34 : Nat)]
    rw [parseMembers_step hk [] (parseValue_string h k 1 _) (Or.inr rfl)]
    simp [skipSpace]
  unfold Unmarshal
  rw [hp]
  have hf : findField deleteResultFields (ascii "deleted") = some () := by decide
  simp [storeDeleteResult, storeMembers, storeStep, hf, storeString, saveError]

/-! ## The step bounds of the JSON reader are never reached -/

theorem errEOF_ne_errSteps : errEOF ≠ errSteps := by decide

theorem errChar_ne_errSteps : errChar ≠ errSteps := by decide

theorem error_ne_steps {α : Type} {e : error} (h : e ≠ errSteps) :
    (Except.error e : Except error α) ≠ .error errSteps := by
  intro hc
  injection hc with hc
  exact h hc

theorem parseStringAux_steps :
    ∀ (n : Nat) (s acc : Bytes), s.length < n → parseStringAux n s acc ≠ .error errSteps := by
  intro n
  induction n with
  | zero => intro s acc h; omega
  | succ n ih =>
    intro s acc h
    cases s with
    | nil =>
      simp only [parseStringAux]
      exact error_ne_steps errEOF_ne_errSteps
    | cons c rest =>
      have hr : rest.length < n := by simp at h; omega
      unfold parseStringAux
      by_cases h34 : c = 34
      · rw [if_pos h34]; intro hc; cases hc
      rw [if_neg h34]
      by_cases h92 : c = 92
      · rw [if_pos h92]
        cases rest with
        | nil => exact error_ne_steps errEOF_ne_errSteps
        | cons e rest1 =>
          have hr1 : rest1.length < n := by simp at hr; omega
          have hd : ∀ k, (rest1.drop k).length < n := by
            intro k; simp only [List.length_drop]; omega
          dsimp only
          by_cases h1 : e = 34 ∨ e = 92 ∨ e = 47
          · rw [if_pos h1]; exact ih _ _ hr1
          rw [if_neg h1]
          by_cases h2 : e = 98
          · rw [if_pos h2]; exact ih _ _ hr1
          rw [if_neg h2]
          by_cases h3 : e = 102
          · rw [if_pos h3]; exact ih _ _ hr1
          rw [if_neg h3]
          by_cases h4 : e = 110
          · rw [if_pos h4]; exact ih _ _ hr1
          rw [if_neg h4]
          by_cases h5 : e = 114
          · rw [if_pos h5]; exact ih _ _ hr1
          rw [if_neg h5]
          by_cases h6 : e = 116
          · rw [if_pos h6]; exact ih _ _ hr1
          rw [if_neg h6]
          by_cases h7 : e = 117
          · rw [if_pos h7]
            cases getu4 (c :: e :: rest1) with
            | none => exact error_ne_steps errChar_ne_errSteps
            | some rr =>
              dsimp only
              by_cases hs : IsSurrogate rr = true
              · rw [if_pos hs]
                by_cases hp : utf16DecodeRune rr (getu4 (List.drop 4 rest1)) ≠ RuneError
                · rw [if_pos hp]; exact ih _ _ (hd _)
                · rw [if_neg hp]; exact ih _ _ (hd _)
              · rw [if_neg hs]; exact ih _ _ (hd _)
          · rw [if_neg h7]; exact error_ne_steps errChar_ne_errSteps
      rw [if_neg h92]
      by_cases hlo : c < 32
      · rw [if_pos hlo]; exact error_ne_steps errChar_ne_errSteps
      rw [if_neg hlo]
      by_cases hasc : c < 128
      · rw [if_pos hasc]; exact ih _ _ hr
      · rw [if_neg hasc]
        exact ih _ _ (by simp only [List.length_drop]; omega)

theorem parseStringAux_shorter :
    ∀ (n : Nat) (s acc : Bytes) (r : Bytes × Bytes),
      parseStringAux n s acc = .ok r → r.2.length < s.length := by
  intro n
  induction n with
  | zero => intro s acc r h; simp [parseStringAux] at h
  | succ n ih =>
    intro s acc r
    cases s with
    | nil => intro h; simp [parseStringAux] at h
    | cons c rest =>
      have hd : ∀ (k : Nat) (l : Bytes), (l.drop k).length ≤ l.length := by
        intro k l; simp only [List.length_drop]; omega
      have step : ∀ (x a : Bytes), x.length ≤ rest.length →
          parseStringAux n x a = .ok r → r.2.length < (c :: rest).length := by
        intro x a hx h
        have := ih x a r h
        simp only [List.length_cons]
        omega
      unfold parseStringAux
      by_cases h34 : c = 34
      · rw [if_pos h34]; intro hc; cases hc; simp
      rw [if_neg h34]
      by_cases h92 : c = 92
      · rw [if_pos h92]
        cases rest with
        | nil => intro hc; cases hc
        | cons e rest1 =>
          have hr1 : rest1.length ≤ (e :: rest1).length := by simp
          have hd1 : ∀ k, (rest1.drop k).length ≤ (e :: rest1).length := by
            intro k; have := hd k rest1; simp only [List.length_cons]; omega
          dsimp only
          by_cases h1 : e = 34 ∨ e = 92 ∨ e = 47
          · rw [if_pos h1]; exact step _ _ hr1
          rw [if_neg h1]
          by_cases h2 : e = 98
          · rw [if_pos h2]; exact step _ _ hr1
          rw [if_neg h2]
          by_cases h3 : e = 102
          · rw [if_pos h3]; exact step _ _ hr1
          rw [if_neg h3]
          by_cases h4 : e = 110
          · rw [if_pos h4]; exact step _ _ hr1
          rw [if_neg h4]
          by_cases h5 : e = 114
          · rw [if_pos h5]; exact step _ _ hr1
          rw [if_neg h5]
          by_cases h6 : e = 116
          · rw [if_pos h6]; exact step _ _ hr1
          rw [if_neg h6]
          by_cases h7 : e = 117
          · rw [if_pos h7]
            cases getu4 (c :: e :: rest1) with
            | none => intro hc; cases hc
            | some rr =>
              dsimp only
              by_cases hs : IsSurrogate rr = true
              · rw [if_pos hs]
                by_cases hp : utf16DecodeRune rr (getu4 (List.drop 4 rest1)) ≠ RuneError
                · rw [if_pos hp]; exact step _ _ (hd1 _)
                · rw [if_neg hp]; exact step _ _ (hd1 _)
              · rw [if_neg hs]; exact step _ _ (hd1 _)
          · rw [if_neg h7]; intro hc; cases hc
      rw [if_neg h92]
      by_cases hlo : c < 32
      · rw [if_pos hlo]; intro hc; cases hc
      rw [if_neg hlo]
      by_cases hasc : c < 128
      · rw [if_pos hasc]; exact step _ _ (le_refl _)
      · rw [if_neg hasc]; exact step _ _ (hd _ _)

theorem parseString_steps (s : Bytes) : parseString s ≠ .error errSteps :=
  parseStringAux_steps _ s [] (Nat.lt_succ_self _)

theorem parseString_shorter {s : Bytes} {r : Bytes × Bytes} (h : parseString s = .ok r) :
    r.2.length < s.length :=
  parseStringAux_shorter _ s [] r h

theorem skipSpace_length : ∀ s : Bytes, (skipSpace s).length ≤ s.length
  | [] => by simp [skipSpace]
  | c :: rest => by
    unfold skipSpace
    have := skipSpace_length rest
    split
    · simp only [List.length_cons]; omega
    · exact le_refl _

theorem takeDigits_length : ∀ s : Bytes, (takeDigits s).2.length ≤ s.length
  | [] => by simp [takeDigits]
  | c :: rest => by
    unfold takeDigits
    have := takeDigits_length rest
    split
    · simp only [List.length_cons]; omega
    · exact le_refl _

theorem expect_length : ∀ (lit s r : Bytes), expect lit s = some r → r.length ≤ s.length
  | [], s, r, h => by simp [expect] at h; subst h; exact le_refl _
  | _ :: _, [], r, h => by simp [expect] at h
  | l :: lit, c :: s, r, h => by
    unfold expect at h
    split at h
    · have := expect_length lit s r h
      simp only [List.length_cons]; omega
    · cases h

theorem parseExp_steps (lit s : Bytes) : parseExp lit s ≠ .error errSteps := by
  intro h
  unfold parseExp at h
  repeat' split at h
  all_goals cases h

theorem parseExp_length {lit s : Bytes} {r : Bytes × Bytes} (h : parseExp lit s = .ok r) :
    r.2.length ≤ s.length := by
  unfold parseExp at h
  cases s with
  | nil => cases h; exact le_refl _
  | cons c rest =>
    dsimp only at h
    split at h
    · cases rest with
      | nil => cases h
      | cons sg rest1 =>
        have h1 := takeDigits_length rest1
        have h2 := takeDigits_length (sg :: rest1)
        dsimp only at h
        repeat' split at h
        all_goals first
          | (cases h; simp only [List.length_cons] at h2 ⊢; omega)
          | cases h
    · cases h; exact le_refl _

theorem parseFrac_steps (lit s : Bytes) : parseFrac lit s ≠ .error errSteps := by
  intro h
  unfold parseFrac at h
  repeat' split at h
  all_goals first
    | exact parseExp_steps _ _ h
    | cases h

theorem parseFrac_length {lit s : Bytes} {r : Bytes × Bytes} (h : parseFrac lit s = .ok r) :
    r.2.length ≤ s.length := by
  unfold parseFrac at h
  cases s with
  | nil => cases h; exact le_refl _
  | cons c rest =>
    have h1 := takeDigits_length rest
    dsimp only at h
    repeat' split at h
    · cases h
    · have := parseExp_length h
      simp only [List.length_cons]; omega
    · exact parseExp_length h

theorem parseNumber_steps (s : Bytes) : parseNumber s ≠ .error errSteps := by
  intro h
  unfold parseNumber at h
  repeat' split at h
  all_goals first
    | exact parseFrac_steps _ _ h
    | cases h

theorem parseNumber_shorter {s : Bytes} {r : Bytes × Bytes} (h : parseNumber s = .ok r) :
    r.2.length < s.length := by
  unfold parseNumber at h
  cases s with
  | nil => cases h
  | cons c rest =>
    have h1 := takeDigits_length rest
    dsimp only at h
    split at h
    · cases rest with
      | nil => cases h
      | cons d rest1 =>
        have h2 := takeDigits_length rest1
        dsimp only at h
        repeat' split at h
        · have := parseFrac_length h
          simp only [List.length_cons]; omega
        · have := parseFrac_length h
          simp only [List.length_cons]; omega
        · cases h
    · repeat' split at h
      · have := parseFrac_length h
        simp only [List.length_cons]; omega
      · have := parseFrac_length h
        simp only [List.length_cons]; omega
      · cases h

theorem errDepth_ne_errSteps : ascii "exceeded max depth" ≠ errSteps := by decide

theorem skipSpace_cons_length {s rest : Bytes} {c : Nat} (h : skipSpace s = c :: rest) :
    rest.length + 1 ≤ s.length := by
  have := skipSpace_length s
  rw [h] at this
  simpa using this

theorem parseValue_succ_sound (n : Nat)
    (ihE : ∀ (d : Nat) (s : Bytes) (acc : List JSON),
      (2 * s.length + 1 < n → parseElements n d s acc ≠ .error errSteps) ∧
      ∀ r, parseElements n d s acc = .ok r → r.2.length < s.length)
    (ihM : ∀ (d : Nat) (s : Bytes) (acc : List (Bytes × JSON)),
      (2 * s.length + 1 < n → parseMembers n d s acc ≠ .error errSteps) ∧
      ∀ r, parseMembers n d s acc = .ok r → r.2.length < s.length)
    (d : Nat) (s : Bytes) :
    (2 * s.length < n + 1 → parseValue (n + 1) d s ≠ .error errSteps) ∧
    ∀ r, parseValue (n + 1) d s = .ok r → r.2.length < s.length := by
  unfold parseValue
  cases hsk : skipSpace s with
  | nil =>
    dsimp only
    exact ⟨fun _ => error_ne_steps errEOF_ne_errSteps, fun r h => by cases h⟩
  | cons c rest =>
    have hrest := skipSpace_cons_length hsk
    dsimp only
    by_cases hobj : c = 123
    · rw [if_pos hobj]
      by_cases hdep : d ≥ maxNestingDepth
      · rw [if_pos hdep]
        exact ⟨fun _ => error_ne_steps errDepth_ne_errSteps, fun r h => by cases h⟩
      rw [if_neg hdep]
      cases hsk1 : skipSpace rest with
      | nil =>
        dsimp only
        exact ⟨fun _ => error_ne_steps errEOF_ne_errSteps, fun r h => by cases h⟩
      | cons c1 rest1 =>
        have hrest1 := skipSpace_cons_length hsk1
        dsimp only
        by_cases hcl : c1 = 125
        · rw [if_pos hcl]
          exact ⟨fun _ h => (by cases h), fun r h => by cases h; simp only; omega⟩
        rw [if_neg hcl]
        have hM := ihM (d + 1) (c1 :: rest1) []
        simp only [List.length_cons] at hM
        exact ⟨fun hn => hM.1 (by omega), fun r h => by have := hM.2 r h; omega⟩
    rw [if_neg hobj]
    by_cases harr : c = 91
    · rw [if_pos harr]
      by_cases hdep : d ≥ maxNestingDepth
      · rw [if_pos hdep]
        exact ⟨fun _ => error_ne_steps errDepth_ne_errSteps, fun r h => by cases h⟩
      rw [if_neg hdep]
      cases hsk1 : skipSpace rest with
      | nil =>
        dsimp only
        exact ⟨fun _ => error_ne_steps errEOF_ne_errSteps, fun r h => by cases h⟩
      | cons c1 rest1 =>
        have hrest1 := skipSpace_cons_length hsk1
        dsimp only
        by_cases hcl : c1 = 93
        · rw [if_pos hcl]
          exact ⟨fun _ h => (by cases h), fun r h => by cases h; simp only; omega⟩
        rw [if_neg hcl]
        have hE := ihE (d + 1) (c1 :: rest1) []
        simp only [List.length_cons] at hE
        exact ⟨fun hn => hE.1 (by omega), fun r h => by have := hE.2 r h; omega⟩
    rw [if_neg harr]
    by_cases hstr : c = 34
    · rw [if_pos hstr]
      cases hps : parseString rest with
      | error e =>
        dsimp only
        refine ⟨fun _ h => ?_, fun r h => by cases h⟩
        injection h with h
        rw [h] at hps
        exact parseString_steps rest hps
      | ok k =>
        have := parseString_shorter hps
        dsimp only
        exact ⟨fun _ h => (by cases h), fun r h => by cases h; simp only; omega⟩
    rw [if_neg hstr]
    by_cases ht : c = 116
    · rw [if_pos ht]
      cases hex : expect [114, 117, 101] rest with
      | none =>
        dsimp only
        exact ⟨fun _ => error_ne_steps errChar_ne_errSteps, fun r h => by cases h⟩
      | some k =>
        have := expect_length _ _ _ hex
        dsimp only
        exact ⟨fun _ h => (by cases h), fun r h => by cases h; simp only; omega⟩
    rw [if_neg ht]
    by_cases hf : c = 102
    · rw [if_pos hf]
      cases hex : expect [97, 108, 115, 101] rest with
      | none =>
        dsimp only
        exact ⟨fun _ => error_ne_steps errChar_ne_errSteps, fun r h => by cases h⟩
      | some k =>
        have := expect_length _ _ _ hex
        dsimp only
        exact ⟨fun _ h => (by cases h), fun r h => by cases h; simp only; omega⟩
    rw [if_neg hf]
    by_cases hn : c = 110
    · rw [if_pos hn]
      cases hex : expect [117, 108, 108] rest with
      | none =>
        dsimp only
        exact ⟨fun _ => error_ne_steps errChar_ne_errSteps, fun r h => by cases h⟩
      | some k =>
        have := expect_length _ _ _ hex
        dsimp only
        exact ⟨fun _ h => (by cases h), fun r h => by cases h; simp only; omega⟩
    rw [if_neg hn]
    by_cases hnum : c = 45 ∨ isDigit c = true
    · rw [if_pos hnum]
      cases hpn : parseNumber (c :: rest) with
      | error e =>
        dsimp only
        refine ⟨fun _ h => ?_, fun r h => by cases h⟩
        injection h with h
        rw [h] at hpn
        exact parseNumber_steps _ hpn
      | ok k =>
        have := parseNumber_shorter hpn
        simp only [List.length_cons] at this
        dsimp only
        exact ⟨fun _ h => (by cases h), fun r h => by cases h; simp only; omega⟩
    · rw [if_neg hnum]
      exact ⟨fun _ => error_ne_steps errChar_ne_errSteps, fun r h => by cases h⟩

theorem parseElements_succ_sound (n : Nat)
    (ihV : ∀ (d : Nat) (s : Bytes),
      (2 * s.length < n → parseValue n d s ≠ .error errSteps) ∧
      ∀ r, parseValue n d s = .ok r → r.2.length < s.length)
    (ihE : ∀ (d : Nat) (s : Bytes) (acc : List JSON),
      (2 * s.length + 1 < n → parseElements n d s acc ≠ .error errSteps) ∧
      ∀ r, parseElements n d s acc = .ok r → r.2.length < s.length)
    (d : Nat) (s : Bytes) (acc : List JSON) :
    (2 * s.length + 1 < n + 1 → parseElements (n + 1) d s acc ≠ .error errSteps) ∧
    ∀ r, parseElements (n + 1) d s acc = .ok r → r.2.length < s.length := by
  unfold parseElements
  have hV := ihV d s
  cases hv : parseValue n d s with
  | error e =>
    dsimp only
    refine ⟨fun hn h => ?_, fun r h => by cases h⟩
    injection h with h
    rw [h] at hv
    exact hV.1 (by omega) hv
  | ok v =>
    have hlen := hV.2 v hv
    dsimp only
    cases hsk : skipSpace v.2 with
    | nil =>
      dsimp only
      exact ⟨fun _ => error_ne_steps errEOF_ne_errSteps, fun r h => by cases h⟩
    | cons c rest =>
      have hrest := skipSpace_cons_length hsk
      dsimp only
      by_cases hcomma : c = 44
      · rw [if_pos hcomma]
        have hE := ihE d rest (acc ++ [v.1])
        exact ⟨fun hn => hE.1 (by omega), fun r h => by have := hE.2 r h; omega⟩
      rw [if_neg hcomma]
      by_cases hcl : c = 93
      · rw [if_pos hcl]
        exact ⟨fun _ h => (by cases h), fun r h => by cases h; simp only; omega⟩
      · rw [if_neg hcl]
        exact ⟨fun _ => error_ne_steps errChar_ne_errSteps, fun r h => by cases h⟩

theorem parseMembers_succ_sound (n : Nat)
    (ihV : ∀ (d : Nat) (s : Bytes),
      (2 * s.length < n → parseValue n d s ≠ .error errSteps) ∧
      ∀ r, parseValue n d s = .ok r → r.2.length < s.length)
    (ihM : ∀ (d : Nat) (s : Bytes) (acc : List (Bytes × JSON)),
      (2 * s.length + 1 < n → parseMembers n d s acc ≠ .error errSteps) ∧
      ∀ r, parseMembers n d s acc = .ok r → r.2.length < s.length)
    (d : Nat) (s : Bytes) (acc : List (Bytes × JSON)) :
    (2 * s.length + 1 < n + 1 → parseMembers (n + 1) d s acc ≠ .error errSteps) ∧
    ∀ r, parseMembers (n + 1) d s acc = .ok r → r.2.length < s.length := by
  unfold parseMembers
  cases hsk : skipSpace s with
  | nil =>
    dsimp only
    exact ⟨fun _ => error_ne_steps errEOF_ne_errSteps, fun r h => by cases h⟩
  | cons c rest =>
    have hrest := skipSpace_cons_length hsk
    dsimp only
    by_cases hq : c ≠ 34
    · rw [if_pos hq]
      exact ⟨fun _ => error_ne_steps errChar_ne_errSteps, fun r h => by cases h⟩
    rw [if_neg hq]
    cases hps : parseString rest with
    | error e =>
      dsimp only
      refine ⟨fun _ h => ?_, fun r h => by cases h⟩
      injection h with h
      rw [h] at hps
      exact parseString_steps rest hps
    | ok k =>
      have hk := parseString_shorter hps
      dsimp only
      cases hsk1 : skipSpace k.2 with
      | nil =>
        dsimp only
        exact ⟨fun _ => error_ne_steps errEOF_ne_errSteps, fun r h => by cases h⟩
      | cons c1 rest1 =>
        have hrest1 := skipSpace_cons_length hsk1
        dsimp only
        by_cases hcolon : c1 ≠ 58
        · rw [if_pos hcolon]
          exact ⟨fun _ => error_ne_steps errChar_ne_errSteps, fun r h => by cases h⟩
        rw [if_neg hcolon]
        have hV := ihV d rest1
        cases hv : parseValue n d rest1 with
        | error e =>
          dsimp only
          refine ⟨fun hn h => ?_, fun r h => by cases h⟩
          injection h with h
          rw [h] at hv
          exact hV.1 (by omega) hv
        | ok v =>
          have hlen := hV.2 v hv
          dsimp only
          cases hsk2 : skipSpace v.2 with
          | nil =>
            dsimp only
            exact ⟨fun _ => error_ne_steps errEOF_ne_errSteps, fun r h => by cases h⟩
          | cons c2 rest2 =>
            have hrest2 := skipSpace_cons_length hsk2
            dsimp only
            by_cases hcomma : c2 = 44
            · rw [if_pos hcomma]
              have hM := ihM d rest2 (acc ++ [(k.1, v.1)])
              exact ⟨fun hn => hM.1 (by omega), fun r h => by have := hM.2 r h; omega⟩
            rw [if_neg hcomma]
            by_cases hcl : c2 = 125
            · rw [if_pos hcl]
              exact ⟨fun _ h => (by cases h), fun r h => by cases h; simp only; omega⟩
            · rw [if_neg hcl]
              exact ⟨fun _ => error_ne_steps errChar_ne_errSteps, fun r h => by cases h⟩

/-- With more steps than twice the length of the input the reader of values
never reports its step bound, and a value read leaves less input than there
was; the readers of elements and of members need one step more. -/
theorem reader_sound : ∀ n : Nat,
    (∀ (d : Nat) (s : Bytes),
      (2 * s.length < n → parseValue n d s ≠ .error errSteps) ∧
      ∀ r, parseValue n d s = .ok r → r.2.length < s.length) ∧
    (∀ (d : Nat) (s : Bytes) (acc : List JSON),
      (2 * s.length + 1 < n → parseElements n d s acc ≠ .error errSteps) ∧
      ∀ r, parseElements n d s acc = .ok r → r.2.length < s.length) ∧
    (∀ (d : Nat) (s : Bytes) (acc : List (Bytes × JSON)),
      (2 * s.length + 1 < n → parseMembers n d s acc ≠ .error errSteps) ∧
      ∀ r, parseMembers n d s acc = .ok r → r.2.length < s.length) := by
  intro n
  induction n with
  | zero =>
    refine ⟨fun d s => ⟨fun h => by omega, fun r h => ?_⟩,
      fun d s acc => ⟨fun h => by omega, fun r h => ?_⟩,
      fun d s acc => ⟨fun h => by omega, fun r h => ?_⟩⟩
    · simp [parseValue] at h
    · simp [parseElements] at h
    · simp [parseMembers] at h
  | succ n ih =>
    exact ⟨parseValue_succ_sound n ih.2.1 ih.2.2,
      parseElements_succ_sound n ih.1 ih.2.1,
      parseMembers_succ_sound n ih.1 ih.2.2⟩

/-- The reader of `Unmarshal` never reports its step bound: on every input it
yields a value or one of the decoder's syntax errors. -/
theorem parse_total (data : Bytes) : parse data ≠ .error errSteps := by
  unfold parse
  have hV := (reader_sound (2 * data.length + 1)).1 0 data
  cases hv : parseValue (2 * data.length + 1) 0 data with
  | error e =>
    dsimp only
    intro h
    injection h with h
    rw [h] at hv
    exact hV.1 (by omega) hv
  | ok v =>
    dsimp only
    split
    · intro h; cases h
    · exact error_ne_steps errChar_ne_errSteps

/-! ## Decoding failures and repeated calls -/

theorem DeleteScan_local (c : apiClient) (h : Bytes) (env1 env2 : Env) (t1 t2 : List Event)
    (hp : env1.ParseURL = env2.ParseURL) (hd : ∀ req, env1.Do t1 req = env2.Do t2 req) :
    DeleteScan env1 c h t1 = DeleteScan env2 c h t2 := by
  unfold DeleteScan NewRequest
  simp only [hp, hd]

theorem DeleteScan_ok (env : Env) (c : apiClient) (h lit status : Bytes) (t : List Event)
    (hurl : Accepts env (c.baseURL ++ ascii "/api/v1/delete_scan")) (hlit : Denotes lit h) :
    (DeleteScan (env.answer (okResponse status (deletedBody lit))) c h t).1 = (some ⟨h⟩, none)
    ∧ (sent (DeleteScan (env.answer (okResponse status (deletedBody lit))) c h t).2).length = 1 := by
  unfold DeleteScan
  simp only [NewRequest_answer, NewRequest_of_accepts hurl]
  simp [Env.answer, okResponse, StatusOK, ReadAll, Unmarshal_delete hlit, sent]

theorem sent_append (a b : List Event) : sent (a ++ b) = sent a ++ sent b := by
  induction a with
  | nil => rfl
  | cons e a ih => cases e <;> simp [sent, ih]

/-- C10. Against a server that answers 200 with the object whose member
`deleted` is a string literal denoting the hash `h`, two calls of `DeleteScan(h)`
on the same client both return the `DeleteResult` with `Deleted = h` and no
error, and two requests are sent, one per call. The client keeps nothing between
calls: the outcome of a call is the same in any two worlds, after any two
histories, in which the URL check and the transport's answer to the call agree. -/
theorem C10_delete_twice (env : Env) (c : apiClient) (h lit status : Bytes) (t : List Event)
    (hurl : Accepts env (c.baseURL ++ ascii "/api/v1/delete_scan")) (hlit : Denotes lit h) :
    (DeleteScan (env.answer (okResponse status (deletedBody lit))) c h t).1 = (some ⟨h⟩, none)
    ∧ (DeleteScan (env.answer (okResponse status (deletedBody lit))) c h
        (t ++ (DeleteScan (env.answer (okResponse status (deletedBody lit))) c h t).2)).1
      = (some ⟨h⟩, none)
    ∧ (sent ((DeleteScan (env.answer (okResponse status (deletedBody lit))) c h t).2
        ++ (DeleteScan (env.answer (okResponse status (deletedBody lit))) c h
            (t ++ (DeleteScan (env.answer (okResponse status (deletedBody lit))) c h t).2)).2)).length
      = 2
    ∧ ∀ (env1 env2 : Env) (t1 t2 : List Event), env1.ParseURL = env2.ParseURL →
        (∀ req, env1.Do t1 req = env2.Do t2 req) →
        DeleteScan env1 c h t1 = DeleteScan env2 c h t2 := by
  refine ⟨(DeleteScan_ok env c h lit status t hurl hlit).1,
    (DeleteScan_ok env c h lit status _ hurl hlit).1, ?_,
    fun env1 env2 t1 t2 hp hd => DeleteScan_local c h env1 env2 t1 t2 hp hd⟩
  rw [sent_append, List.length_append, (DeleteScan_ok env c h lit status t hurl hlit).2,
    (DeleteScan_ok env c h lit status _ hurl hlit).2]

/-- C10 for the hash `deadbeef`, answered with `{"deleted":"deadbeef"}`. -/
theorem C10_witness :
    (Accepts (exampleEnv ⟨[], 0, ⟨[], none⟩⟩)
        ((NewClient (ascii "http://scanner.local") (ascii "secret")).baseURL
          ++ ascii "/api/v1/delete_scan")
      ∧ deletedBody (ascii "\"deadbeef\"") = ascii "\x7b\"deleted\":\"deadbeef\"\x7d")
    ∧ (DeleteScan ((exampleEnv ⟨[], 0, ⟨[], none⟩⟩).answer
          (okResponse (ascii "200 OK") (deletedBody (ascii "\"deadbeef\""))))
        (NewClient (ascii "http://scanner.local") (ascii "secret")) (ascii "deadbeef") []).1
      = (some ⟨ascii "deadbeef"⟩, none) :=
  ⟨⟨by decide, by decide⟩,
    (C10_delete_twice (exampleEnv ⟨[], 0, ⟨[], none⟩⟩)
      (NewClient (ascii "http://scanner.local") (ascii "secret")) (ascii "deadbeef")
      (ascii "\"deadbeef\"") (ascii "200 OK") [] (by decide)
      (Denotes_plain (ascii "deadbeef") (by decide))).1⟩

theorem UploadApp_noPartial (env : Env) (c : apiClient) (filePath : Bytes) (t : List Event) :
    NoPartialResult (UploadApp env c filePath t) := by
  unfold NoPartialResult UploadApp
  cases Open env (t ++ [.randRead]) filePath with
  | error e => simp
  | ok file =>
    simp only [Writer.CreateFormFile, Writer.CreatePart, Copy, Writer.Close]
    cases file.readErr with
    | some e => simp
    | none =>
      simp only []
      split
      · simp
      · split
        · simp
        · split
          · simp
          · split
            · simp
            · split <;> simp

theorem GetScanLogs_noPartial (env : Env) (c : apiClient) (hash : Bytes) (t : List Event) :
    NoPartialResult (GetScanLogs env c hash t) := by
  unfold NoPartialResult GetScanLogs
  dsimp only
  split
  · simp
  · split
    · simp
    · split
      · simp
      · split
        · simp
        · split <;> simp

theorem DeleteScan_noPartial (env : Env) (c : apiClient) (hash : Bytes) (t : List Event) :
    NoPartialResult (DeleteScan env c hash t) := by
  unfold NoPartialResult DeleteScan
  dsimp only
  split
  · simp
  · split
    · simp
    · split
      · simp
      · split
        · simp
        · split <;> simp

theorem UploadApp_decode_error (env : Env) (c : apiClient) (P B : Bytes) (t : List Event)
    (resp : Response) (e : error) (h200 : resp.StatusCode = 200) (hread : resp.Body.err = none)
    (hopen : env.Open (t ++ [.randRead]) P = .ok ⟨B, none⟩)
    (hurl : Accepts env (c.baseURL ++ ascii "/api/v1/upload"))
    (he : (Unmarshal storeUploadResult resp.Body.data ⟨[], [], [], [], []⟩).2 = some e) :
    (UploadApp (env.answer resp) c P t).1
      = (none, some (ascii "failed to parse response JSON: " ++ e)) := by
  rw [UploadApp_accepted (env.answer resp) c P B t _ rfl hopen hurl]
  simp [Env.answer, StatusOK, h200, ReadAll, hread, he]

theorem GetScanLogs_decode_error (env : Env) (c : apiClient) (hash : Bytes) (t : List Event)
    (resp : Response) (e : error) (h200 : resp.StatusCode = 200) (hread : resp.Body.err = none)
    (hurl : Accepts env (c.baseURL ++ ascii "/api/v1/scan_logs"))
    (he : (Unmarshal storeScanLogsResult resp.Body.data ⟨[]⟩).2 = some e) :
    (GetScanLogs (env.answer resp) c hash t).1
      = (none, some (ascii "failed to parse response JSON: " ++ e)) := by
  rw [GetScanLogs_accepted (env.answer resp) c hash t hurl]
  simp [Env.answer, StatusOK, h200, ReadAll, hread, he]

theorem DeleteScan_decode_error (env : Env) (c : apiClient) (hash : Bytes) (t : List Event)
    (resp : Response) (e : error) (h200 : resp.StatusCode = 200) (hread : resp.Body.err = none)
    (hurl : Accepts env (c.baseURL ++ ascii "/api/v1/delete_scan"))
    (he : (Unmarshal storeDeleteResult resp.Body.data ⟨[]⟩).2 = some e) :
    (DeleteScan (env.answer resp) c hash t).1
      = (none, some (ascii "failed to parse response JSON: " ++ e)) := by
  rw [DeleteScan_accepted (env.answer resp) c hash t hurl]
  simp [Env.answer, StatusOK, h200, ReadAll, hread, he]

theorem EncodeRune_two (b0 b1 : Nat) (h0 : 194 ≤ b0) (h0' : b0 < 224) (h1 : 128 ≤ b1)
    (h1' : b1 ≤ 191) : EncodeRune (b0 % 32 * 64 + b1 % 64) = [b0, b1] := by
  unfold EncodeRune
  have e1 : ¬ (b0 % 32 * 64 + b1 % 64 ≤ 127) := by omega
  have e2 : b0 % 32 * 64 + b1 % 64 ≤ 2047 := by omega
  simp only [e1, e2, if_true, if_false]
  have e3 : 192 + (b0 % 32 * 64 + b1 % 64) / 64 = b0 := by omega
  have e4 : 128 + (b0 % 32 * 64 + b1 % 64) % 64 = b1 := by omega
  rw [e3, e4]

theorem EncodeRune_three (b0 b1 b2 : Nat) (h0 : 224 ≤ b0) (h0' : b0 < 240)
    (h1 : (if b0 = 224 then 160 else 128) ≤ b1) (h1' : b1 ≤ (if b0 = 237 then 159 else 191))
    (h2 : 128 ≤ b2) (h2' : b2 ≤ 191) :
    EncodeRune (b0 % 16 * 4096 + b1 % 64 * 64 + b2 % 64) = [b0, b1, b2] := by
  unfold EncodeRune
  have g1 : 128 ≤ b1 := by split at h1 <;> omega
  have g1' : b1 ≤ 191 := by split at h1' <;> omega
  have g2 : b0 = 224 → 160 ≤ b1 := by intro h; simpa [h] using h1
  have g3 : b0 = 237 → b1 ≤ 159 := by intro h; simpa [h] using h1'
  have e1 : ¬ (b0 % 16 * 4096 + b1 % 64 * 64 + b2 % 64 ≤ 127) := by omega
  have e2 : ¬ (b0 % 16 * 4096 + b1 % 64 * 64 + b2 % 64 ≤ 2047) := by omega
  have e3 : ¬ (1114111 < b0 % 16 * 4096 + b1 % 64 * 64 + b2 % 64
      ∨ (55296 ≤ b0 % 16 * 4096 + b1 % 64 * 64 + b2 % 64
        ∧ b0 % 16 * 4096 + b1 % 64 * 64 + b2 % 64 ≤ 57343)) := by omega
  have e4 : b0 % 16 * 4096 + b1 % 64 * 64 + b2 % 64 ≤ 65535 := by omega
  simp only [e1, e2, e3, e4, if_true, if_false]
  have f1 : 224 + (b0 % 16 * 4096 + b1 % 64 * 64 + b2 % 64) / 4096 = b0 := by omega
  have f2 : 128 + (b0 % 16 * 4096 + b1 % 64 * 64 + b2 % 64) / 64 % 64 = b1 := by omega
  have f3 : 128 + (b0 % 16 * 4096 + b1 % 64 * 64 + b2 % 64) % 64 = b2 := by omega
  rw [f1, f2, f3]

theorem EncodeRune_four (b0 b1 b2 b3 : Nat) (h0 : 240 ≤ b0) (h0' : b0 < 245)
    (h1 : (if b0 = 240 then 144 else 128) ≤ b1) (h1' : b1 ≤ (if b0 = 244 then 143 else 191))
    (h2 : 128 ≤ b2) (h2' : b2 ≤ 191) (h3 : 128 ≤ b3) (h3' : b3 ≤ 191) :
    EncodeRune (b0 % 8 * 262144 + b1 % 64 * 4096 + b2 % 64 * 64 + b3 % 64)
      = [b0, b1, b2, b3] := by
  unfold EncodeRune
  have g1 : 128 ≤ b1 := by split at h1 <;> omega
  have g1' : b1 ≤ 191 := by split at h1' <;> omega
  have g2 : b0 = 240 → 144 ≤ b1 := by intro h; simpa [h] using h1
  have g3 : b0 = 244 → b1 ≤ 143 := by intro h; simpa [h] using h1'
  have e1 : ¬ (b0 % 8 * 262144 + b1 % 64 * 4096 + b2 % 64 * 64 + b3 % 64 ≤ 127) := by omega
  have e2 : ¬ (b0 % 8 * 262144 + b1 % 64 * 4096 + b2 % 64 * 64 + b3 % 64 ≤ 2047) := by omega
  have e3 : ¬ (1114111 < b0 % 8 * 262144 + b1 % 64 * 4096 + b2 % 64 * 64 + b3 % 64
      ∨ (55296 ≤ b0 % 8 * 262144 + b1 % 64 * 4096 + b2 % 64 * 64 + b3 % 64
        ∧ b0 % 8 * 262144 + b1 % 64 * 4096 + b2 % 64 * 64 + b3 % 64 ≤ 57343)) := by omega
  have e4 : ¬ (b0 % 8 * 262144 + b1 % 64 * 4096 + b2 % 64 * 64 + b3 % 64 ≤ 65535) := by omega
  simp only [e1, e2, e3, e4, if_true, if_false]
  have f1 : 240 + (b0 % 8 * 262144 + b1 % 64 * 4096 + b2 % 64 * 64 + b3 % 64) / 262144 = b0 := by
    omega
  have f2 : 128 + (b0 % 8 * 262144 + b1 % 64 * 4096 + b2 % 64 * 64 + b3 % 64) / 4096 % 64
      = b1 := by omega
  have f3 : 128 + (b0 % 8 * 262144 + b1 % 64 * 4096 + b2 % 64 * 64 + b3 % 64) / 64 % 64
      = b2 := by omega
  have f4 : 128 + (b0 % 8 * 262144 + b1 % 64 * 4096 + b2 % 64 * 64 + b3 % 64) % 64 = b3 := by
    omega
  rw [f1, f2, f3, f4]

/-- A well-formed multi-byte sequence at the head of the input: its bytes `pre`,
what follows them, and the facts the readers and writers of strings rely on. -/
theorem DecodeRune_valid (b : Nat) (rest : Bytes) (hb : 128 ≤ b)
    (hv : ¬ ((DecodeRune (b :: rest)).1 = RuneError ∧ (DecodeRune (b :: rest)).2 = 1)) :
    ∃ pre tail, rest = pre ++ tail ∧ pre.length + 1 = (DecodeRune (b :: rest)).2
      ∧ EncodeRune (DecodeRune (b :: rest)).1 = b :: pre
      ∧ ∀ x, DecodeRune (b :: (pre ++ x)) = DecodeRune (b :: rest) := by
  unfold DecodeRune at hv ⊢
  have hb' : ¬ b < 128 := by omega
  simp only [hb', if_false] at hv ⊢
  by_cases c1 : b < 194
  · simp [c1] at hv
  simp only [c1, if_false] at hv ⊢
  by_cases c2 : b < 224
  · simp only [c2, if_true] at hv ⊢
    rcases rest with _ | ⟨b1, rest⟩
    · simp at hv
    · simp only [] at hv ⊢
      by_cases c : 128 ≤ b1 ∧ b1 ≤ 191
      · simp only [c, and_self, if_true] at hv ⊢
        exact ⟨[b1], rest, rfl, rfl, EncodeRune_two b b1 (by omega) c2 c.1 c.2, fun x => by simp [c]⟩
      · simp [c] at hv
  simp only [c2, if_false] at hv ⊢
  by_cases c3 : b < 240
  · simp only [c3, if_true] at hv ⊢
    rcases rest with _ | ⟨b1, _ | ⟨b2, rest⟩⟩
    · simp at hv
    · simp at hv
    · simp only [] at hv ⊢
      by_cases c : (if b = 224 then 160 else 128) ≤ b1 ∧ b1 ≤ (if b = 237 then 159 else 191)
          ∧ 128 ≤ b2 ∧ b2 ≤ 191
      · simp only [c, and_self, if_true] at hv ⊢
        exact ⟨[b1, b2], rest, rfl, rfl,
          EncodeRune_three b b1 b2 (by omega) c3 c.1 c.2.1 c.2.2.1 c.2.2.2, fun x => by simp [c]⟩
      · simp [c] at hv
  simp only [c3, if_false] at hv ⊢
  by_cases c4 : b < 245
  · simp only [c4, if_true] at hv ⊢
    rcases rest with _ | ⟨b1, _ | ⟨b2, _ | ⟨b3, rest⟩⟩⟩
    · simp at hv
    · simp at hv
    · simp at hv
    · simp only [] at hv ⊢
      by_cases c : (if b = 240 then 144 else 128) ≤ b1 ∧ b1 ≤ (if b = 244 then 143 else 191)
          ∧ 128 ≤ b2 ∧ b2 ≤ 191 ∧ 128 ≤ b3 ∧ b3 ≤ 191
      · simp only [c, and_self, if_true] at hv ⊢
        exact ⟨[b1, b2, b3], rest, rfl, rfl,
          EncodeRune_four b b1 b2 b3 (by omega) c4 c.1 c.2.1 c.2.2.1 c.2.2.2.1 c.2.2.2.2.1
            c.2.2.2.2.2, fun x => by simp [c]⟩
      · simp [c] at hv
  · simp [c4] at hv

/-! ## Strings written by `json.Marshal` are read back -/

theorem hexVal_hexLower (k : Nat) (h : k < 16) : hexVal (hexLower k) = some k := by
  interval_cases k <;> rfl

theorem getu4_low (b : Nat) (hb : b < 256) (tail : Bytes) :
    getu4 (92 :: 117 :: 48 :: 48 :: hexLower (b / 16) :: hexLower (b % 16) :: tail) = some b := by
  have h1 : hexVal (hexLower (b / 16)) = some (b / 16) := hexVal_hexLower _ (by omega)
  have h2 : hexVal (hexLower (b % 16)) = some (b % 16) := hexVal_hexLower _ (by omega)
  have h0 : hexVal 48 = some 0 := by decide
  simp only [getu4, h0, h1, h2, and_self, if_true]
  congr 1
  omega

theorem getu4_separator (r : Nat) (hr : r = 8232 ∨ r = 8233) (tail : Bytes) :
    getu4 (92 :: 117 :: 50 :: 48 :: 50 :: hexLower (r % 16) :: tail) = some r := by
  rcases hr with rfl | rfl <;> rfl

theorem ValidAux_ascii {n b : Nat} {s : Bytes} (hb : b < 128) :
    ValidAux (n + 1) (b :: s) = ValidAux n s := by
  have hd : DecodeRune (b :: s) = (b, 1) := by simp [DecodeRune, hb]
  have hne : b ≠ RuneError := by unfold RuneError; omega
  simp [ValidAux, hd, hne]

theorem parseStringAux_appendStringAux :
    ∀ (n : Nat) (s : Bytes), ValidAux n s = true →
      ∀ (m : Nat) (acc rest : Bytes), (appendStringAux n s).length < m →
        parseStringAux m (appendStringAux n s ++ 34 :: rest) acc = .ok (acc ++ s, rest) := by
  intro n
  induction n with
  | zero =>
    intro s hv m acc rest hm
    have hs : s = [] := by simpa [ValidAux] using hv
    subst hs
    obtain ⟨k, rfl⟩ : ∃ k, m = k + 1 := ⟨m - 1, by omega⟩
    simp [appendStringAux, parseStringAux]
  | succ n ih =>
    intro s hv m acc rest hm
    obtain ⟨k, rfl⟩ : ∃ k, m = k + 1 := ⟨m - 1, by omega⟩
    cases s with
    | nil => simp [appendStringAux, parseStringAux]
    | cons b s =>
      by_cases hb : b < 128
      · -- a single byte
        rw [ValidAux_ascii hb] at hv
        by_cases hsafe : htmlSafe b = true
        · have e : appendStringAux (n + 1) (b :: s) = b :: appendStringAux n s := by
            simp [appendStringAux, hb, hsafe]
          rw [e] at hm ⊢
          have hc : 32 ≤ b ∧ b ≠ 34 ∧ b ≠ 92 := by
            simp [htmlSafe] at hsafe
            omega
          have h1 : b ≠ 34 := hc.2.1
          have h2 : b ≠ 92 := hc.2.2
          have h3 : ¬ b < 32 := by omega
          have := ih s hv k (acc ++ [b]) rest (by simp at hm; omega)
          simp [parseStringAux, h1, h2, h3, hb, this]
        · by_cases hq : b = 92 ∨ b = 34
          · have e : appendStringAux (n + 1) (b :: s) = 92 :: b :: appendStringAux n s := by
              simp [appendStringAux, hb, hsafe, hq]
            rw [e] at hm ⊢
            have := ih s hv k (acc ++ [b]) rest (by simp at hm; omega)
            rcases hq with rfl | rfl <;> simp [parseStringAux, this]
          · by_cases h8 : b = 8
            · subst h8
              have e : appendStringAux (n + 1) (8 :: s) = 92 :: 98 :: appendStringAux n s := by
                simp [appendStringAux, htmlSafe]
              rw [e] at hm ⊢
              have := ih s hv k (acc ++ [8]) rest (by simp at hm; omega)
              simp [parseStringAux, this]
            by_cases h12 : b = 12
            · subst h12
              have e : appendStringAux (n + 1) (12 :: s) = 92 :: 102 :: appendStringAux n s := by
                simp [appendStringAux, htmlSafe]
              rw [e] at hm ⊢
              have := ih s hv k (acc ++ [12]) rest (by simp at hm; omega)
              simp [parseStringAux, this]
            by_cases h10 : b = 10
            · subst h10
              have e : appendStringAux (n + 1) (10 :: s) = 92 :: 110 :: appendStringAux n s := by
                simp [appendStringAux, htmlSafe]
              rw [e] at hm ⊢
              have := ih s hv k (acc ++ [10]) rest (by simp at hm; omega)
              simp [parseStringAux, this]
            · by_cases h13 : b = 13
              · subst h13
                have e : appendStringAux (n + 1) (13 :: s) = 92 :: 114 :: appendStringAux n s := by
                  simp [appendStringAux, htmlSafe]
                rw [e] at hm ⊢
                have := ih s hv k (acc ++ [13]) rest (by simp at hm; omega)
                simp [parseStringAux, this]
              · by_cases h9 : b = 9
                · subst h9
                  have e : appendStringAux (n + 1) (9 :: s)
                      = 92 :: 116 :: appendStringAux n s := by
                    simp [appendStringAux, htmlSafe]
                  rw [e] at hm ⊢
                  have := ih s hv k (acc ++ [9]) rest (by simp at hm; omega)
                  simp [parseStringAux, this]
                · have e : appendStringAux (n + 1) (b :: s)
                      = 92 :: 117 :: 48 :: 48 :: hexLower (b / 16) :: hexLower (b % 16)
                          :: appendStringAux n s := by
                    simp [appendStringAux, hb, hsafe, hq, h8, h12, h10, h13, h9]
                  rw [e] at hm ⊢
                  have hg := getu4_low b (by omega) (appendStringAux n s ++ 34 :: rest)
                  have hsur : IsSurrogate b = false := by
                    simp [IsSurrogate]
                    omega
                  have henc : EncodeRune b = [b] := by
                    simp [EncodeRune]
                    omega
                  have := ih s hv k (acc ++ [b]) rest (by simp at hm; omega)
                  simp only [List.cons_append] at hg ⊢
                  simp [parseStringAux, hg, hsur, henc, this]
      · -- a multi-byte sequence
        have hb' : 128 ≤ b := by omega
        have hv0 : ¬ ((DecodeRune (b :: s)).1 = RuneError ∧ (DecodeRune (b :: s)).2 = 1) := by
          intro hc
          simp [ValidAux, hc] at hv
        have hv1 : ValidAux n (s.drop ((DecodeRune (b :: s)).2 - 1)) = true := by
          simpa [ValidAux, hv0] using hv
        obtain ⟨pre, tail, hs, hlen, henc, hloc⟩ := DecodeRune_valid b s hb' hv0
        subst hs
        have hdrop : (pre ++ tail).drop ((DecodeRune (b :: (pre ++ tail))).2 - 1) = tail := by
          rw [← hlen]
          simp
        rw [hdrop] at hv1
        by_cases hsep : (DecodeRune (b :: (pre ++ tail))).1 = 8232
            ∨ (DecodeRune (b :: (pre ++ tail))).1 = 8233
        · have e : appendStringAux (n + 1) (b :: (pre ++ tail))
              = 92 :: 117 :: 50 :: 48 :: 50
                  :: hexLower ((DecodeRune (b :: (pre ++ tail))).1 % 16)
                  :: appendStringAux n tail := by
            simp [appendStringAux, hb, hv0, hsep, hdrop]
          rw [e] at hm ⊢
          have hg := getu4_separator _ hsep (appendStringAux n tail ++ 34 :: rest)
          have hsur : IsSurrogate (DecodeRune (b :: (pre ++ tail))).1 = false := by
            rcases hsep with h | h <;> rw [h] <;> decide
          have := ih tail hv1 k (acc ++ (b :: pre)) rest (by simp at hm; omega)
          simp only [List.cons_append] at hg ⊢
          simp [parseStringAux, hg, hsur, henc, this]
        · have htake : (b :: (pre ++ tail)).take (DecodeRune (b :: (pre ++ tail))).2
              = b :: pre := by
            rw [← hlen]
            simp
          have e : appendStringAux (n + 1) (b :: (pre ++ tail))
              = b :: (pre ++ appendStringAux n tail) := by
            simp [appendStringAux, hb, hv0, hsep, hdrop, htake]
          rw [e] at hm ⊢
          have h1 : b ≠ 34 := by omega
          have h2 : b ≠ 92 := by omega
          have h3 : ¬ b < 32 := by omega
          have hl := hloc (appendStringAux n tail ++ 34 :: rest)
          have hd2 : (pre ++ (appendStringAux n tail ++ 34 :: rest)).drop
              ((DecodeRune (b :: (pre ++ tail))).2 - 1)
                = appendStringAux n tail ++ 34 :: rest := by
            rw [← hlen]
            simp
          have := ih tail hv1 k (acc ++ (b :: pre)) rest (by simp at hm; omega)
          simp only [List.cons_append, List.append_assoc]
          simp [parseStringAux, h1, h2, h3, hb, hl, hd2, henc, this]

/-- The literal `json.Marshal` writes for a well-formed string denotes that string. -/
theorem Denotes_appendString (s : Bytes) (h : Valid s = true) : Denotes (appendString s) s := by
  refine ⟨appendStringAux s.length s ++ [34], by simp [appendString], fun rest => ?_⟩
  unfold parseString
  have := parseStringAux_appendStringAux s.length s h
    ((appendStringAux s.length s ++ [34] ++ rest).length + 1) [] rest (by simp; omega)
  simpa using this

/-! ## Upload results -/

theorem parse_uploadBody {a s h t f al sl hl tl fl : Bytes} (ha : Denotes al a)
    (hs : Denotes sl s) (hh : Denotes hl h) (ht : Denotes tl t) (hf : Denotes fl f) :
    parse (uploadBody al sl hl tl fl)
      = .ok (.object [(ascii "analyzer", .string a), (ascii "status", .string s),
          (ascii "hash", .string h), (ascii "scan_type", .string t),
          (ascii "file_name", .string f)]) := by
  have k1 : Denotes (34 :: (ascii "analyzer" ++ [34])) (ascii "analyzer") :=
    Denotes_plain _ (by decide)
  have k2 : Denotes (34 :: (ascii "status" ++ [34])) (ascii "status") :=
    Denotes_plain _ (by decide)
  have k3 : Denotes (34 :: (ascii "hash" ++ [34])) (ascii "hash") := Denotes_plain _ (by decide)
  have k4 : Denotes (34 :: (ascii "scan_type" ++ [34])) (ascii "scan_type") :=
    Denotes_plain _ (by decide)
  have k5 : Denotes (34 :: (ascii "file_name" ++ [34])) (ascii "file_name") :=
    Denotes_plain _ (by decide)
  have c1 : ascii "\x7b\"analyzer\":" = 123 :: ((34 :: (ascii "analyzer" ++ [34])) ++ [58]) := by
    decide
  have c2 : ascii ",\"status\":" = 44 :: ((34 :: (ascii "status" ++ [34])) ++ [58]) := by decide
  have c3 : ascii ",\"hash\":" = 44 :: ((34 :: (ascii "hash" ++ [34])) ++ [58]) := by decide
  have c4 : ascii ",\"scan_type\":" = 44 :: ((34 :: (ascii "scan_type" ++ [34])) ++ [58]) := by
    decide
  have c5 : ascii ",\"file_name\":" = 44 :: ((34 :: (ascii "file_name" ++ [34])) ++ [58]) := by
    decide
  have c6 : ascii "\x7d" = [125] := by decide
  have e1 : uploadBody al sl hl tl fl
      = 123 :: ((34 :: (ascii "analyzer" ++ [34])) ++ 58 :: (al ++ 44 ::
          ((34 :: (ascii "status" ++ [34])) ++ 58 :: (sl ++ 44 ::
          ((34 :: (ascii "hash" ++ [34])) ++ 58 :: (hl ++ 44 ::
          ((34 :: (ascii "scan_type" ++ [34])) ++ 58 :: (tl ++ 44 ::
          ((34 :: (ascii "file_name" ++ [34])) ++ 58 :: (fl ++ 125 :: [])))))))))) := by
    unfold uploadBody
    rw [c1, c2, c3, c4, c5, c6]
    simp
  obtain ⟨k, hk⟩ : ∃ k, 2 * (uploadBody al sl hl tl fl).length + 1 = k + 7 :=
    ⟨2 * (uploadBody al sl hl tl fl).length - 6, by
      rw [e1]
      simp
      omega⟩
  unfold parse
  rw [hk, e1]
  rw [List.cons_append (34 : Nat)]
  rw [parseValue_object (by decide) _ rfl]
  rw [← List.cons_append (34 : Nat)]
  rw [parseMembers_comma k1 [] (parseValue_string ha (k + 4) 1 _)]
  rw [parseMembers_comma k2 _ (parseValue_string hs (k + 3) 1 _)]
  rw [parseMembers_comma k3 _ (parseValue_string hh (k + 2) 1 _)]
  rw [parseMembers_comma k4 _ (parseValue_string ht (k + 1) 1 _)]
  rw [parseMembers_close k5 _ (parseValue_string hf k 1 _)]
  simp [skipSpace]

theorem Unmarshal_uploadBody {a s h t f al sl hl tl fl : Bytes} (ha : Denotes al a)
    (hs : Denotes sl s) (hh : Denotes hl h) (ht : Denotes tl t) (hf : Denotes fl f)
    (cur : UploadResult) :
    Unmarshal storeUploadResult (uploadBody al sl hl tl fl) cur = (⟨a, s, h, t, f⟩, none) := by
  unfold Unmarshal
  rw [parse_uploadBody ha hs hh ht hf]
  have f1 : findField uploadResultFields (ascii "analyzer") = some .Analyzer := by decide
  have f2 : findField uploadResultFields (ascii "status") = some .Status := by decide
  have f3 : findField uploadResultFields (ascii "hash") = some .Hash := by decide
  have f4 : findField uploadResultFields (ascii "scan_type") = some .ScanType := by decide
  have f5 : findField uploadResultFields (ascii "file_name") = some .FileName := by decide
  simp [storeUploadResult, storeMembers, storeStep, f1, f2, f3, f4, f5, setUploadResultField, storeString,
    saveError]

theorem Marshal_eq_uploadBody (v : UploadResult) :
    MarshalUploadResult v = uploadBody (appendString v.Analyzer) (appendString v.Status)
      (appendString v.Hash) (appendString v.ScanType) (appendString v.FileName) := rfl

theorem canonical_unmarshal :
    Unmarshal storeUploadResult canonicalUploadBody ⟨[], [], [], [], []⟩
      = (canonicalUpload, none) := by
  decide

theorem UploadApp_ok (env : Env) (c : apiClient) (P B : Bytes) (t : List Event)
    (status body : Bytes) (v : UploadResult)
    (hopen : env.Open (t ++ [.randRead]) P = .ok ⟨B, none⟩)
    (hurl : Accepts env (c.baseURL ++ ascii "/api/v1/upload"))
    (hv : Unmarshal storeUploadResult body ⟨[], [], [], [], []⟩ = (v, none)) :
    (UploadApp (env.answer (okResponse status body)) c P t).1 = (some v, none) := by
  rw [UploadApp_accepted (env.answer (okResponse status body)) c P B t _ rfl hopen hurl]
  simp [Env.answer, okResponse, StatusOK, ReadAll, hv]

/-- C7, as amended. For every five strings and JSON string literals that denote
them, decoding the object with keys `analyzer`, `status`, `hash`, `scan_type`,
`file_name` bound to those literals yields the `UploadResult` with exactly the
five strings, and `UploadApp` (the URL accepted, the file read), answered 200
with that object, returns it. When the five strings are well-formed UTF-8,
`json.Marshal` of the `UploadResult` followed by `json.Unmarshal` returns the
same value. And `UploadApp`, answered 200 with the body of the specification's
example, returns its five fields. -/
theorem C7_upload_result_round_trip (a s h t f al sl hl tl fl : Bytes)
    (env : Env) (c : apiClient) (P B status : Bytes) (tr : List Event)
    (ha : Denotes al a) (hs : Denotes sl s) (hh : Denotes hl h) (ht : Denotes tl t)
    (hf : Denotes fl f)
    (hopen : env.Open (tr ++ [.randRead]) P = .ok ⟨B, none⟩)
    (hurl : Accepts env (c.baseURL ++ ascii "/api/v1/upload")) :
    Unmarshal storeUploadResult (uploadBody al sl hl tl fl) ⟨[], [], [], [], []⟩
      = (⟨a, s, h, t, f⟩, none)
    ∧ (UploadApp (env.answer (okResponse status (uploadBody al sl hl tl fl))) c P tr).1
      = (some ⟨a, s, h, t, f⟩, none)
    ∧ (Valid a = true ∧ Valid s = true ∧ Valid h = true ∧ Valid t = true ∧ Valid f = true →
        Unmarshal storeUploadResult (MarshalUploadResult ⟨a, s, h, t, f⟩) ⟨[], [], [], [], []⟩
          = (⟨a, s, h, t, f⟩, none))
    ∧ (UploadApp (env.answer (okResponse status canonicalUploadBody)) c P tr).1
      = (some ⟨ascii "a", ascii "PENDING", ascii "deadbeef", ascii "apk", ascii "app.apk"⟩,
          none) := by
  refine ⟨Unmarshal_uploadBody ha hs hh ht hf _,
    UploadApp_ok env c P B tr status _ _ hopen hurl (Unmarshal_uploadBody ha hs hh ht hf _),
    fun hv => ?_,
    UploadApp_ok env c P B tr status canonicalUploadBody _ hopen hurl canonical_unmarshal⟩
  rw [Marshal_eq_uploadBody]
  exact Unmarshal_uploadBody (Denotes_appendString a hv.1) (Denotes_appendString s hv.2.1)
    (Denotes_appendString h hv.2.2.1) (Denotes_appendString t hv.2.2.2.1)
    (Denotes_appendString f hv.2.2.2.2) _

set_option maxRecDepth 100000 in
/-- C7 at strings that need escaping: a quote and a backslash, a line feed, and
the two-byte encoding of U+00E9, each written as `json.Marshal` writes it; the
decoder, `UploadApp` on that body and `UploadApp` on the body of the
specification's example return the fields. -/
theorem C7_witness :
    (Accepts (exampleEnv ⟨[], 0, ⟨[], none⟩⟩) (exampleClient.baseURL ++ ascii "/api/v1/upload")
      ∧ (exampleEnv ⟨[], 0, ⟨[], none⟩⟩).Open ([] ++ [.randRead]) (ascii "/tmp/build/app.apk")
          = .ok ⟨[80, 75, 3, 4], none⟩)
    ∧ Unmarshal storeUploadResult
        (uploadBody (appendString [97, 34, 92]) (appendString [10]) (appendString [195, 169])
          (appendString (ascii "apk")) (appendString []))
        ⟨[], [], [], [], []⟩
      = (⟨[97, 34, 92], [10], [195, 169], ascii "apk", []⟩, none)
    ∧ (UploadApp ((exampleEnv ⟨[], 0, ⟨[], none⟩⟩).answer (okResponse (ascii "200 OK")
          (uploadBody (appendString [97, 34, 92]) (appendString [10]) (appendString [195, 169])
            (appendString (ascii "apk")) (appendString []))))
        exampleClient (ascii "/tmp/build/app.apk") []).1
      = (some ⟨[97, 34, 92], [10], [195, 169], ascii "apk", []⟩, none)
    ∧ (UploadApp ((exampleEnv ⟨[], 0, ⟨[], none⟩⟩).answer
          (okResponse (ascii "200 OK") canonicalUploadBody))
        exampleClient (ascii "/tmp/build/app.apk") []).1
      = (some ⟨ascii "a", ascii "PENDING", ascii "deadbeef", ascii "apk", ascii "app.apk"⟩,
          none) :=
  ⟨⟨by decide, rfl⟩,
    (C7_upload_result_round_trip [97, 34, 92] [10] [195, 169] (ascii "apk") []
      (appendString [97, 34, 92]) (appendString [10]) (appendString [195, 169])
      (appendString (ascii "apk")) (appendString [])
      (exampleEnv ⟨[], 0, ⟨[], none⟩⟩) exampleClient (ascii "/tmp/build/app.apk") [80, 75, 3, 4]
      (ascii "200 OK") []
      (Denotes_appendString _ (by decide)) (Denotes_appendString _ (by decide))
      (Denotes_appendString _ (by decide)) (Denotes_appendString _ (by decide))
      (Denotes_appendString _ (by decide)) rfl (by decide)).1,
    (C7_upload_result_round_trip [97, 34, 92] [10] [195, 169] (ascii "apk") []
      (appendString [97, 34, 92]) (appendString [10]) (appendString [195, 169])
      (appendString (ascii "apk")) (appendString [])
      (exampleEnv ⟨[], 0, ⟨[], none⟩⟩) exampleClient (ascii "/tmp/build/app.apk") [80, 75, 3, 4]
      (ascii "200 OK") []
      (Denotes_appendString _ (by decide)) (Denotes_appendString _ (by decide))
      (Denotes_appendString _ (by decide)) (Denotes_appendString _ (by decide))
      (Denotes_appendString _ (by decide)) rfl (by decide)).2.1,
    (C7_upload_result_round_trip [97, 34, 92] [10] [195, 169] (ascii "apk") []
      (appendString [97, 34, 92]) (appendString [10]) (appendString [195, 169])
      (appendString (ascii "apk")) (appendString [])
      (exampleEnv ⟨[], 0, ⟨[], none⟩⟩) exampleClient (ascii "/tmp/build/app.apk") [80, 75, 3, 4]
      (ascii "200 OK") []
      (Denotes_appendString _ (by decide)) (Denotes_appendString _ (by decide))
      (Denotes_appendString _ (by decide)) (Denotes_appendString _ (by decide))
      (Denotes_appendString _ (by decide)) rfl (by decide)).2.2.2⟩

/-- C7 as stated fails: an `UploadResult` whose `Analyzer` is the single byte
0xff, which is not UTF-8, does not come back from `json.Marshal` followed by
`json.Unmarshal`: what was written for the byte reads as U+FFFD, and decoding
gives the three bytes of U+FFFD, not the byte 0xff. -/
theorem C7_counterexample :
    Valid [255] = false
    ∧ Unmarshal storeUploadResult (MarshalUploadResult ⟨[255], [], [], [], []⟩)
        ⟨[], [], [], [], []⟩ = (⟨[239, 191, 189], [], [], [], []⟩, none)
    ∧ (Unmarshal storeUploadResult (MarshalUploadResult ⟨[255], [], [], [], []⟩)
        ⟨[], [], [], [], []⟩).1 ≠ ⟨[255], [], [], [], []⟩ := by
  decide

/-! ## Scan logs -/

theorem parseValue_array {n d : Nat} (hd : d < maxNestingDepth) (s : Bytes) :
    parseValue (n + 1) d (91 :: 123 :: s) = parseElements n (d + 1) (123 :: s) [] := by
  have : ¬ d ≥ maxNestingDepth := by omega
  simp [parseValue, skipSpace, isSpace, this]

theorem parseValue_emptyArray {n d : Nat} (hd : d < maxNestingDepth) (s : Bytes) :
    parseValue (n + 1) d (91 :: 93 :: s) = .ok (.array [], s) := by
  have : ¬ d ≥ maxNestingDepth := by omega
  simp [parseValue, skipSpace, isSpace, this]

theorem parseValue_entry {e : EntryText} {l : ScanLog} (h : e.Reads l) (n d : Nat)
    (hd : d < maxNestingDepth) (rest : Bytes) :
    parseValue (n + 5) d (e.render ++ rest) = .ok (entryJSON e l, rest) := by
  obtain ⟨ht, hs, hx⟩ := h
  have k1 : Denotes (34 :: (ascii "timestamp" ++ [34])) (ascii "timestamp") :=
    Denotes_plain _ (by decide)
  have k2 : Denotes (34 :: (ascii "status" ++ [34])) (ascii "status") :=
    Denotes_plain _ (by decide)
  have k3 : Denotes (34 :: (ascii "exception" ++ [34])) (ascii "exception") :=
    Denotes_plain _ (by decide)
  have c1 : ascii "\x7b\"timestamp\":" = 123 :: ((34 :: (ascii "timestamp" ++ [34])) ++ [58]) := by
    decide
  have c2 : ascii ",\"status\":" = 44 :: ((34 :: (ascii "status" ++ [34])) ++ [58]) := by decide
  have c3 : ascii ",\"exception\":" = 44 :: ((34 :: (ascii "exception" ++ [34])) ++ [58]) := by
    decide
  have c4 : ascii ",\"exception\":null"
      = 44 :: ((34 :: (ascii "exception" ++ [34])) ++ 58 :: [110, 117, 108, 108]) := by decide
  have c5 : ascii "\x7d" = [125] := by decide
  cases hex : e.exception with
  | absent =>
    have e1 : e.render ++ rest
        = 123 :: ((34 :: (ascii "timestamp" ++ [34])) ++ 58 :: (e.timestamp ++ 44 ::
            ((34 :: (ascii "status" ++ [34])) ++ 58 :: (e.status ++ 125 :: rest)))) := by
      unfold EntryText.render
      rw [hex, c1, c2, c5]
      simp [ExceptionText.render]
    rw [e1, List.cons_append (34 : Nat), parseValue_object hd _ rfl, ← List.cons_append (34 : Nat)]
    rw [parseMembers_comma k1 [] (parseValue_string ht (n + 2) (d + 1) _)]
    rw [parseMembers_close k2 _ (parseValue_string hs (n + 1) (d + 1) _)]
    simp [entryJSON, hex]
  | null =>
    have e1 : e.render ++ rest
        = 123 :: ((34 :: (ascii "timestamp" ++ [34])) ++ 58 :: (e.timestamp ++ 44 ::
            ((34 :: (ascii "status" ++ [34])) ++ 58 :: (e.status ++ 44 ::
            ((34 :: (ascii "exception" ++ [34])) ++ 58 ::
              ([110, 117, 108, 108] ++ 125 :: rest)))))) := by
      unfold EntryText.render
      rw [hex]
      unfold ExceptionText.render
      rw [c1, c2, c4, c5]
      simp
    rw [e1, List.cons_append (34 : Nat), parseValue_object hd _ rfl, ← List.cons_append (34 : Nat)]
    rw [parseMembers_comma k1 [] (parseValue_string ht (n + 2) (d + 1) _)]
    rw [parseMembers_comma k2 _ (parseValue_string hs (n + 1) (d + 1) _)]
    rw [parseMembers_close k3 _ (parseValue_null n (d + 1) _)]
    simp [entryJSON, hex]
  | string lit =>
    rw [hex] at hx
    obtain ⟨x, hlx, hden⟩ := hx
    have e1 : e.render ++ rest
        = 123 :: ((34 :: (ascii "timestamp" ++ [34])) ++ 58 :: (e.timestamp ++ 44 ::
            ((34 :: (ascii "status" ++ [34])) ++ 58 :: (e.status ++ 44 ::
            ((34 :: (ascii "exception" ++ [34])) ++ 58 :: (lit ++ 125 :: rest)))))) := by
      unfold EntryText.render
      rw [hex]
      unfold ExceptionText.render
      rw [c1, c2, c3, c5]
      simp
    rw [e1, List.cons_append (34 : Nat), parseValue_object hd _ rfl, ← List.cons_append (34 : Nat)]
    rw [parseMembers_comma k1 [] (parseValue_string ht (n + 2) (d + 1) _)]
    rw [parseMembers_comma k2 _ (parseValue_string hs (n + 1) (d + 1) _)]
    rw [parseMembers_close k3 _ (parseValue_string hden n (d + 1) _)]
    simp [entryJSON, hex, hlx]

theorem render_head (e : EntryText) : ∃ s, e.render = 123 :: s := by
  have c1 : ascii "\x7b\"timestamp\":" = 123 :: ascii "\"timestamp\":" := by decide
  refine ⟨ascii "\"timestamp\":" ++ e.timestamp ++ ascii ",\"status\":" ++ e.status
    ++ e.exception.render ++ ascii "\x7d", ?_⟩
  unfold EntryText.render
  rw [c1]
  simp only [List.cons_append]

theorem parseElements_comma {n d : Nat} {s more : Bytes} {v : JSON} (acc : List JSON)
    (hv : parseValue n d (s ++ 44 :: more) = .ok (v, 44 :: more)) :
    parseElements (n + 1) d (s ++ 44 :: more) acc = parseElements n d more (acc ++ [v]) := by
  simp [parseElements, hv, skipSpace, isSpace]

theorem parseElements_close {n d : Nat} {s more : Bytes} {v : JSON} (acc : List JSON)
    (hv : parseValue n d (s ++ 93 :: more) = .ok (v, 93 :: more)) :
    parseElements (n + 1) d (s ++ 93 :: more) acc = .ok (.array (acc ++ [v]), more) := by
  simp [parseElements, hv, skipSpace, isSpace]

theorem store_entry {e : EntryText} {l : ScanLog} (h : e.Reads l) :
    storeScanLogPtr (entryJSON e l) none = (some l, none) := by
  obtain ⟨_, _, hx⟩ := h
  have f1 : findField scanLogFields (ascii "timestamp") = some .Timestamp := by decide
  have f2 : findField scanLogFields (ascii "status") = some .Status := by decide
  have f3 : findField scanLogFields (ascii "exception") = some .Exception := by decide
  cases l with
  | mk ts st ex =>
    cases hex : e.exception with
    | absent =>
      rw [hex] at hx
      simp only [ExceptionText.Reads] at hx
      subst hx
      simp [entryJSON, hex, storeScanLogPtr, storeScanLog, storeMembers, storeStep, f1, f2,
        setScanLogField, storeString, saveError]
    | null =>
      rw [hex] at hx
      simp only [ExceptionText.Reads] at hx
      subst hx
      simp [entryJSON, hex, storeScanLogPtr, storeScanLog, storeMembers, storeStep, f1, f2, f3,
        setScanLogField, storeString, storeStringPtr, saveError]
    | string lit =>
      rw [hex] at hx
      obtain ⟨x, hlx, _⟩ := hx
      simp only at hlx
      subst hlx
      simp [entryJSON, hex, storeScanLogPtr, storeScanLog, storeMembers, storeStep, f1, f2, f3,
        setScanLogField, storeString, storeStringPtr, saveError]

theorem parseElements_entries {es : List EntryText} {ls : List ScanLog}
    (h : List.Forall₂ EntryText.Reads es ls) (hne : es ≠ []) :
    ∀ (n d : Nat) (acc : List JSON) (rest : Bytes), d < maxNestingDepth →
      parseElements (n + es.length + 5) d
          (List.intercalate [44] (es.map EntryText.render) ++ 93 :: rest) acc
        = .ok (.array (acc ++ List.zipWith entryJSON es ls), rest) := by
  induction h with
  | nil => exact absurd rfl hne
  | @cons e l es ls he hes ih =>
    intro n d acc rest hd
    cases hes with
    | nil =>
      have hv := parseValue_entry he n d hd (93 :: rest)
      have e1 : List.intercalate [44] (List.map EntryText.render [e]) ++ 93 :: rest
          = e.render ++ 93 :: rest := by
        simp [List.intercalate]
      rw [e1]
      show parseElements (n + 5 + 1) d _ acc = _
      rw [parseElements_close acc hv]
      simp
    | @cons e2 l2 es2 ls2 he2 hes2 =>
      have hv := parseValue_entry he (n + (e2 :: es2).length) d hd
        (44 :: (List.intercalate [44] (List.map EntryText.render (e2 :: es2)) ++ 93 :: rest))
      have e1 : List.intercalate [44] (List.map EntryText.render (e :: e2 :: es2)) ++ 93 :: rest
          = e.render ++ 44 ::
              (List.intercalate [44] (List.map EntryText.render (e2 :: es2)) ++ 93 :: rest) := by
        simp [List.intercalate]
      rw [e1]
      have hf : n + (e :: e2 :: es2).length + 5 = (n + (e2 :: es2).length + 5) + 1 := by
        simp
        omega
      rw [hf]
      have ih' := ih (by simp) n d (acc ++ [entryJSON e l]) rest hd
      rw [parseElements_comma acc hv, ih']
      simp

theorem intercalate_render_length (es : List EntryText) :
    es.length ≤ (List.intercalate [44] (es.map EntryText.render)).length := by
  induction es with
  | nil => simp
  | cons e es ih =>
    obtain ⟨s, hs⟩ := render_head e
    cases es with
    | nil => simp [List.intercalate, hs]
    | cons e2 es2 =>
      have e1 : List.intercalate [44] (List.map EntryText.render (e :: e2 :: es2))
          = e.render ++ 44 :: List.intercalate [44] (List.map EntryText.render (e2 :: es2)) := by
        simp [List.intercalate]
      rw [e1, hs]
      simp only [List.length_cons, List.length_append] at ih ⊢
      omega

theorem store_entries {es : List EntryText} {ls : List ScanLog}
    (h : List.Forall₂ EntryText.Reads es ls) :
    (List.zipWith entryJSON es ls).map (fun e => (storeScanLogPtr e none).1) = ls.map some
    ∧ ((List.zipWith entryJSON es ls).map (fun e => (storeScanLogPtr e none).2)).foldl
        saveError none = none := by
  induction h with
  | nil => simp
  | @cons e l es ls he _ ih =>
    simp [List.zipWith, store_entry he, ih.1, ih.2, saveError]

theorem parse_logsBody {es : List EntryText} {ls : List ScanLog}
    (h : List.Forall₂ EntryText.Reads es ls) :
    parse (logsBody es) = .ok (.object [(ascii "logs", .array (List.zipWith entryJSON es ls))]) := by
  have k1 : Denotes (34 :: (ascii "logs" ++ [34])) (ascii "logs") := Denotes_plain _ (by decide)
  have c1 : ascii "\x7b\"logs\":[" = 123 :: ((34 :: (ascii "logs" ++ [34])) ++ [58, 91]) := by
    decide
  have c2 : ascii "]\x7d" = [93, 125] := by decide
  have e1 : logsBody es
      = 123 :: ((34 :: (ascii "logs" ++ [34])) ++ 58 ::
          ((91 :: (List.intercalate [44] (es.map EntryText.render) ++ [93])) ++ 125 :: [])) := by
    unfold logsBody
    rw [c1, c2]
    simp
  have hlen := intercalate_render_length es
  obtain ⟨m, hm⟩ : ∃ m, 2 * (logsBody es).length + 1 = m + es.length + 5 + 1 + 1 + 1 :=
    ⟨2 * (logsBody es).length - es.length - 7, by
      rw [e1]
      simp only [List.length_cons, List.length_append, List.length_nil] at hlen ⊢
      omega⟩
  unfold parse
  rw [hm, e1]
  rw [List.cons_append (34 : Nat)]
  rw [parseValue_object (by decide) _ rfl]
  rw [← List.cons_append (34 : Nat)]
  have hv : parseValue (m + es.length + 5 + 1) 1
      ((91 :: (List.intercalate [44] (es.map EntryText.render) ++ [93])) ++ 125 :: [])
        = .ok (.array (List.zipWith entryJSON es ls), 125 :: []) := by
    cases h with
    | nil =>
      simp only [List.map_nil, List.intercalate, List.intersperse, List.flatten, List.nil_append,
        List.length_nil, List.cons_append]
      exact parseValue_emptyArray (by decide) _
    | @cons e l es2 ls2 he hes =>
      have hfa : List.Forall₂ EntryText.Reads (e :: es2) (l :: ls2) := List.Forall₂.cons he hes
      obtain ⟨s, hs⟩ : ∃ s, List.intercalate [44] (List.map EntryText.render (e :: es2))
          = 123 :: s := by
        obtain ⟨s, hs⟩ := render_head e
        cases es2 with
        | nil => exact ⟨s, by simp [List.intercalate, hs]⟩
        | cons e2 es3 => exact ⟨s ++ 44 :: List.intercalate [44]
            (List.map EntryText.render (e2 :: es3)), by simp [List.intercalate, hs]⟩
      have hp := parseElements_entries hfa (by simp) m 2 [] [125] (by decide)
      rw [hs] at hp ⊢
      simp only [List.cons_append, List.append_assoc, List.singleton_append]
      rw [parseValue_array (by decide)]
      simpa using hp
  rw [parseMembers_close k1 [] hv]
  simp [skipSpace]


/-! ## Scan logs: keys, entries and their order -/

theorem fold_timestamp_ne_exception : foldName (ascii "timestamp") ≠ foldName (ascii "exception") := by
  decide

theorem fold_status_ne_exception : foldName (ascii "status") ≠ foldName (ascii "exception") := by
  decide

theorem findField_exception {k : Bytes} (h : IsKey (ascii "exception") k) :
    findField scanLogFields k = some .Exception := by
  unfold IsKey at h
  have n1 : ascii "timestamp" ≠ k := by
    intro e; rw [← e] at h; exact fold_timestamp_ne_exception h
  have n2 : ascii "status" ≠ k := by
    intro e; rw [← e] at h; exact fold_status_ne_exception h
  have m1 : foldName (ascii "timestamp") ≠ foldName k := by
    rw [h]; exact fold_timestamp_ne_exception
  have m2 : foldName (ascii "status") ≠ foldName k := by
    rw [h]; exact fold_status_ne_exception
  by_cases n3 : ascii "exception" = k
  · simp [findField, scanLogFields, List.find?, n1, n2, n3]
  · simp [findField, scanLogFields, List.find?, n1, n2, n3, m1, m2, h,
      fold_timestamp_ne_exception, fold_status_ne_exception]

theorem findField_isKey {k : Bytes} {f : ScanLogField} (h : findField scanLogFields k = some f) :
    (f = .Timestamp ∧ IsKey (ascii "timestamp") k) ∨ (f = .Status ∧ IsKey (ascii "status") k)
      ∨ (f = .Exception ∧ IsKey (ascii "exception") k) := by
  unfold IsKey
  by_cases n1 : ascii "timestamp" = k
  · subst n1
    simp [findField, scanLogFields, List.find?] at h
    exact Or.inl ⟨h.symm, rfl⟩
  by_cases n2 : ascii "status" = k
  · subst n2
    have : findField scanLogFields (ascii "status") = some .Status := by decide
    rw [this] at h
    cases h
    exact Or.inr (Or.inl ⟨rfl, rfl⟩)
  by_cases n3 : ascii "exception" = k
  · subst n3
    have : findField scanLogFields (ascii "exception") = some .Exception := by decide
    rw [this] at h
    cases h
    exact Or.inr (Or.inr ⟨rfl, rfl⟩)
  by_cases m1 : foldName (ascii "timestamp") = foldName k
  · simp [findField, scanLogFields, List.find?, n1, n2, n3, m1] at h
    exact Or.inl ⟨h.symm, m1.symm⟩
  by_cases m2 : foldName (ascii "status") = foldName k
  · simp [findField, scanLogFields, List.find?, n1, n2, n3, m1, m2] at h
    exact Or.inr (Or.inl ⟨h.symm, m2.symm⟩)
  by_cases m3 : foldName (ascii "exception") = foldName k
  · simp [findField, scanLogFields, List.find?, n1, n2, n3, m1, m2, m3] at h
    exact Or.inr (Or.inr ⟨h.symm, m3.symm⟩)
  · simp [findField, scanLogFields, List.find?, n1, n2, n3, m1, m2, m3] at h

theorem findField_logs {k : Bytes} (h : IsKey (ascii "logs") k) :
    findField scanLogsResultFields k = some () := by
  unfold IsKey at h
  by_cases n : ascii "logs" = k
  · simp [findField, scanLogsResultFields, List.find?, n]
  · simp [findField, scanLogsResultFields, List.find?, n, h]

theorem findField_not_logs {k : Bytes} (h : ¬ IsKey (ascii "logs") k) :
    findField scanLogsResultFields k = none := by
  unfold IsKey at h
  have n : ascii "logs" ≠ k := by
    intro e; rw [← e] at h; exact h rfl
  have m : foldName (ascii "logs") ≠ foldName k := fun e => h e.symm
  simp [findField, scanLogsResultFields, List.find?, n, m]

/-! ### One entry -/

theorem storeScanLog_object (ms : List (Bytes × JSON)) (cur : ScanLog) :
    storeScanLog (.object ms) cur
      = ms.foldl (storeStep scanLogFields setScanLogField) (cur, none) := rfl

theorem entry_exception_keeps (ms : List (Bytes × JSON)) :
    ∀ st : ScanLog × Option error, (∀ kv ∈ ms, ¬ IsKey (ascii "exception") kv.1) →
      (ms.foldl (storeStep scanLogFields setScanLogField) st).1.Exception = st.1.Exception := by
  induction ms with
  | nil => intro st _; rfl
  | cons kv ms ih =>
    intro st h
    have hkv := h kv (List.mem_cons_self _ _)
    rw [List.foldl_cons, ih _ (fun x hx => h x (List.mem_cons_of_mem _ hx))]
    unfold storeStep
    cases hf : findField scanLogFields kv.1 with
    | none => rfl
    | some f =>
      rcases findField_isKey hf with ⟨rfl, _⟩ | ⟨rfl, _⟩ | ⟨_, hk⟩
      · rfl
      · rfl
      · exact absurd hk hkv

theorem entry_exception_last (ms1 ms2 : List (Bytes × JSON)) (k : Bytes) (v : JSON)
    (cur : ScanLog) (hk : IsKey (ascii "exception") k)
    (h2 : ∀ kv ∈ ms2, ¬ IsKey (ascii "exception") kv.1) :
    (storeScanLog (.object (ms1 ++ (k, v) :: ms2)) cur).1.Exception
      = (storeStringPtr v
          (storeScanLog (.object ms1) cur).1.Exception).1 := by
  rw [storeScanLog_object, storeScanLog_object, List.foldl_append, List.foldl_cons,
    entry_exception_keeps ms2 _ h2]
  simp only [storeStep, findField_exception hk]
  rfl

theorem entry_exception_absent (ms : List (Bytes × JSON))
    (h : ∀ kv ∈ ms, ¬ IsKey (ascii "exception") kv.1) :
    (storeScanLog (.object ms) ⟨[], [], none⟩).1.Exception = none := by
  rw [storeScanLog_object, entry_exception_keeps ms _ h]

theorem storeString_ok {v : JSON} (h : v.isStringOrNull = true) (cur : Bytes) :
    (storeString v cur).2 = none := by
  cases v <;> first | rfl | cases h

theorem storeStringPtr_ok {v : JSON} (h : v.isStringOrNull = true) (cur : Option Bytes) :
    (storeStringPtr v cur).2 = none := by
  cases v <;> first | rfl | cases h

theorem entry_no_error (ms : List (Bytes × JSON)) :
    ∀ st : ScanLog × Option error, st.2 = none →
      (∀ kv ∈ ms,
        IsKey (ascii "timestamp") kv.1 ∨ IsKey (ascii "status") kv.1
            ∨ IsKey (ascii "exception") kv.1 →
          kv.2.isStringOrNull = true) →
      (ms.foldl (storeStep scanLogFields setScanLogField) st).2 = none := by
  induction ms with
  | nil => intro st h _; exact h
  | cons kv ms ih =>
    intro st hst h
    have hkv := h kv (List.mem_cons_self _ _)
    rw [List.foldl_cons]
    apply ih _ _ (fun x hx => h x (List.mem_cons_of_mem _ hx))
    unfold storeStep
    cases hf : findField scanLogFields kv.1 with
    | none => exact hst
    | some f =>
      rcases findField_isKey hf with ⟨rfl, hk⟩ | ⟨rfl, hk⟩ | ⟨rfl, hk⟩
      · simp [setScanLogField, hst, saveError, storeString_ok (hkv (Or.inl hk))]
      · simp [setScanLogField, hst, saveError, storeString_ok (hkv (Or.inr (Or.inl hk)))]
      · simp [setScanLogField, hst, saveError, storeStringPtr_ok (hkv (Or.inr (Or.inr hk)))]

theorem storeScanLogPtr_wellTyped {j : JSON} (h : WellTypedEntry j) :
    (storeScanLogPtr j none).2 = none := by
  cases j with
  | null => rfl
  | object ms =>
    unfold WellTypedEntry at h
    show (storeScanLog (.object ms) ⟨[], [], none⟩).2 = none
    rw [storeScanLog_object]
    exact entry_no_error ms (⟨[], [], none⟩, none) rfl h
  | bool b => cases h
  | number r => cases h
  | string s => cases h
  | array es => cases h

/-! ### The array `logs` -/

theorem storeElems_fresh (entries : List JSON) :
    storeElems entries [] = entries.map (fun j => storeScanLogPtr j none) := by
  induction entries with
  | nil => rfl
  | cons e es ih => simp [storeElems, ih]

theorem foldl_saveError_none (l : List (Option error)) (h : ∀ x ∈ l, x = none) :
    l.foldl saveError none = none := by
  induction l with
  | nil => rfl
  | cons x l ih =>
    have hx := h x (List.mem_cons_self _ _)
    subst hx
    exact ih (fun y hy => h y (List.mem_cons_of_mem _ hy))

theorem storeLogs_fresh (entries : List JSON)
    (h : ∀ j ∈ entries, (storeScanLogPtr j none).2 = none) :
    storeLogs (.array entries) ⟨[], []⟩
      = (⟨entries.map (fun j => (storeScanLogPtr j none).1), []⟩, none) := by
  cases entries with
  | nil => rfl
  | cons e es =>
    have hn : ((e :: es).map (fun j => (storeScanLogPtr j none).2)).foldl saveError none = none :=
      foldl_saveError_none _ (by
        intro x hx
        obtain ⟨j, hj, rfl⟩ := List.mem_map.1 hx
        exact h j hj)
    simp only [storeLogs, List.append_nil, storeElems_fresh, List.map_map, List.drop_nil]
    exact Prod.ext rfl hn

theorem logs_skip (ms : List (Bytes × JSON)) :
    ∀ st : LogSlice × Option error, (∀ kv ∈ ms, ¬ IsKey (ascii "logs") kv.1) →
      ms.foldl (storeStep scanLogsResultFields (fun v (_ : Unit) x => storeLogs x v)) st
        = st := by
  induction ms with
  | nil => intro st _; rfl
  | cons kv ms ih =>
    intro st h
    rw [List.foldl_cons]
    simp only [storeStep, findField_not_logs (h kv (List.mem_cons_self _ _))]
    exact ih st (fun x hx => h x (List.mem_cons_of_mem _ hx))

theorem store_logs_object (before after : List (Bytes × JSON)) (key : Bytes)
    (entries : List JSON) (hkey : IsKey (ascii "logs") key)
    (hothers : ∀ kv ∈ before ++ after, ¬ IsKey (ascii "logs") kv.1)
    (hentries : ∀ j ∈ entries, WellTypedEntry j) :
    storeScanLogsResult (.object (before ++ (key, .array entries) :: after)) ⟨[]⟩
      = (⟨entries.map (fun j => (storeScanLogPtr j none).1)⟩, none) := by
  have hb : ∀ kv ∈ before, ¬ IsKey (ascii "logs") kv.1 :=
    fun kv hkv => hothers kv (List.mem_append_left _ hkv)
  have ha : ∀ kv ∈ after, ¬ IsKey (ascii "logs") kv.1 :=
    fun kv hkv => hothers kv (List.mem_append_right _ hkv)
  have hs := storeLogs_fresh entries (fun j hj => storeScanLogPtr_wellTyped (hentries j hj))
  have hfold : storeMembers scanLogsResultFields (fun v (_ : Unit) x => storeLogs x v)
      (before ++ (key, .array entries) :: after) ⟨[], []⟩
        = (⟨entries.map (fun j => (storeScanLogPtr j none).1), []⟩, none) := by
    show List.foldl _ _ _ = _
    rw [List.foldl_append, List.foldl_cons, logs_skip before _ hb]
    simp only [storeStep, findField_logs hkey, hs, saveError]
    exact logs_skip after _ ha
  unfold storeScanLogsResult
  simp only [hfold]

theorem GetScanLogs_ok (env : Env) (c : apiClient) (hash : Bytes) (t : List Event)
    (status body : Bytes) (v : ScanLogsResult)
    (hurl : Accepts env (c.baseURL ++ ascii "/api/v1/scan_logs"))
    (hv : Unmarshal storeScanLogsResult body ⟨[]⟩ = (v, none)) :
    (GetScanLogs (env.answer (okResponse status body)) c hash t).1 = (some v, none) := by
  rw [GetScanLogs_accepted (env.answer (okResponse status body)) c hash t hurl]
  simp [Env.answer, okResponse, StatusOK, ReadAll, hv]

theorem store_entries_ok {es : List EntryText} {ls : List ScanLog}
    (h : List.Forall₂ EntryText.Reads es ls) :
    ∀ j ∈ List.zipWith entryJSON es ls, (storeScanLogPtr j none).2 = none := by
  induction h with
  | nil => intro j hj; simp at hj
  | @cons e l es ls he _ ih =>
    intro j hj
    simp only [List.zipWith, List.mem_cons] at hj
    rcases hj with rfl | hj
    · rw [store_entry he]
    · exact ih j hj

theorem Unmarshal_logsBody {es : List EntryText} {ls : List ScanLog}
    (h : List.Forall₂ EntryText.Reads es ls) :
    Unmarshal storeScanLogsResult (logsBody es) ⟨[]⟩ = (⟨ls.map some⟩, none) := by
  unfold Unmarshal
  rw [parse_logsBody h]
  have hfold : storeMembers scanLogsResultFields (fun v (_ : Unit) x => storeLogs x v)
      [(ascii "logs", .array (List.zipWith entryJSON es ls))] ⟨[], []⟩
        = (⟨ls.map some, []⟩, none) := by
    have hs := storeLogs_fresh (List.zipWith entryJSON es ls) (store_entries_ok h)
    rw [(store_entries h).1] at hs
    have f1 : findField scanLogsResultFields (ascii "logs") = some () := by decide
    simp [storeMembers, storeStep, f1, hs, saveError]
  unfold storeScanLogsResult
  simp only [hfold]

/-- A response that writes `logs` more than once: the elements the slice holds
are decoded into again, and what a longer array left in the backing array comes
back when a later array is longer than the one before it. -/
theorem logs_written_again :
    (Unmarshal storeScanLogsResult
        (ascii ("\x7b\"logs\":[\x7b\"timestamp\":\"a\",\"status\":\"b\",\"exception\":\"x\"\x7d],"
          ++ "\"logs\":[\x7b\x7d]\x7d")) ⟨[]⟩
      = (⟨[some ⟨ascii "a", ascii "b", some (ascii "x")⟩]⟩, none))
    ∧ (Unmarshal storeScanLogsResult
        (ascii ("\x7b\"logs\":[\x7b\"timestamp\":\"a\"\x7d,\x7b\"timestamp\":\"b\"\x7d],"
          ++ "\"logs\":[null],\"logs\":[\x7b\"status\":\"c\"\x7d,\x7b\x7d]\x7d")) ⟨[]⟩
      = (⟨[some ⟨[], ascii "c", none⟩, some ⟨ascii "b", [], none⟩]⟩, none)) := by
  decide

theorem expect_append (d rest : Bytes) : expect d (d ++ rest) = some rest := by
  induction d with
  | nil => cases rest <;> rfl
  | cons x d ih => simp [expect, ih]

theorem expect_some {d s r : Bytes} (h : expect d s = some r) : s = d ++ r := by
  induction d generalizing s with
  | nil =>
    cases s <;> simp [expect] at h <;> simp [h]
  | cons x d ih =>
    cases s with
    | nil => simp [expect] at h
    | cons c s =>
      by_cases hx : x = c
      · subst hx
        simp only [expect, if_true] at h
        rw [ih h]
        rfl
      · simp [expect, hx] at h

theorem expect_none_of_not_head {d s : Bytes} (h : ¬ d <+: s) : expect d s = none := by
  cases he : expect d s with
  | none => rfl
  | some r => exact absurd ⟨r, (expect_some he).symm⟩ h

theorem not_head_delimiter {x : Nat} {d' a : Bytes} (rest : Bytes) (hx : x ∉ d') (hne : a ≠ [])
    (hno : ¬ (x :: d') <:+: a) : ¬ (x :: d') <+: a ++ ((x :: d') ++ rest) := by
  intro hp
  by_cases hl : (x :: d').length ≤ a.length
  · have : (x :: d') <+: a := List.prefix_of_prefix_length_le hp (List.prefix_append _ _) hl
    exact hno this.isInfix
  · have ha : a <+: (x :: d') :=
      List.prefix_of_prefix_length_le (List.prefix_append _ _) hp (by omega)
    obtain ⟨u, hu⟩ := ha
    have hu' : a ++ u <+: a ++ ((x :: d') ++ rest) := by rw [hu]; exact hp
    have hu2 : u <+: (x :: d') ++ rest := (List.prefix_append_right_inj a).1 hu'
    have hlu : u.length ≤ (x :: d').length := by
      have := congrArg List.length hu
      simp only [List.length_append] at this
      omega
    have hu3 : u <+: (x :: d') := List.prefix_of_prefix_length_le hu2 (List.prefix_append _ _) hlu
    have hune : u ≠ [] := by
      intro h0
      rw [h0, List.append_nil] at hu
      rw [hu] at hl
      exact hl (le_refl _)
    obtain ⟨c, a', rfl⟩ := List.exists_cons_of_ne_nil hne
    obtain ⟨y, u', rfl⟩ := List.exists_cons_of_ne_nil hune
    obtain ⟨w, hw⟩ := hu3
    have hy : y = x := by
      simp only [List.cons_append, List.cons.injEq] at hw
      exact hw.1
    subst hy
    simp only [List.cons_append, List.cons.injEq] at hu
    have : y ∈ d' := by
      rw [← hu.2]
      simp
    exact hx this

theorem splitAtFirst_append {x : Nat} {d' : Bytes} (hx : x ∉ d') (a rest : Bytes)
    (hno : ¬ (x :: d') <:+: a) :
    splitAtFirst (x :: d') (a ++ ((x :: d') ++ rest)) = some (a, rest) := by
  induction a with
  | nil =>
    have h := expect_append (x :: d') rest
    simp only [List.nil_append, List.cons_append] at h ⊢
    simp only [splitAtFirst, h]
  | cons c a ih =>
    have hno' : ¬ (x :: d') <:+: a := fun h => hno (h.trans (List.suffix_cons c a).isInfix)
    have hn := expect_none_of_not_head (not_head_delimiter rest hx (by simp) hno)
    have ih' := ih hno'
    simp only [List.cons_append] at hn ih' ⊢
    simp only [splitAtFirst, hn, ih']

theorem writtenName_false (s : Bytes) : writtenName false s = s := by
  induction s with
  | nil => rfl
  | cons c s ih =>
    unfold writtenName at ih ⊢
    simp [List.flatMap_cons, ih]

theorem writtenName_clean (percent : Bool) (s : Bytes) (h10 : 10 ∉ s) (h13 : 13 ∉ s) :
    writtenName percent s = s := by
  induction s with
  | nil => rfl
  | cons c s ih =>
    have hc10 : c ≠ 10 := fun h => h10 (h ▸ List.mem_cons_self _ _)
    have hc13 : c ≠ 13 := fun h => h13 (h ▸ List.mem_cons_self _ _)
    have ih' := ih (fun h => h10 (List.mem_cons_of_mem _ h)) (fun h => h13 (List.mem_cons_of_mem _ h))
    unfold writtenName at ih' ⊢
    simp [List.flatMap_cons, ih', hc10, hc13]

theorem escapeQuotes_clean (percent : Bool) (s : Bytes) (h10 : 10 ∉ s) (h13 : 13 ∉ s) :
    escapeQuotes percent s = escapeQuotes false s := by
  induction s with
  | nil => rfl
  | cons c s ih =>
    have hc10 : c ≠ 10 := fun h => h10 (h ▸ List.mem_cons_self _ _)
    have hc13 : c ≠ 13 := fun h => h13 (h ▸ List.mem_cons_self _ _)
    have ih' := ih (fun h => h10 (List.mem_cons_of_mem _ h)) (fun h => h13 (List.mem_cons_of_mem _ h))
    unfold escapeQuotes at ih' ⊢
    simp [List.flatMap_cons, ih', hc10, hc13]

theorem formFileLine_clean (percent : Bool) (s : Bytes) (h10 : 10 ∉ s) (h13 : 13 ∉ s) :
    formFileLine percent s = dispositionLine s := by
  unfold formFileLine dispositionLine
  rw [escapeQuotes_clean percent s h10 h13]

theorem readQuoted_escapeQuotes (percent : Bool) (s : Bytes) :
    ∀ (acc rest : Bytes),
      readQuoted (escapeQuotes percent s ++ 34 :: rest) acc
        = some (acc ++ writtenName percent s, rest) := by
  induction s with
  | nil =>
    intro acc rest
    unfold readQuoted
    simp [escapeQuotes, writtenName]
  | cons c s ih =>
    intro acc rest
    have e : escapeQuotes percent (c :: s)
        = (if c = 92 then [92, 92] else if c = 34 then [92, 34]
            else if percent = true ∧ c = 13 then [37, 48, 68]
            else if percent = true ∧ c = 10 then [37, 48, 65] else [c])
          ++ escapeQuotes percent s := by
      simp [escapeQuotes]
    have w : writtenName percent (c :: s)
        = (if percent = true ∧ c = 13 then [37, 48, 68]
            else if percent = true ∧ c = 10 then [37, 48, 65] else [c])
          ++ writtenName percent s := by
      simp [writtenName]
    rw [e, w]
    by_cases h92 : c = 92
    · subst h92
      unfold readQuoted
      simp [ih]
    · by_cases h34 : c = 34
      · subst h34
        unfold readQuoted
        simp [ih]
      · by_cases h13 : percent = true ∧ c = 13
        · simp only [if_neg h92, if_neg h34, if_pos h13, List.cons_append, List.nil_append]
          unfold readQuoted
          simp only [show (37 : Nat) ≠ 34 by decide, show (37 : Nat) ≠ 92 by decide, if_false]
          unfold readQuoted
          simp only [show (48 : Nat) ≠ 34 by decide, show (48 : Nat) ≠ 92 by decide, if_false]
          unfold readQuoted
          simp only [show (68 : Nat) ≠ 34 by decide, show (68 : Nat) ≠ 92 by decide, if_false]
          rw [ih]
          simp
        · by_cases h10 : percent = true ∧ c = 10
          · simp only [if_neg h92, if_neg h34, if_neg h13, if_pos h10, List.cons_append,
              List.nil_append]
            unfold readQuoted
            simp only [show (37 : Nat) ≠ 34 by decide, show (37 : Nat) ≠ 92 by decide, if_false]
            unfold readQuoted
            simp only [show (48 : Nat) ≠ 34 by decide, show (48 : Nat) ≠ 92 by decide, if_false]
            unfold readQuoted
            simp only [show (65 : Nat) ≠ 34 by decide, show (65 : Nat) ≠ 92 by decide, if_false]
            rw [ih]
            simp
          · simp only [if_neg h92, if_neg h34, if_neg h13, if_neg h10, List.cons_append,
              List.nil_append]
            unfold readQuoted
            simp only [if_neg h34, if_neg h92]
            rw [ih]
            simp

theorem readDisposition_formFileLine (percent : Bool) (filename : Bytes) :
    readDisposition (formFileLine percent filename)
      = some (ascii "file", writtenName percent filename) := by
  have c1 : ascii "Content-Disposition: form-data; name=\"file\"; filename=\""
      = ascii "Content-Disposition: form-data; name=\"" ++ (escapeQuotes false (ascii "file")
          ++ 34 :: (ascii "; filename=\"" ++ [])) := by decide
  have w : writtenName false (ascii "file") = ascii "file" := writtenName_false _
  unfold readDisposition formFileLine
  rw [c1]
  simp only [List.append_assoc, expect_append, List.cons_append, readQuoted_escapeQuotes,
    List.nil_append, w]
  simp [readQuoted_escapeQuotes]

theorem readDisposition_line (filename : Bytes) :
    readDisposition (dispositionLine filename) = some (ascii "file", filename) := by
  have h := readDisposition_formFileLine false filename
  rw [writtenName_false] at h
  exact h

theorem UploadApp_sent_eq (env : Env) (c : apiClient) (filePath content : Bytes)
    (t : List Event) (hopen : env.Open (t ++ [.randRead]) filePath = .ok ⟨content, none⟩)
    (hurl : Accepts env (c.baseURL ++ ascii "/api/v1/upload")) :
    sent (UploadApp env c filePath t).2
      = [uploadRequestWith c (randomBoundary (env.Rand t))
          (formFileLine env.PercentCRLF filePath) content] := by
  rw [UploadApp_accepted env c filePath content t _ rfl hopen hurl]
  split
  · simp [sent]
  · split
    · simp [sent]
    · split
      · simp [sent]
      · split <;> simp [sent]

theorem UploadApp_sent_mem (env : Env) (c : apiClient) (filePath : Bytes) (t : List Event)
    (req : Request) (h : req ∈ sent (UploadApp env c filePath t).2) :
    ∃ content, env.Open (t ++ [.randRead]) filePath = .ok ⟨content, none⟩
      ∧ req = uploadRequestWith c (randomBoundary (env.Rand t))
          (formFileLine env.PercentCRLF filePath) content := by
  cases ho : env.Open (t ++ [.randRead]) filePath with
  | error e =>
    simp [UploadApp, Open, ho, sent] at h
  | ok fd =>
    obtain ⟨content, re⟩ := fd
    cases re with
    | some e =>
      simp [UploadApp, Open, ho, CreateFormFile_file, Copy, sent] at h
    | none =>
      refine ⟨content, rfl, ?_⟩
      by_cases hacc : Accepts env (c.baseURL ++ ascii "/api/v1/upload")
      · rw [UploadApp_sent_eq env c filePath content t ho hacc] at h
        simpa using h
      · obtain ⟨e, he⟩ := NewRequest_rejects hacc MethodPost
          (formFileMessage (randomBoundary (env.Rand t)) (formFileLine env.PercentCRLF filePath)
            content)
        unfold UploadApp Open at h
        simp only [ho, CreateFormFile_file, Copy, Writer.Close, formFileMessage_eq, he] at h
        simp [sent] at h

theorem crlf_not_inside {l : Bytes} (h : 13 ∉ l) : ¬ (13 :: [10]) <:+: l := by
  intro hi
  exact h (hi.subset (List.mem_cons_self _ _))

theorem readHeaderLines_two (k : Nat) (l1 l2 X : Bytes) (h1 : 13 ∉ l1 ∧ 10 ∉ l1)
    (h2 : 13 ∉ l2 ∧ 10 ∉ l2) (n1 : l1 ≠ []) (n2 : l2 ≠ []) :
    readHeaderLines (k + 3) (l1 ++ (crlf ++ (l2 ++ (crlf ++ (crlf ++ X)))))
      = some ([l1, l2], X) := by
  have hx : (13 : Nat) ∉ [10] := by decide
  have hc : crlf = 13 :: [10] := rfl
  simp only [hc]
  have s1 := splitAtFirst_append hx l1 (l2 ++ ((13 :: [10]) ++ ((13 :: [10]) ++ X)))
    (crlf_not_inside h1.1)
  have s2 := splitAtFirst_append hx l2 ((13 :: [10]) ++ X) (crlf_not_inside h2.1)
  have s3 := splitAtFirst_append hx [] X (by
    intro hi
    have := hi.length_le
    simp at this)
  simp only [List.nil_append] at s3
  have b1 : ¬ (13 ∈ l1 ∨ 10 ∈ l1) := fun h => h.elim h1.1 h1.2
  have b2 : ¬ (13 ∈ l2 ∨ 10 ∈ l2) := fun h => h.elim h2.1 h2.2
  simp only [readHeaderLines, hc, s1, s2, s3, n1, n2, b1, b2, if_false, if_true]

theorem escapeQuotes_no_cr (percent : Bool) (s : Bytes) (h : percent = true ∨ 13 ∉ s) :
    13 ∉ escapeQuotes percent s := by
  unfold escapeQuotes
  simp only [List.mem_flatMap, not_exists, not_and]
  intro c hc
  split
  · simp
  · split
    · simp
    · split
      · simp
      · split
        · simp
        · rename_i h1 h2 h3 h4
          simp only [List.mem_singleton]
          intro h13
          rcases h with hp | hs
          · exact h3 ⟨hp, h13.symm⟩
          · exact hs (h13 ▸ hc)

theorem escapeQuotes_no_lf (percent : Bool) (s : Bytes) (h : percent = true ∨ 10 ∉ s) :
    10 ∉ escapeQuotes percent s := by
  unfold escapeQuotes
  simp only [List.mem_flatMap, not_exists, not_and]
  intro c hc
  split
  · simp
  · split
    · simp
    · split
      · simp
      · split
        · simp
        · rename_i h1 h2 h3 h4
          simp only [List.mem_singleton]
          intro h10
          rcases h with hp | hs
          · exact h4 ⟨hp, h10.symm⟩
          · exact hs (h10 ▸ hc)

theorem formFileLine_one_line (percent : Bool) (filename : Bytes)
    (h : percent = true ∨ (10 ∉ filename ∧ 13 ∉ filename)) :
    13 ∉ formFileLine percent filename ∧ 10 ∉ formFileLine percent filename := by
  have c1 : (13 : Nat) ∉ ascii "Content-Disposition: form-data; name=\"file\"; filename=\"" := by
    decide
  have c2 : (10 : Nat) ∉ ascii "Content-Disposition: form-data; name=\"file\"; filename=\"" := by
    decide
  have e1 := escapeQuotes_no_cr percent filename (h.imp id (fun x => x.2))
  have e2 := escapeQuotes_no_lf percent filename (h.imp id (fun x => x.1))
  simp only [formFileLine, List.mem_append, List.mem_singleton, not_or]
  exact ⟨⟨⟨c1, e1⟩, by decide⟩, ⟨⟨c2, e2⟩, by decide⟩⟩

theorem dispositionLine_no_cr {filename : Bytes} (h : 13 ∉ filename) :
    13 ∉ dispositionLine filename := by
  have c1 : (13 : Nat) ∉ ascii "Content-Disposition: form-data; name=\"file\"; filename=\"" := by
    decide
  have e1 := escapeQuotes_no_cr false filename (Or.inr h)
  simp only [dispositionLine, List.mem_append, List.mem_singleton, not_or]
  exact ⟨⟨c1, e1⟩, by decide⟩

theorem formFileLine_ne_nil (percent : Bool) (filename : Bytes) :
    formFileLine percent filename ≠ [] := by
  have c1 : ascii "Content-Disposition: form-data; name=\"file\"; filename=\""
      = 67 :: ascii "ontent-Disposition: form-data; name=\"file\"; filename=\"" := by decide
  unfold formFileLine
  rw [c1]
  simp

theorem readMultipart_formFileMessage (b line content : Bytes) (hb : 13 ∉ b)
    (hl : 13 ∉ line ∧ 10 ∉ line) (hne : line ≠ [])
    (hc : ¬ delimiter b <:+: crlf ++ content) :
    readMultipart b (formFileMessage b line content)
      = some [⟨[line, contentTypeLine], content⟩] := by
  have hx : (13 : Nat) ∉ 10 :: 45 :: 45 :: b := by
    simp only [List.mem_cons, not_or]
    exact ⟨by decide, by decide, by decide, hb⟩
  have hd : delimiter b = 13 :: (10 :: 45 :: 45 :: b) := by
    simp [delimiter, crlf, dashes]
  have hsplit := splitAtFirst_append hx (crlf ++ content) (dashes ++ crlf)
    (by rw [← hd]; exact hc)
  rw [← hd] at hsplit
  obtain ⟨k, hk⟩ : ∃ k, (line ++ (crlf ++ (contentTypeLine
      ++ (crlf ++ (crlf ++ (content ++ (delimiter b ++ (dashes ++ crlf)))))))).length + 1
        = k + 3 :=
    ⟨(line ++ (crlf ++ (contentTypeLine
      ++ (crlf ++ (crlf ++ (content ++ (delimiter b ++ (dashes ++ crlf)))))))).length - 2, by
      simp [crlf]
      omega⟩
  have hh := readHeaderLines_two k line contentTypeLine
    (content ++ (delimiter b ++ (dashes ++ crlf))) hl (by decide) hne (by decide)
  unfold readMultipart formFileMessage
  rw [expect_append]
  simp only [readParts, hk, hh]
  have hdl : crlf ++ dashes ++ b = delimiter b := rfl
  have happ : crlf ++ (content ++ (delimiter b ++ (dashes ++ crlf)))
      = (crlf ++ content) ++ (delimiter b ++ (dashes ++ crlf)) := by simp
  rw [hdl, happ, hsplit]
  simp only [expect_append]
  simp [expect, crlf]

/-! ## The upload request as a multipart message -/

theorem randomBoundary_no_cr (r : Bytes) : 13 ∉ randomBoundary r := by
  intro h
  have := randomBoundary_hex r 13 h
  omega

/-- C4, as amended. When the file at `P` opens and reads as `B`, the URL is
accepted, the delimiter of the writer's boundary (CR LF, two hyphens, the
boundary) does not occur in `B` nor at its head without the CR LF, and the
release of `mime/multipart` writes CR and LF in a file name as `%0D` and `%0A`
or `P` holds neither, `UploadApp(P)` hands `client.Do` exactly one request: a
POST to `baseURL` followed by `/api/v1/upload`, whose `Content-Type` is
`multipart/form-data; boundary=` followed by the boundary, and whose body a
multipart reader splits into exactly one part, with the `Content-Disposition`
line of field `file` and content `B`. -/
theorem C4_upload_one_part (env : Env) (c : apiClient) (P B : Bytes) (t : List Event)
    (hopen : env.Open (t ++ [.randRead]) P = .ok ⟨B, none⟩)
    (hurl : Accepts env (c.baseURL ++ ascii "/api/v1/upload"))
    (hP : env.PercentCRLF = true ∨ (10 ∉ P ∧ 13 ∉ P))
    (hB : ¬ delimiter (randomBoundary (env.Rand t)) <:+: crlf ++ B) :
    ∃ req, sent (UploadApp env c P t).2 = [req]
      ∧ req.Method = ascii "POST"
      ∧ req.URL = c.baseURL ++ ascii "/api/v1/upload"
      ∧ req.Header.Get (ascii "Content-Type")
          = ascii "multipart/form-data; boundary=" ++ randomBoundary (env.Rand t)
      ∧ readMultipart (randomBoundary (env.Rand t)) req.Body
          = some [⟨[formFileLine env.PercentCRLF P, contentTypeLine], B⟩]
      ∧ readDisposition (formFileLine env.PercentCRLF P)
          = some (ascii "file", writtenName env.PercentCRLF P) :=
  ⟨uploadRequestWith c (randomBoundary (env.Rand t)) (formFileLine env.PercentCRLF P) B,
    UploadApp_sent_eq env c P B t hopen hurl, rfl, rfl, Get_ContentType _ _,
    readMultipart_formFileMessage _ _ B (randomBoundary_no_cr _)
      (formFileLine_one_line _ P hP) (formFileLine_ne_nil _ P) hB,
    readDisposition_formFileLine _ P⟩

set_option maxRecDepth 100000 in
/-- C4 at the file of the example world, and at a file whose name holds CR LF,
under a release that writes them as `%0D%0A`; the empty file beside them. -/
theorem C4_witness :
    (∃ req, sent (UploadApp (exampleEnv ⟨ascii "200 OK", 200, ⟨[], none⟩⟩) exampleClient
          (ascii "/tmp/build/app.apk") []).2 = [req]
      ∧ req.Method = ascii "POST"
      ∧ req.URL = exampleClient.baseURL ++ ascii "/api/v1/upload"
      ∧ req.Header.Get (ascii "Content-Type")
          = ascii "multipart/form-data; boundary=" ++ randomBoundary
              ((exampleEnv ⟨ascii "200 OK", 200, ⟨[], none⟩⟩).Rand [])
      ∧ readMultipart (randomBoundary ((exampleEnv ⟨ascii "200 OK", 200, ⟨[], none⟩⟩).Rand []))
            req.Body
          = some [⟨[formFileLine (exampleEnv ⟨ascii "200 OK", 200, ⟨[], none⟩⟩).PercentCRLF
              (ascii "/tmp/build/app.apk"), contentTypeLine], [80, 75, 3, 4]⟩]
      ∧ readDisposition (formFileLine (exampleEnv ⟨ascii "200 OK", 200, ⟨[], none⟩⟩).PercentCRLF
            (ascii "/tmp/build/app.apk"))
          = some (ascii "file", writtenName (exampleEnv ⟨ascii "200 OK", 200, ⟨[], none⟩⟩).PercentCRLF
              (ascii "/tmp/build/app.apk")))
    ∧ (sent (UploadApp (exampleEnv ⟨ascii "200 OK", 200, ⟨[], none⟩⟩) exampleClient
          (ascii "/tmp/build/app.apk") []).2).map
        (fun r => readMultipart exampleBoundary r.Body)
      = [some [⟨[ascii ("Content-Disposition: form-data; name=\"file\"; "
            ++ "filename=\"/tmp/build/app.apk\""), contentTypeLine], [80, 75, 3, 4]⟩]]
    ∧ (sent (UploadApp (fileEnv (ascii "a\r\nb") [1, 2, 3] ⟨ascii "200 OK", 200, ⟨[], none⟩⟩)
          exampleClient (ascii "a\r\nb") []).2).map
        (fun r => readMultipart exampleBoundary r.Body)
      = [some [⟨[ascii "Content-Disposition: form-data; name=\"file\"; filename=\"a%0D%0Ab\"",
          contentTypeLine], [1, 2, 3]⟩]]
    ∧ (sent (UploadApp (fileEnv (ascii "empty.bin") [] ⟨ascii "200 OK", 200, ⟨[], none⟩⟩)
          exampleClient (ascii "empty.bin") []).2).map
        (fun r => readMultipart exampleBoundary r.Body)
      = [some [⟨[dispositionLine (ascii "empty.bin"), contentTypeLine], []⟩]] :=
  ⟨C4_upload_one_part (exampleEnv ⟨ascii "200 OK", 200, ⟨[], none⟩⟩) exampleClient
      (ascii "/tmp/build/app.apk") [80, 75, 3, 4] [] rfl (by decide) (by decide) (by decide),
    by rfl, by rfl, by rfl⟩

set_option maxRecDepth 100000 in
/-- C4 as stated fails. The writer copies the content as it is and does not
look for its boundary in it. A file whose content begins with the two hyphens
and the boundary drawn (it need not hold the delimiter with its CR LF), or
holds the delimiter further on, is sent as a message whose one part ends there:
the content read is empty in the first case and the one byte before the
delimiter in the second, not the content of the file. And under a release that
leaves CR and LF in a file name as they are, a name with a line feed is sent as
a header line broken in two, which is no multipart message, and a name with
CR LF CR LF as a part whose header ends inside the name. -/
theorem C4_counterexample :
    ((sent (UploadApp
          (fileEnv (ascii "/tmp/build/app.apk") (dashes ++ exampleBoundary ++ dashes ++ crlf)
            ⟨ascii "200 OK", 200, ⟨[], none⟩⟩)
          exampleClient (ascii "/tmp/build/app.apk") []).2).map
        (fun r => readMultipart exampleBoundary r.Body)
      = [some [⟨[dispositionLine (ascii "/tmp/build/app.apk"), contentTypeLine], []⟩]]
      ∧ dashes ++ exampleBoundary ++ dashes ++ crlf ≠ []
      ∧ ¬ delimiter exampleBoundary <:+: dashes ++ exampleBoundary ++ dashes ++ crlf)
    ∧ (sent (UploadApp
          (fileEnv (ascii "/tmp/build/app.apk")
            (120 :: (delimiter exampleBoundary ++ dashes ++ crlf))
            ⟨ascii "200 OK", 200, ⟨[], none⟩⟩)
          exampleClient (ascii "/tmp/build/app.apk") []).2).map
        (fun r => readMultipart exampleBoundary r.Body)
      = [some [⟨[dispositionLine (ascii "/tmp/build/app.apk"), contentTypeLine], [120]⟩]]
    ∧ (sent (UploadApp
          (fileEnv (ascii "a\nb") [1, 2, 3] ⟨ascii "200 OK", 200, ⟨[], none⟩⟩).earlier
          exampleClient (ascii "a\nb") []).2).map
        (fun r => readMultipart exampleBoundary r.Body)
      = [none]
    ∧ (sent (UploadApp
          (fileEnv (ascii "a\r\n\r\nb") [1, 2, 3] ⟨ascii "200 OK", 200, ⟨[], none⟩⟩).earlier
          exampleClient (ascii "a\r\n\r\nb") []).2).map
        (fun r => readMultipart exampleBoundary r.Body)
      = [some [⟨[ascii "Content-Disposition: form-data; name=\"file\"; filename=\"a"],
          ascii "b\"\r\nContent-Type: application/octet-stream\r\n\r\n" ++ [1, 2, 3]⟩]] :=
  ⟨⟨by rfl, by decide, by decide⟩, by rfl, by rfl, by rfl⟩

/-- C5, as amended. For a path `P` that holds neither a line feed nor a carriage
return, the request `UploadApp(P)` sends opens with the delimiter line and the
`Content-Disposition` line of the part, and that line names the field `file`
and carries as file name the path `P` exactly as it was passed to `UploadApp`,
directories included; the line holds no carriage return, so that it is one line
of the header. -/
theorem C5_filename_is_path (env : Env) (c : apiClient) (P : Bytes) (t : List Event)
    (req : Request) (h : req ∈ sent (UploadApp env c P t).2) (hP : 10 ∉ P ∧ 13 ∉ P) :
    (∃ rest, req.Body
        = dashes ++ randomBoundary (env.Rand t) ++ crlf ++ (dispositionLine P ++ (crlf ++ rest)))
    ∧ readDisposition (dispositionLine P) = some (ascii "file", P)
    ∧ 13 ∉ dispositionLine P := by
  obtain ⟨content, _, rfl⟩ := UploadApp_sent_mem env c P t req h
  have hl := formFileLine_clean env.PercentCRLF P hP.1 hP.2
  refine ⟨⟨contentTypeLine ++ (crlf ++ (crlf ++ (content
    ++ (delimiter (randomBoundary (env.Rand t)) ++ (dashes ++ crlf))))), ?_⟩,
    readDisposition_line P, dispositionLine_no_cr hP.2⟩
  simp only [uploadRequestWith, formFileMessage, hl]

set_option maxRecDepth 100000 in
/-- C5 at the path `/tmp/build/app.apk`. -/
theorem C5_witness :
    uploadRequest (NewClient (ascii "http://scanner.local") (ascii "secret")) exampleBoundary
        (ascii "/tmp/build/app.apk") [80, 75, 3, 4]
      ∈ sent (UploadApp (exampleEnv ⟨ascii "200 OK", 200, ⟨[], none⟩⟩)
          (NewClient (ascii "http://scanner.local") (ascii "secret"))
          (ascii "/tmp/build/app.apk") []).2
    ∧ readDisposition (dispositionLine (ascii "/tmp/build/app.apk"))
        = some (ascii "file", ascii "/tmp/build/app.apk") :=
  ⟨by decide,
    (C5_filename_is_path (exampleEnv ⟨ascii "200 OK", 200, ⟨[], none⟩⟩)
      (NewClient (ascii "http://scanner.local") (ascii "secret")) (ascii "/tmp/build/app.apk") []
      (uploadRequest (NewClient (ascii "http://scanner.local") (ascii "secret")) exampleBoundary
        (ascii "/tmp/build/app.apk") [80, 75, 3, 4]) (by decide) (by decide)).2.1⟩

set_option maxRecDepth 100000 in
/-- C5 as stated fails: for the path `/tmp/build/app.apk`, whose base name is
`app.apk`, the one part of the request `UploadApp` sends has the
`Content-Disposition` line of the whole path, which a reader takes as the file
name `/tmp/build/app.apk`. -/
theorem C5_counterexample :
    (sent (UploadApp (exampleEnv ⟨ascii "200 OK", 200, ⟨[], none⟩⟩)
          (NewClient (ascii "http://scanner.local") (ascii "secret"))
          (ascii "/tmp/build/app.apk") []).2).map
        (fun r => readMultipart exampleBoundary r.Body)
      = [some [⟨[ascii ("Content-Disposition: form-data; name=\"file\"; "
            ++ "filename=\"/tmp/build/app.apk\""), contentTypeLine], [80, 75, 3, 4]⟩]]
    ∧ readDisposition (ascii ("Content-Disposition: form-data; name=\"file\"; "
          ++ "filename=\"/tmp/build/app.apk\""))
        = some (ascii "file", ascii "/tmp/build/app.apk")
    ∧ Base (ascii "/tmp/build/app.apk") = ascii "app.apk"
    ∧ ascii "/tmp/build/app.apk" ≠ Base (ascii "/tmp/build/app.apk") :=
  ⟨by rfl, by rfl, by rfl, by decide⟩

end Static
